import Mathlib

/-!
# County demographics loader and instruction interpreter (task_1.c)

A shallow embedding of `src/task_1.c`.

* C strings are NUL-free character lists (`Str`); `strcmp(a, b) == 0` is equality of lists.
* `int` values that the program only counts with (indices, line numbers, `remain`) are `Int`;
  the places where the machine width matters (`(int)i` in `convert_to_int`, the `long long`
  accumulators) carry an explicit wrap-around.
* `float` / `double` arithmetic, comparison and `strtof` are the fields of `FloatOps`: every
  definition takes the operations as a parameter, so the theorems hold for whatever the
  platform's floating point does.
* `printf` / `fprintf(stderr, ...)` calls append an `Event` to a log; an event keeps the
  arguments of the call, not the formatted text.
* The character buffers (`char line[10240]`, `char op_line[1024]`) are lists: a file is the
  sequence of lines as `fgets` delivers them.
* The pointer arrays `char *fields[200]` and `char *headers[200]` keep their capacity: the
  token loops store without a bound check, a store past entry 199 is undefined behaviour, and
  the functions that run such a loop return an `Option` whose `none` is that case.
-/

namespace Demographics

set_option maxRecDepth 100000

/-- A C string: its characters up to the terminating NUL. -/
abbrev Str := List Char

/-! ## Character and string helpers -/

/-- The `isspace` of the C locale: space, and the control characters `\t \n \v \f \r`. -/
def isspace (c : Char) : Bool :=
  c.toNat == 32 || (9 ≤ c.toNat && c.toNat ≤ 13)

/-- The double quote character. -/
def dquote : Char := Char.ofNat 34

/-- The function `trim_whitespace`: `start` skips the leading spaces and the rest is moved to
the front of the buffer; then `end` starts at the last character and moves left while `end > s`
and `*end` is a space, and the string is cut after `end`.  The character at `s` itself is never
examined by the second loop (`end > s`), and on the empty string the second loop does not run. -/
def trim_whitespace (s : Str) : Str :=
  match s.dropWhile isspace with
  | [] => []
  | c :: cs => c :: (cs.reverse.dropWhile isspace).reverse

/-- The quote removal that follows `trim_whitespace` in both splitter loops:
`if (len > 1 && token[0] == '"' && token[len-1] == '"')` the last character is overwritten
with NUL and the string is moved one place to the left. -/
def strip_quotes (token : Str) : Str :=
  if 1 < token.length ∧ token.head? = some dquote ∧ token.getLast? = some dquote then
    (token.dropLast).drop 1
  else token

/-- One call `strsep(&tmp, ",")` on a non-NULL `tmp`: the token up to the first comma, and the new
`tmp`, which is the text after that comma, or NULL (`none`) when there was no comma. -/
def strsep : Str → Str × Option Str
  | [] => ([], none)
  | c :: cs =>
    if c = ',' then ([], some cs)
    else ((c :: (strsep cs).1), (strsep cs).2)

/-- The loop `while ((token = strsep(&tmp, ",")) != NULL)` of `parse_csv_line` and of the header
parser: each token is trimmed, unquoted and stored by `fields[count++] = token`.  The array is
`char *fields[200]` (`char *headers[200]` in the header parser) and the loop has no bound
check: a store at `count >= 200` is outside the array, the behaviour of the program is then
undefined and the result is `none`.  Otherwise the result is the fields stored from `count`
on.  `fuel` bounds the number of iterations. -/
def split_loop : Nat → Option Str → Nat → Option (List Str)
  | 0, _, _ => some []
  | _, none, _ => some []
  | fuel + 1, some tmp, count =>
    if 200 ≤ count then none
    else
      match split_loop fuel (strsep tmp).2 (count + 1) with
      | none => none
      | some fields => some (strip_quotes (trim_whitespace (strsep tmp).1) :: fields)

/-- The field splitter: the loop started at `tmp = line`, `count = 0`.  Every iteration but the
last consumes a comma, so `line.length + 1` iterations are enough.  The result is `none` when
the loop stores outside the 200-entry array, else the fields `fields[0 .. count - 1]`. -/
def split_fields (line : Str) : Option (List Str) :=
  split_loop (line.length + 1) (some line) 0

/-- The function `find_header_index`: the first `i < count` with `strcmp(headers[i], name) == 0`,
or `-1`.  The argument `i` is the loop counter at which the scan of the remaining headers
starts. -/
def find_header_index_from (name : Str) : List Str → Int → Int
  | [], _ => -1
  | h :: hs, i => if h = name then i else find_header_index_from name hs (i + 1)

/-- The function `find_header_index(headers, count, name)` with `count` the number of headers. -/
def find_header_index (headers : List Str) (name : Str) : Int :=
  find_header_index_from name headers 0

/-! ## Numbers -/

/-- The floating point operations the program uses, on `float` (`F`) and `double` (`D`). -/
structure FloatOps (F D : Type) where
  /-- The libc call `strtof(str, &end)`: the value, or `none` when no conversion was performed
  (`end == str`). -/
  strtof : Str → Option F
  /-- The comparison `val >= number` of two floats. -/
  ge : F → F → Bool
  /-- The comparison `val <= number` of two floats. -/
  le : F → F → Bool
  /-- The cast `(float)i` of an `int`. -/
  int_to_float : Int → F
  /-- The promotion of a `float` operand to `double`. -/
  float_to_double : F → D
  /-- The cast `(double)i` of an `int` or a `long long`. -/
  int_to_double : Int → D
  /-- The constant `0.0`. -/
  zero : D
  /-- The constant `100.0`. -/
  hundred : D
  /-- Addition of doubles. -/
  add : D → D → D
  /-- Multiplication of doubles. -/
  mul : D → D → D
  /-- Division of doubles. -/
  div : D → D → D

/-- The value a 64-bit signed accumulator holds after an addition whose exact result is `x`. -/
def wrap64 (x : Int) : Int := (x + 2 ^ 63) % 2 ^ 64 - 2 ^ 63

/-- The cast `(int)i` of a `long`: the low 32 bits, read as a signed number. -/
def int_cast (i : Int) : Int := (i + 2 ^ 31) % 2 ^ 32 - 2 ^ 31

/-- The largest `long`. -/
def LONG_MAX : Int := 2 ^ 63 - 1

/-- The smallest `long`. -/
def LONG_MIN : Int := -(2 ^ 63)

/-- A decimal digit. -/
def isdigit (c : Char) : Bool := 48 ≤ c.toNat && c.toNat ≤ 57

/-- The libc call `strtol(str, &end, 10)`: leading whitespace is skipped, then an optional sign
and the longest run of decimal digits are read; the value is clamped to the range of `long`.
The result is `none` when no digit was read (`end == str`). -/
def strtol (str : Str) : Option Int :=
  let s := str.dropWhile isspace
  let body := if s.head? = some '-' ∨ s.head? = some '+' then s.drop 1 else s
  let digits := body.takeWhile isdigit
  if digits = [] then none
  else
    let magnitude : Int := digits.foldl (fun acc c => acc * 10 + ((c.toNat : Int) - 48)) 0
    let value := if s.head? = some '-' then -magnitude else magnitude
    some (max LONG_MIN (min LONG_MAX value))

/-- The function `convert_to_float`: `-1` (`none`) on the empty string and when `strtof` converts
nothing, else the value. -/
def convert_to_float {F D : Type} (ops : FloatOps F D) (str : Str) : Option F :=
  if str = [] then none else ops.strtof str

/-- The function `convert_to_int`: `-1` (`none`) on the empty string and when `strtol` converts
nothing, else the value cast to `int`. -/
def convert_to_int (str : Str) : Option Int :=
  if str = [] then none
  else
    match strtol str with
    | none => none
    | some i => some (int_cast i)

/-! ## Records -/

/-- The struct `CountyRecord`. -/
structure CountyRecord (F : Type) where
  county : Str
  state : Str
  edu_bachelors : F
  edu_hs : F
  eth_ai : F
  eth_asian : F
  eth_black : F
  eth_hisp : F
  eth_nhpi : F
  eth_2more : F
  eth_white : F
  eth_white_non_hisp : F
  income_median : Int
  income_percap : Int
  income_poverty : F
  pop_2014 : Int
  active : Int
  deriving DecidableEq

/-- The struct `FieldIndices`. -/
structure FieldIndices where
  idx_county : Int
  idx_state : Int
  idx_edu_bachelors : Int
  idx_edu_hs : Int
  idx_eth_ai : Int
  idx_eth_asian : Int
  idx_eth_black : Int
  idx_eth_hisp : Int
  idx_eth_nhpi : Int
  idx_eth_2more : Int
  idx_eth_white : Int
  idx_eth_white_non_hisp : Int
  idx_inc_median : Int
  idx_inc_percap : Int
  idx_inc_pov : Int
  idx_pop_2014 : Int
  deriving DecidableEq

/-- The array `required_indices` of `parse_csv_line`, which is also the view
`(int*)&fi` of the struct that `load_demographics` scans. -/
def FieldIndices.required_indices (fi : FieldIndices) : List Int :=
  [fi.idx_county, fi.idx_state, fi.idx_edu_bachelors, fi.idx_edu_hs, fi.idx_eth_ai,
   fi.idx_eth_asian, fi.idx_eth_black, fi.idx_eth_hisp, fi.idx_eth_nhpi, fi.idx_eth_2more,
   fi.idx_eth_white, fi.idx_eth_white_non_hisp, fi.idx_inc_median, fi.idx_inc_percap,
   fi.idx_inc_pov, fi.idx_pop_2014]

/-! ## Output -/

/-- The `printf` calls of the program, each with its arguments. -/
inductive Stdout (F D : Type) where
  | records_loaded (count : Int)
  | display (county state : Str) (pop_2014 : Int) (edu_hs edu_bachelors : F)
      (eth_ai eth_asian eth_black eth_hisp eth_nhpi eth_2more eth_white eth_white_non_hisp : F)
      (income_median income_percap : Int) (income_poverty : F)
  | filter_state (state_abbr : Str) (remain : Int)
  | filter_numeric (field op : Str) (number : F) (remain : Int)
  | population_total (total : Int)
  | population_sub (field : Str) (total : D)
  | percent_zero (field : Str)
  | percent (field : Str) (percentage : D)
  deriving DecidableEq

/-- The `fprintf(stderr, ...)` calls of the program, each with its arguments. -/
inductive Stderr where
  | cannot_open_demographics
  | demographics_empty
  | missing_column
  | malformed_line (line_num : Int)
  | filter_field_not_found (field : Str)
  | filter_invalid_operator (op : Str)
  | population_invalid_field (field : Str)
  | percent_invalid_field (field : Str)
  | malformed_operation (line_num : Int)
  | filter_state_requires_code (line_num : Int)
  | filter_requires_arguments (line_num : Int)
  | filter_field_not_numeric (field : Str)
  | filter_number_invalid (num_str : Str) (line_num : Int)
  | filter_comparison_invalid (cmp : Str) (line_num : Int)
  | population_malformed (line_num : Int)
  | population_not_supported (field : Str)
  | percent_malformed (line_num : Int)
  | percent_not_supported (field : Str)
  | unrecognized_operation (op : Str) (line_num : Int)
  | cannot_open_operations
  deriving DecidableEq

/-- One write of the program, to standard output or to standard error. -/
inductive Event (F D : Type) where
  | out (m : Stdout F D)
  | err (e : Stderr)
  deriving DecidableEq

/-! ## The loader -/

section Loader

variable {F D : Type}

/-- The array access `fields[idx]`; the program reads it only after the bounds check. -/
def field_at (fields : List Str) (idx : Int) : Str := fields.getD idx.toNat []

/-- The body of `parse_csv_line` after the token loop (the bounds check of the sixteen indices,
the two copies and the fourteen conversions), on the `count = fields.length` fields that the
loop stored: `none` is the return value `-1`, `some rec` is the return value `0` with `rec` the
record written through the pointer. -/
def parse_fields (ops : FloatOps F D) (fields : List Str) (fi : FieldIndices) :
    Option (CountyRecord F) :=
  let count : Int := fields.length
  if fi.required_indices.any (fun idx => idx < 0 || idx ≥ count) then none
  else
    let county := field_at fields fi.idx_county
    let state := field_at fields fi.idx_state
    match convert_to_float ops (field_at fields fi.idx_edu_bachelors) with
    | none => none
    | some edu_bachelors =>
    match convert_to_float ops (field_at fields fi.idx_edu_hs) with
    | none => none
    | some edu_hs =>
    match convert_to_float ops (field_at fields fi.idx_eth_ai) with
    | none => none
    | some eth_ai =>
    match convert_to_float ops (field_at fields fi.idx_eth_asian) with
    | none => none
    | some eth_asian =>
    match convert_to_float ops (field_at fields fi.idx_eth_black) with
    | none => none
    | some eth_black =>
    match convert_to_float ops (field_at fields fi.idx_eth_hisp) with
    | none => none
    | some eth_hisp =>
    match convert_to_float ops (field_at fields fi.idx_eth_nhpi) with
    | none => none
    | some eth_nhpi =>
    match convert_to_float ops (field_at fields fi.idx_eth_2more) with
    | none => none
    | some eth_2more =>
    match convert_to_float ops (field_at fields fi.idx_eth_white) with
    | none => none
    | some eth_white =>
    match convert_to_float ops (field_at fields fi.idx_eth_white_non_hisp) with
    | none => none
    | some eth_white_non_hisp =>
    match convert_to_int (field_at fields fi.idx_inc_median) with
    | none => none
    | some income_median =>
    match convert_to_int (field_at fields fi.idx_inc_percap) with
    | none => none
    | some income_percap =>
    match convert_to_float ops (field_at fields fi.idx_inc_pov) with
    | none => none
    | some income_poverty =>
    match convert_to_int (field_at fields fi.idx_pop_2014) with
    | none => none
    | some pop_2014 =>
    some {
      county := county, state := state, edu_bachelors := edu_bachelors, edu_hs := edu_hs,
      eth_ai := eth_ai, eth_asian := eth_asian, eth_black := eth_black, eth_hisp := eth_hisp,
      eth_nhpi := eth_nhpi, eth_2more := eth_2more, eth_white := eth_white,
      eth_white_non_hisp := eth_white_non_hisp, income_median := income_median,
      income_percap := income_percap, income_poverty := income_poverty,
      pop_2014 := pop_2014, active := 1 }

/-- The function `parse_csv_line`: the token loop, then the rest of the body.  The result is
`none` when the token loop stores outside `fields[200]` (undefined behaviour); `some none` is
the return value `-1`, `some (some rec)` is the return value `0` with `rec` the record written
through the pointer. -/
def parse_csv_line (ops : FloatOps F D) (line : Str) (_line_num : Int) (fi : FieldIndices) :
    Option (Option (CountyRecord F)) :=
  match split_fields line with
  | none => none
  | some fields => some (parse_fields ops fields fi)

/-- The test `parse_csv_line(...) == 0` failing, on the result of the call: the return value
is `-1`. -/
def rejected : Option (Option (CountyRecord F)) → Bool
  | some none => true
  | _ => false

/-- The sixteen `find_header_index` calls of `load_demographics`. -/
def resolve_indices (headers : List Str) : FieldIndices where
  idx_county := find_header_index headers "County".toList
  idx_state := find_header_index headers "State".toList
  idx_edu_bachelors := find_header_index headers "Education.Bachelor's Degree or Higher".toList
  idx_edu_hs := find_header_index headers "Education.High School or Higher".toList
  idx_eth_ai :=
    find_header_index headers "Ethnicities.American Indian and Alaska Native Alone".toList
  idx_eth_asian := find_header_index headers "Ethnicities.Asian Alone".toList
  idx_eth_black := find_header_index headers "Ethnicities.Black Alone".toList
  idx_eth_hisp := find_header_index headers "Ethnicities.Hispanic or Latino".toList
  idx_eth_nhpi :=
    find_header_index headers
      "Ethnicities.Native Hawaiian and Other Pacific Islander Alone".toList
  idx_eth_2more := find_header_index headers "Ethnicities.Two or More Races".toList
  idx_eth_white := find_header_index headers "Ethnicities.White Alone".toList
  idx_eth_white_non_hisp :=
    find_header_index headers "Ethnicities.White Alone not Hispanic or Latino".toList
  idx_inc_median := find_header_index headers "Income.Median Household Income".toList
  idx_inc_percap := find_header_index headers "Income.Per Capita Income".toList
  idx_inc_pov := find_header_index headers "Income.Persons Below Poverty Level".toList
  idx_pop_2014 := find_header_index headers "Population.2014 Population".toList

/-- The data line loop of `load_demographics`: `line_num` is the number of the line read last;
a line that parses is stored as the next record, any other line is reported and skipped.  The
result is `none` when a call of `parse_csv_line` stores outside its array, else the records
stored from these lines, in order, and the diagnostics. -/
def load_lines (ops : FloatOps F D) (fi : FieldIndices) :
    List Str → Int → Option (List (CountyRecord F) × List (Event F D))
  | [], _ => some ([], [])
  | line :: rest, line_num =>
    match parse_csv_line ops line (line_num + 1) fi with
    | none => none
    | some (some temp) =>
      match load_lines ops fi rest (line_num + 1) with
      | none => none
      | some loaded => some (temp :: loaded.1, loaded.2)
    | some none =>
      match load_lines ops fi rest (line_num + 1) with
      | none => none
      | some loaded =>
        some (loaded.1, Event.err (Stderr.malformed_line (line_num + 1)) :: loaded.2)

/-- The function `load_demographics`.  The file is `none` when `fopen` fails, else its lines.
The result is `none` when the header parser stores outside `headers[200]` or a call of
`parse_csv_line` stores outside `fields[200]` (undefined behaviour).  Otherwise the first
component is the returned array (`none` for `NULL`), whose length is `*num_records`; the second
is what was written. -/
def load_demographics (ops : FloatOps F D) (file : Option (List Str)) :
    Option (Option (List (CountyRecord F)) × List (Event F D)) :=
  match file with
  | none => some (none, [Event.err Stderr.cannot_open_demographics])
  | some [] => some (none, [Event.err Stderr.demographics_empty])
  | some (line :: rest) =>
    match split_fields line with
    | none => none
    | some headers =>
      let fi := resolve_indices headers
      if fi.required_indices.any (fun idx => idx < 0) then
        some (none, [Event.err Stderr.missing_column])
      else
        match load_lines ops fi rest 1 with
        | none => none
        | some loaded =>
          some (some loaded.1,
            loaded.2 ++ [Event.out (Stdout.records_loaded (loaded.1.length : Int))])

end Loader

/-- The sixteen column names `load_demographics` looks up, in the order of its calls. -/
def required_columns : List Str :=
  ["County".toList, "State".toList, "Education.Bachelor's Degree or Higher".toList,
   "Education.High School or Higher".toList,
   "Ethnicities.American Indian and Alaska Native Alone".toList,
   "Ethnicities.Asian Alone".toList, "Ethnicities.Black Alone".toList,
   "Ethnicities.Hispanic or Latino".toList,
   "Ethnicities.Native Hawaiian and Other Pacific Islander Alone".toList,
   "Ethnicities.Two or More Races".toList, "Ethnicities.White Alone".toList,
   "Ethnicities.White Alone not Hispanic or Latino".toList,
   "Income.Median Household Income".toList, "Income.Per Capita Income".toList,
   "Income.Persons Below Poverty Level".toList, "Population.2014 Population".toList]

/-! ## The handlers -/

section Handlers

variable {F D : Type}

/-- The function `op_display`: one block for each record with `active` set, in order. -/
def op_display : List (CountyRecord F) → List (Event F D)
  | [] => []
  | r :: rs =>
    if r.active ≠ 0 then
      Event.out (Stdout.display r.county r.state r.pop_2014 r.edu_hs r.edu_bachelors
        r.eth_ai r.eth_asian r.eth_black r.eth_hisp r.eth_nhpi r.eth_2more r.eth_white
        r.eth_white_non_hisp r.income_median r.income_percap r.income_poverty) :: op_display rs
    else op_display rs

/-- The loop of `op_filter_state`, from the record at the head of the list on, with the value
`remain` has there: the records after the loop and the final `remain`. -/
def filter_state_loop (state_abbr : Str) :
    List (CountyRecord F) → Int → List (CountyRecord F) × Int
  | [], remain => ([], remain)
  | r :: rs, remain =>
    if r.active ≠ 0 ∧ r.state = state_abbr then
      (r :: (filter_state_loop state_abbr rs (remain + 1)).1,
        (filter_state_loop state_abbr rs (remain + 1)).2)
    else
      ({ r with active := 0 } :: (filter_state_loop state_abbr rs remain).1,
        (filter_state_loop state_abbr rs remain).2)

/-- The function `op_filter_state`: the records after the call, and what it printed. -/
def op_filter_state (records : List (CountyRecord F)) (state_abbr : Str) :
    List (CountyRecord F) × List (Event F D) :=
  ((filter_state_loop state_abbr records 0).1,
    [Event.out (Stdout.filter_state state_abbr (filter_state_loop state_abbr records 0).2)])

/-- The chain of `strcmp` in `op_filter_numeric` that assigns `val`; `none` is its last `else`
(field not found). -/
def filter_field_value (ops : FloatOps F D) (field : Str) (r : CountyRecord F) : Option F :=
  if field = "Education.Bachelor's Degree or Higher".toList then some r.edu_bachelors
  else if field = "Education.High School or Higher".toList then some r.edu_hs
  else if field = "Ethnicities.American Indian and Alaska Native Alone".toList then some r.eth_ai
  else if field = "Ethnicities.Asian Alone".toList then some r.eth_asian
  else if field = "Ethnicities.Black Alone".toList then some r.eth_black
  else if field = "Ethnicities.Hispanic or Latino".toList then some r.eth_hisp
  else if field = "Ethnicities.Native Hawaiian and Other Pacific Islander Alone".toList then
    some r.eth_nhpi
  else if field = "Ethnicities.Two or More Races".toList then some r.eth_2more
  else if field = "Ethnicities.White Alone".toList then some r.eth_white
  else if field = "Ethnicities.White Alone, not Hispanic or Latino".toList then
    some r.eth_white_non_hisp
  else if field = "Income.Median Household Income".toList then
    some (ops.int_to_float r.income_median)
  else if field = "Income.Per Capita Income".toList then some (ops.int_to_float r.income_percap)
  else if field = "Income.Persons Below Poverty Level".toList then some r.income_poverty
  else if field = "Population.2014 Population".toList then some (ops.int_to_float r.pop_2014)
  else none

/-- The loop of `op_filter_numeric`, from the record at the head of the list on, with the value
`remain` has there.  The first component is the records after the loop; the second is the final
`remain`, or the warning with which the function returned from inside the loop. -/
def filter_numeric_loop (ops : FloatOps F D) (field op : Str) (number : F) :
    List (CountyRecord F) → Int → List (CountyRecord F) × Except Stderr Int
  | [], remain => ([], Except.ok remain)
  | r :: rs, remain =>
    if r.active = 0 then
      (r :: (filter_numeric_loop ops field op number rs remain).1,
        (filter_numeric_loop ops field op number rs remain).2)
    else
      match filter_field_value ops field r with
      | none => (r :: rs, Except.error (Stderr.filter_field_not_found field))
      | some val =>
        if op = "ge".toList then
          if ops.ge val number then
            (r :: (filter_numeric_loop ops field op number rs (remain + 1)).1,
              (filter_numeric_loop ops field op number rs (remain + 1)).2)
          else
            ({ r with active := 0 } :: (filter_numeric_loop ops field op number rs remain).1,
              (filter_numeric_loop ops field op number rs remain).2)
        else if op = "le".toList then
          if ops.le val number then
            (r :: (filter_numeric_loop ops field op number rs (remain + 1)).1,
              (filter_numeric_loop ops field op number rs (remain + 1)).2)
          else
            ({ r with active := 0 } :: (filter_numeric_loop ops field op number rs remain).1,
              (filter_numeric_loop ops field op number rs remain).2)
        else (r :: rs, Except.error (Stderr.filter_invalid_operator op))

/-- The function `op_filter_numeric`: the records after the call, and what it wrote. -/
def op_filter_numeric (ops : FloatOps F D) (records : List (CountyRecord F)) (field op : Str)
    (number : F) : List (CountyRecord F) × List (Event F D) :=
  match (filter_numeric_loop ops field op number records 0).2 with
  | Except.error e => ((filter_numeric_loop ops field op number records 0).1, [Event.err e])
  | Except.ok remain =>
    ((filter_numeric_loop ops field op number records 0).1,
      [Event.out (Stdout.filter_numeric field op number remain)])

/-- The accumulation loop of `op_population_total`: the `long long` total after the records of
the list, starting from `total`. -/
def population_total_loop : List (CountyRecord F) → Int → Int
  | [], total => total
  | r :: rs, total =>
    if r.active ≠ 0 then population_total_loop rs (wrap64 (total + r.pop_2014))
    else population_total_loop rs total

/-- The function `op_population_total`. -/
def op_population_total (records : List (CountyRecord F)) : List (Event F D) :=
  [Event.out (Stdout.population_total (population_total_loop records 0))]

/-- The chain of `strcmp` in `op_population_sub` that assigns `val`. -/
def population_field_value (field : Str) (r : CountyRecord F) : Option F :=
  if field = "Education.Bachelor's Degree or Higher".toList then some r.edu_bachelors
  else if field = "Education.High School or Higher".toList then some r.edu_hs
  else if field = "Ethnicities.American Indian and Alaska Native Alone".toList then some r.eth_ai
  else if field = "Ethnicities.Asian Alone".toList then some r.eth_asian
  else if field = "Ethnicities.Black Alone".toList then some r.eth_black
  else if field = "Ethnicities.Hispanic or Latino".toList then some r.eth_hisp
  else if field = "Ethnicities.Native Hawaiian and Other Pacific Islander Alone".toList then
    some r.eth_nhpi
  else if field = "Ethnicities.Two or More Races".toList then some r.eth_2more
  else if field = "Ethnicities.White Alone".toList then some r.eth_white
  else if field = "Ethnicities.White Alone, not Hispanic or Latino".toList then
    some r.eth_white_non_hisp
  else if field = "Income.Persons Below Poverty Level".toList then some r.income_poverty
  else none

/-- The loop of `op_population_sub`: the final `total`, or the warning with which the function
returned from inside the loop. -/
def population_sub_loop (ops : FloatOps F D) (field : Str) :
    List (CountyRecord F) → D → Except Stderr D
  | [], total => Except.ok total
  | r :: rs, total =>
    if r.active = 0 then population_sub_loop ops field rs total
    else
      match population_field_value field r with
      | none => Except.error (Stderr.population_invalid_field field)
      | some val =>
        population_sub_loop ops field rs
          (ops.add total
            (ops.mul (ops.int_to_double r.pop_2014)
              (ops.div (ops.float_to_double val) ops.hundred)))

/-- The function `op_population_sub`. -/
def op_population_sub (ops : FloatOps F D) (records : List (CountyRecord F)) (field : Str) :
    List (Event F D) :=
  match population_sub_loop ops field records ops.zero with
  | Except.error e => [Event.err e]
  | Except.ok total => [Event.out (Stdout.population_sub field total)]

/-- The chain of `strcmp` in `op_percent_field` that assigns `val`. -/
def percent_field_value (field : Str) (r : CountyRecord F) : Option F :=
  if field = "Education.Bachelor's Degree or Higher".toList then some r.edu_bachelors
  else if field = "Education.High School or Higher".toList then some r.edu_hs
  else if field = "Ethnicities.American Indian and Alaska Native Alone".toList then some r.eth_ai
  else if field = "Ethnicities.Asian Alone".toList then some r.eth_asian
  else if field = "Ethnicities.Black Alone".toList then some r.eth_black
  else if field = "Ethnicities.Hispanic or Latino".toList then some r.eth_hisp
  else if field = "Ethnicities.Native Hawaiian and Other Pacific Islander Alone".toList then
    some r.eth_nhpi
  else if field = "Ethnicities.Two or More Races".toList then some r.eth_2more
  else if field = "Ethnicities.White Alone".toList then some r.eth_white
  else if field = "Ethnicities.White Alone, not Hispanic or Latino".toList then
    some r.eth_white_non_hisp
  else if field = "Income.Persons Below Poverty Level".toList then some r.income_poverty
  else none

/-- The first loop of `op_percent_field`: the `long long` `total_pop` after the records of the
list, starting from `total_pop`. -/
def percent_total_loop : List (CountyRecord F) → Int → Int
  | [], total_pop => total_pop
  | r :: rs, total_pop =>
    if r.active = 0 then percent_total_loop rs total_pop
    else percent_total_loop rs (wrap64 (total_pop + r.pop_2014))

/-- The second loop of `op_percent_field`: the final `sub_pop`, or the warning with which the
function returned from inside the loop. -/
def percent_sub_loop (ops : FloatOps F D) (field : Str) :
    List (CountyRecord F) → D → Except Stderr D
  | [], sub_pop => Except.ok sub_pop
  | r :: rs, sub_pop =>
    if r.active = 0 then percent_sub_loop ops field rs sub_pop
    else
      match percent_field_value field r with
      | none => Except.error (Stderr.percent_invalid_field field)
      | some val =>
        percent_sub_loop ops field rs
          (ops.add sub_pop
            (ops.mul (ops.int_to_double r.pop_2014)
              (ops.div (ops.float_to_double val) ops.hundred)))

/-- The function `op_percent_field`: when `total_pop == 0` it prints the literal `0` and returns;
otherwise it runs the second loop and prints `(sub_pop / (double)total_pop) * 100.0`. -/
def op_percent_field (ops : FloatOps F D) (records : List (CountyRecord F)) (field : Str) :
    List (Event F D) :=
  if percent_total_loop records 0 = 0 then [Event.out (Stdout.percent_zero field)]
  else
    match percent_sub_loop ops field records ops.zero with
    | Except.error e => [Event.err e]
    | Except.ok sub_pop =>
      [Event.out (Stdout.percent field
        (ops.mul (ops.div sub_pop (ops.int_to_double (percent_total_loop records 0)))
          ops.hundred))]

end Handlers

/-! ## Reading the handlers -/

section Reading

variable {F D : Type}

/-- The number of records with `active` set. -/
def active_count (records : List (CountyRecord F)) : Nat :=
  records.countP (fun r => decide (r.active ≠ 0))

/-- The fourteen field names that the chain of `op_filter_numeric` compares `field` with, each
with the value the chain assigns to `val` for it, in the order of the chain. -/
def numeric_field_table (ops : FloatOps F D) : List (Str × (CountyRecord F → F)) :=
  [("Education.Bachelor's Degree or Higher".toList, fun r => r.edu_bachelors),
   ("Education.High School or Higher".toList, fun r => r.edu_hs),
   ("Ethnicities.American Indian and Alaska Native Alone".toList, fun r => r.eth_ai),
   ("Ethnicities.Asian Alone".toList, fun r => r.eth_asian),
   ("Ethnicities.Black Alone".toList, fun r => r.eth_black),
   ("Ethnicities.Hispanic or Latino".toList, fun r => r.eth_hisp),
   ("Ethnicities.Native Hawaiian and Other Pacific Islander Alone".toList, fun r => r.eth_nhpi),
   ("Ethnicities.Two or More Races".toList, fun r => r.eth_2more),
   ("Ethnicities.White Alone".toList, fun r => r.eth_white),
   ("Ethnicities.White Alone, not Hispanic or Latino".toList, fun r => r.eth_white_non_hisp),
   ("Income.Median Household Income".toList, fun r => ops.int_to_float r.income_median),
   ("Income.Per Capita Income".toList, fun r => ops.int_to_float r.income_percap),
   ("Income.Persons Below Poverty Level".toList, fun r => r.income_poverty),
   ("Population.2014 Population".toList, fun r => ops.int_to_float r.pop_2014)]

/-- The exact sum of `pop_2014` over the records with `active` set. -/
def active_population (records : List (CountyRecord F)) : Int :=
  ((records.filter (fun r => decide (r.active ≠ 0))).map (fun r => r.pop_2014)).sum

/-- What a call may do to one record: leave it as it is, or set its `active` to 0. -/
def same_or_deactivated (r r2 : CountyRecord F) : Prop :=
  r2 = r ∨ r2 = { r with active := 0 }

/-- The test `keep` of `op_filter_numeric` for a value: `val >= number` under `ge`,
`val <= number` under `le`. -/
def threshold_holds (ops : FloatOps F D) (cmp : Str) (val number : F) : Bool :=
  if cmp = "ge".toList then ops.ge val number else ops.le val number

end Reading

/-! ## The interpreter -/

section Interpreter

variable {F D : Type}

/-- The function `is_numeric_field`. -/
def is_numeric_field (f : Str) : Bool :=
  if f = "County".toList ∨ f = "State".toList then false else true

/-- The function `is_population_subfield`; `strncmp(f, lit, n) == 0` with `n` the length of
`lit` holds when the first `n` characters of `f` are `lit`. -/
def is_population_subfield (f : Str) : Bool :=
  if f.take 10 = "Education.".toList then true
  else if f.take 12 = "Ethnicities.".toList then true
  else if f = "Income.Persons Below Poverty Level".toList then true
  else false

/-- One call of `strtok_r(..., ":", &saveptr)` on the text `s` the scan is at: leading colons
are skipped; if nothing is left the result is NULL; otherwise the token runs to the next colon
or to the end, and the scan resumes after that colon.  The result is the token and the text the
next call starts from. -/
def strtok_r (s : Str) : Option Str × Str :=
  match s.dropWhile (fun c => c == ':') with
  | [] => (none, [])
  | c :: cs =>
    (some ((c :: cs).takeWhile (fun c => c != ':')),
      ((c :: cs).dropWhile (fun c => c != ':')).drop 1)

/-- The function `process_operation_line`: the records after the line, and what was written. -/
def process_operation_line (ops : FloatOps F D) (line : Str) (line_num : Int)
    (records : List (CountyRecord F)) : List (CountyRecord F) × List (Event F D) :=
  let p := line.dropWhile isspace
  if p = [] then (records, [])
  else
    let op_line := (p.reverse.dropWhile isspace).reverse
    match strtok_r op_line with
    | (none, _) => (records, [Event.err (Stderr.malformed_operation line_num)])
    | (some op, saveptr) =>
      if op = "display".toList then (records, op_display records)
      else if op = "filter-state".toList then
        match (strtok_r saveptr).1 with
        | none => (records, [Event.err (Stderr.filter_state_requires_code line_num)])
        | some state => op_filter_state records state
      else if op = "filter".toList then
        let field := strtok_r saveptr
        let cmp := strtok_r field.2
        let num_str := strtok_r cmp.2
        match field.1, cmp.1, num_str.1 with
        | some field, some cmp, some num_str =>
          if is_numeric_field field = false then
            (records, [Event.err (Stderr.filter_field_not_numeric field)])
          else
            match convert_to_float ops num_str with
            | none => (records, [Event.err (Stderr.filter_number_invalid num_str line_num)])
            | some number =>
              if cmp ≠ "ge".toList ∧ cmp ≠ "le".toList then
                (records, [Event.err (Stderr.filter_comparison_invalid cmp line_num)])
              else op_filter_numeric ops records field cmp number
        | _, _, _ => (records, [Event.err (Stderr.filter_requires_arguments line_num)])
      else if op = "population-total".toList then (records, op_population_total records)
      else if op = "population".toList then
        match (strtok_r saveptr).1 with
        | none => (records, [Event.err (Stderr.population_malformed line_num)])
        | some field =>
          if is_population_subfield field = false then
            (records, [Event.err (Stderr.population_not_supported field)])
          else (records, op_population_sub ops records field)
      else if op = "percent".toList then
        match (strtok_r saveptr).1 with
        | none => (records, [Event.err (Stderr.percent_malformed line_num)])
        | some field =>
          if is_population_subfield field = false then
            (records, [Event.err (Stderr.percent_not_supported field)])
          else (records, op_percent_field ops records field)
      else (records, [Event.err (Stderr.unrecognized_operation op line_num)])

/-- The line loop of `process_operations`: `line_num` is the number of the line read last. -/
def process_lines (ops : FloatOps F D) :
    List Str → Int → List (CountyRecord F) → List (CountyRecord F) × List (Event F D)
  | [], _, records => (records, [])
  | line :: rest, line_num, records =>
    ((process_lines ops rest (line_num + 1)
        (process_operation_line ops line (line_num + 1) records).1).1,
      (process_operation_line ops line (line_num + 1) records).2 ++
        (process_lines ops rest (line_num + 1)
          (process_operation_line ops line (line_num + 1) records).1).2)

/-- The function `process_operations`.  The file is `none` when `fopen` fails, else its lines. -/
def process_operations (ops : FloatOps F D) (file : Option (List Str))
    (records : List (CountyRecord F)) : List (CountyRecord F) × List (Event F D) :=
  match file with
  | none => (records, [Event.err Stderr.cannot_open_operations])
  | some lines => process_lines ops lines 0 records

end Interpreter

/-! ## Reading the interpreter -/

section ReadingInterpreter

variable {F D : Type}

/-- The tokens that successive calls of `strtok_r(..., ":", &saveptr)` return from the text `s`
on, up to the first NULL.  `fuel` bounds the number of calls. -/
def strtok_loop : Nat → Str → List Str
  | 0, _ => []
  | fuel + 1, s =>
    match (strtok_r s).1 with
    | none => []
    | some token => token :: strtok_loop fuel (strtok_r s).2

/-- All the tokens of a text: every call that returns a token consumes at least one character,
so `s.length + 1` calls are enough. -/
def strtok_tokens (s : Str) : List Str := strtok_loop (s.length + 1) s

/-- The buffer `op_line` of `process_operation_line`: the line from its first non-space
character on, with the trailing whitespace cut. -/
def op_line_of (line : Str) : Str :=
  ((line.dropWhile isspace).reverse.dropWhile isspace).reverse

/-- The colon-separated tokens of an instruction line: the verb, then its arguments. -/
def operation_tokens (line : Str) : List Str := strtok_tokens (op_line_of line)

/-- The six verbs `process_operation_line` compares the first token with. -/
def recognised_verbs : List Str :=
  ["display".toList, "filter-state".toList, "filter".toList, "population-total".toList,
   "population".toList, "percent".toList]

/-- The number of arguments of a verb, from the table of the specification: 3 for `filter`, 1 for
`filter-state`, `population` and `percent`, 0 for `display` and `population-total`. -/
def verb_arity (verb : Str) : Nat :=
  if verb = "filter".toList then 3
  else if verb = "filter-state".toList ∨ verb = "population".toList ∨ verb = "percent".toList
  then 1
  else 0

/-- The fourteen field names that the chain of `op_filter_numeric` compares `field` with. -/
def numeric_field_names : List Str :=
  ["Education.Bachelor's Degree or Higher".toList, "Education.High School or Higher".toList,
   "Ethnicities.American Indian and Alaska Native Alone".toList,
   "Ethnicities.Asian Alone".toList, "Ethnicities.Black Alone".toList,
   "Ethnicities.Hispanic or Latino".toList,
   "Ethnicities.Native Hawaiian and Other Pacific Islander Alone".toList,
   "Ethnicities.Two or More Races".toList, "Ethnicities.White Alone".toList,
   "Ethnicities.White Alone, not Hispanic or Latino".toList,
   "Income.Median Household Income".toList, "Income.Per Capita Income".toList,
   "Income.Persons Below Poverty Level".toList, "Population.2014 Population".toList]

/-- The eleven field names that the chains of `op_population_sub` and `op_percent_field` compare
`field` with: the population subfields. -/
def population_subfields : List Str :=
  ["Education.Bachelor's Degree or Higher".toList, "Education.High School or Higher".toList,
   "Ethnicities.American Indian and Alaska Native Alone".toList,
   "Ethnicities.Asian Alone".toList, "Ethnicities.Black Alone".toList,
   "Ethnicities.Hispanic or Latino".toList,
   "Ethnicities.Native Hawaiian and Other Pacific Islander Alone".toList,
   "Ethnicities.Two or More Races".toList, "Ethnicities.White Alone".toList,
   "Ethnicities.White Alone, not Hispanic or Latino".toList,
   "Income.Persons Below Poverty Level".toList]

/-- The eleven field names that the chain of `op_population_sub` compares `field` with, each
with the value the chain assigns to `val` for it, in the order of the chain. -/
def subfield_table : List (Str × (CountyRecord F → F)) :=
  [("Education.Bachelor's Degree or Higher".toList, fun r => r.edu_bachelors),
   ("Education.High School or Higher".toList, fun r => r.edu_hs),
   ("Ethnicities.American Indian and Alaska Native Alone".toList, fun r => r.eth_ai),
   ("Ethnicities.Asian Alone".toList, fun r => r.eth_asian),
   ("Ethnicities.Black Alone".toList, fun r => r.eth_black),
   ("Ethnicities.Hispanic or Latino".toList, fun r => r.eth_hisp),
   ("Ethnicities.Native Hawaiian and Other Pacific Islander Alone".toList, fun r => r.eth_nhpi),
   ("Ethnicities.Two or More Races".toList, fun r => r.eth_2more),
   ("Ethnicities.White Alone".toList, fun r => r.eth_white),
   ("Ethnicities.White Alone, not Hispanic or Latino".toList, fun r => r.eth_white_non_hisp),
   ("Income.Persons Below Poverty Level".toList, fun r => r.income_poverty)]

/-- The sum `op_population_sub` accumulates for a field value `get`: starting from `0.0`, for
each active record in order, `total + (double)pop_2014 * (val / 100.0)`. -/
def weighted_sum (ops : FloatOps F D) (get : CountyRecord F → F)
    (records : List (CountyRecord F)) : D :=
  (records.filter (fun r => decide (r.active ≠ 0))).foldl
    (fun total r =>
      ops.add total
        (ops.mul (ops.int_to_double r.pop_2014) (ops.div (ops.float_to_double (get r)) ops.hundred)))
    ops.zero

/-- An outcome of one instruction line on `records` in which a diagnostic excludes any other
effect: either nothing was written to stderr, or nothing was written to stdout and the records
are the ones before the line. -/
def atomic_outcome (records : List (CountyRecord F))
    (res : List (CountyRecord F) × List (Event F D)) : Prop :=
  (∀ e : Stderr, Event.err e ∉ res.2) ∨
    ((∀ m : Stdout F D, Event.out m ∉ res.2) ∧ res.1 = records)

/-- The dispatch of `process_operation_line` read on the tokens of the line: `op` is the verb and
`args` are the tokens that the later `strtok_r` calls return. -/
def interpret_tokens (ops : FloatOps F D) (op : Str) (args : List Str) (line_num : Int)
    (records : List (CountyRecord F)) : List (CountyRecord F) × List (Event F D) :=
  if op = "display".toList then (records, op_display records)
  else if op = "filter-state".toList then
    match args with
    | [] => (records, [Event.err (Stderr.filter_state_requires_code line_num)])
    | state :: _ => op_filter_state records state
  else if op = "filter".toList then
    match args with
    | field :: cmp :: num_str :: _ =>
      if is_numeric_field field = false then
        (records, [Event.err (Stderr.filter_field_not_numeric field)])
      else
        match convert_to_float ops num_str with
        | none => (records, [Event.err (Stderr.filter_number_invalid num_str line_num)])
        | some number =>
          if cmp ≠ "ge".toList ∧ cmp ≠ "le".toList then
            (records, [Event.err (Stderr.filter_comparison_invalid cmp line_num)])
          else op_filter_numeric ops records field cmp number
    | _ => (records, [Event.err (Stderr.filter_requires_arguments line_num)])
  else if op = "population-total".toList then (records, op_population_total records)
  else if op = "population".toList then
    match args with
    | [] => (records, [Event.err (Stderr.population_malformed line_num)])
    | field :: _ =>
      if is_population_subfield field = false then
        (records, [Event.err (Stderr.population_not_supported field)])
      else (records, op_population_sub ops records field)
  else if op = "percent".toList then
    match args with
    | [] => (records, [Event.err (Stderr.percent_malformed line_num)])
    | field :: _ =>
      if is_population_subfield field = false then
        (records, [Event.err (Stderr.percent_not_supported field)])
      else (records, op_percent_field ops records field)
  else (records, [Event.err (Stderr.unrecognized_operation op line_num)])

/-- A filter instruction as the handlers receive it: `filter-state:<state>`, or
`filter:<field>:<cmp>:<number>` with the number converted. -/
inductive FilterInstruction (F : Type) where
  | state (state_abbr : Str)
  | numeric (field cmp : Str) (number : F)

/-- The records after the handler of a filter instruction: `op_filter_state` or
`op_filter_numeric`. -/
def FilterInstruction.run (ops : FloatOps F D) :
    FilterInstruction F → List (CountyRecord F) → List (CountyRecord F)
  | FilterInstruction.state state_abbr, records =>
    (op_filter_state records state_abbr : List (CountyRecord F) × List (Event F D)).1
  | FilterInstruction.numeric field cmp number, records =>
    (op_filter_numeric ops records field cmp number).1

/-- A valid filter instruction: any `filter-state`, and a numeric filter whose field is one of
the fourteen names `op_filter_numeric` recognises and whose operator is `ge` or `le`. -/
def FilterInstruction.valid : FilterInstruction F → Prop
  | FilterInstruction.state _ => True
  | FilterInstruction.numeric field cmp _ =>
    field ∈ numeric_field_names ∧ (cmp = "ge".toList ∨ cmp = "le".toList)

/-- The predicate of a filter instruction on a record: its state is the state code, or the value
`op_filter_numeric` reads for the field is `>=` (`ge`) or `<=` (`le`) the number. -/
def FilterInstruction.holds (ops : FloatOps F D) : FilterInstruction F → CountyRecord F → Prop
  | FilterInstruction.state state_abbr, r => r.state = state_abbr
  | FilterInstruction.numeric field cmp number, r =>
    ∃ val : F, filter_field_value ops field r = some val ∧
      (if cmp = "ge".toList then ops.ge val number = true else ops.le val number = true)

end ReadingInterpreter

/-! ## An instance of the floating point operations -/

/-- An instance for evaluating the definitions at whole numbers: a float is an integer, a numeral
is read as `strtol` reads it, and the arithmetic is that of the integers. -/
def wholeOps : FloatOps Int Int where
  strtof := strtol
  ge := fun a b => decide (a ≥ b)
  le := fun a b => decide (a ≤ b)
  int_to_float := fun i => i
  float_to_double := fun f => f
  int_to_double := fun i => i
  zero := 0
  hundred := 100
  add := fun a b => a + b
  mul := fun a b => a * b
  div := fun a b => a / b

/-! ## A small data set -/

/-- A header line with the sixteen required columns, the first of them quoted. -/
def sample_header : Str :=
  ("\"County\",State,Education.Bachelor's Degree or Higher,Education.High School or Higher," ++
   "Ethnicities.American Indian and Alaska Native Alone,Ethnicities.Asian Alone," ++
   "Ethnicities.Black Alone,Ethnicities.Hispanic or Latino," ++
   "Ethnicities.Native Hawaiian and Other Pacific Islander Alone," ++
   "Ethnicities.Two or More Races,Ethnicities.White Alone," ++
   "Ethnicities.White Alone not Hispanic or Latino,Income.Median Household Income," ++
   "Income.Per Capita Income,Income.Persons Below Poverty Level," ++
   "Population.2014 Population\n").toList

/-- A data line for `sample_header`. -/
def sample_line : Str := "Alpha,CA,20,50,1,2,3,4,5,6,7,8,40000,20000,9,1000\n".toList

/-- Three data lines for `sample_header`; the population of the second is not a number. -/
def sample_lines : List Str :=
  [sample_line,
   "Bad,CA,20,50,1,2,3,4,5,6,7,8,40000,20000,9,many\n".toList,
   "Beta,CA,30,80,1,2,3,4,5,6,7,8,50000,25000,9,2000\n".toList]

/-- The index mapping of `sample_header`. -/
def sample_indices : FieldIndices :=
  { idx_county := 0, idx_state := 1, idx_edu_bachelors := 2, idx_edu_hs := 3, idx_eth_ai := 4,
    idx_eth_asian := 5, idx_eth_black := 6, idx_eth_hisp := 7, idx_eth_nhpi := 8,
    idx_eth_2more := 9, idx_eth_white := 10, idx_eth_white_non_hisp := 11,
    idx_inc_median := 12, idx_inc_percap := 13, idx_inc_pov := 14, idx_pop_2014 := 15 }

/-- The two records of `sample_lines`, over `wholeOps`. -/
def sample_records : List (CountyRecord Int) :=
  [{ county := "Alpha".toList, state := "CA".toList, edu_bachelors := 20, edu_hs := 50,
     eth_ai := 1, eth_asian := 2, eth_black := 3, eth_hisp := 4, eth_nhpi := 5, eth_2more := 6,
     eth_white := 7, eth_white_non_hisp := 8, income_median := 40000, income_percap := 20000,
     income_poverty := 9, pop_2014 := 1000, active := 1 },
   { county := "Beta".toList, state := "CA".toList, edu_bachelors := 30, edu_hs := 80,
     eth_ai := 1, eth_asian := 2, eth_black := 3, eth_hisp := 4, eth_nhpi := 5, eth_2more := 6,
     eth_white := 7, eth_white_non_hisp := 8, income_median := 50000, income_percap := 25000,
     income_poverty := 9, pop_2014 := 2000, active := 1 }]

/-- The data line `sample_line` followed by 244 empty columns: 260 fields in 294 characters. -/
def wide_line : Str :=
  "Alpha,CA,20,50,1,2,3,4,5,6,7,8,40000,20000,9,1000".toList ++ List.replicate 244 ',' ++
    "\n".toList

/-- The header `sample_header` preceded by 244 empty columns: 260 fields, the sixteen required
names among them. -/
def wide_header : Str := List.replicate 244 ',' ++ sample_header

/-- An instruction line with a recognised verb and one argument more than its arity. -/
def surplus_line : Str := "filter-state:CA:extra\n".toList

/-- A `filter` instruction whose field is none of the fourteen numeric field names. -/
def unknown_field_line : Str := "filter:Foo:ge:3\n".toList

/-- A `population` instruction whose field starts like an education field but is none of the
eleven population subfields. -/
def unknown_subfield_line : Str := "population:Education.Foo\n".toList

/-- The name under which `load_demographics` looks up the column of `eth_white_non_hisp`. -/
def white_non_hisp_column : Str := "Ethnicities.White Alone not Hispanic or Latino".toList

/-- A `filter` instruction on the column name `white_non_hisp_column`. -/
def schema_filter_line : Str :=
  "filter:Ethnicities.White Alone not Hispanic or Latino:ge:0\n".toList

/-- A `population` instruction on the column name `white_non_hisp_column`. -/
def schema_population_line : Str :=
  "population:Ethnicities.White Alone not Hispanic or Latino\n".toList

/-- A `percent` instruction on the column name `white_non_hisp_column`. -/
def schema_percent_line : Str :=
  "percent:Ethnicities.White Alone not Hispanic or Latino\n".toList

/-! ## The text of the specification, for the splitter -/

/-- All leading and all trailing whitespace removed. -/
def spec_trim (s : Str) : Str :=
  ((s.dropWhile isspace).reverse.dropWhile isspace).reverse

/-- If the text is at least 2 characters long and starts and ends with a double quote, that one
pair of quotes is removed; otherwise the text is unchanged. -/
def spec_unquote (t : Str) : Str :=
  if 2 ≤ t.length ∧ t.head? = some dquote ∧ t.getLast? = some dquote then
    (t.drop 1).take (t.length - 2)
  else t

/-- A field as the specification describes it: trimmed, then unquoted once. -/
def spec_field (piece : Str) : Str := spec_unquote (spec_trim piece)

/-! ## The field splitter -/

theorem dropWhile_append_singleton {α : Type} (p : α → Bool) (l : List α) (c : α)
    (hc : p c = false) : (l ++ [c]).dropWhile p = l.dropWhile p ++ [c] := by
  induction l with
  | nil => simp [List.dropWhile, hc]
  | cons a l ih =>
    by_cases ha : p a = true
    · simp [List.dropWhile_cons, ha, ih]
    · simp [List.dropWhile_cons, ha]

theorem trim_whitespace_eq_spec_trim (s : Str) : trim_whitespace s = spec_trim s := by
  unfold trim_whitespace spec_trim
  cases h : s.dropWhile isspace with
  | nil => simp
  | cons c cs =>
    have hc : isspace c = false := by
      have := List.head_dropWhile_not isspace s (by simp [h])
      simpa [h] using this
    simp [dropWhile_append_singleton isspace cs.reverse c hc]

theorem strip_quotes_eq_spec_unquote (t : Str) : strip_quotes t = spec_unquote t := by
  unfold strip_quotes spec_unquote
  by_cases h : 1 < t.length ∧ t.head? = some dquote ∧ t.getLast? = some dquote
  · have h2 : 2 ≤ t.length ∧ t.head? = some dquote ∧ t.getLast? = some dquote :=
      ⟨h.1, h.2⟩
    rw [if_pos h, if_pos h2, List.dropLast_eq_take, List.drop_take]
    rfl
  · have h2 : ¬ (2 ≤ t.length ∧ t.head? = some dquote ∧ t.getLast? = some dquote) :=
      fun h3 => h ⟨h3.1, h3.2⟩
    rw [if_neg h, if_neg h2]

theorem spec_unquote_quoted (inner : Str) :
    spec_unquote (dquote :: (inner ++ [dquote])) = inner := by
  unfold spec_unquote
  have h : 2 ≤ (dquote :: (inner ++ [dquote])).length ∧
      (dquote :: (inner ++ [dquote])).head? = some dquote ∧
      (dquote :: (inner ++ [dquote])).getLast? = some dquote := by
    refine ⟨by simp, by simp, ?_⟩
    rw [← List.cons_append, List.getLast?_append]
    simp
  rw [if_pos h]
  simp

theorem spec_unquote_unquoted (t : Str)
    (h : ¬ ∃ inner, t = dquote :: (inner ++ [dquote])) : spec_unquote t = t := by
  unfold spec_unquote
  split
  · rename_i hq
    exfalso
    apply h
    obtain ⟨hlen, hhead, hlast⟩ := hq
    cases t with
    | nil => simp at hlen
    | cons a rest =>
      simp only [List.head?_cons, Option.some.injEq] at hhead
      subst hhead
      have hne : rest ≠ [] := by
        intro hr
        simp [hr] at hlen
      refine ⟨rest.dropLast, ?_⟩
      have h1 : (dquote :: rest).getLast? = rest.getLast? := by
        cases rest with
        | nil => exact absurd rfl hne
        | cons b r => simp [List.getLast?_cons_cons]
      rw [h1, List.getLast?_eq_getLast rest hne] at hlast
      have h2 : rest.getLast hne = dquote := Option.some.inj hlast
      rw [← h2, List.dropLast_append_getLast hne]
  · rfl

theorem strsep_splitOn (s : Str) :
    s.splitOn ',' =
      (strsep s).1 :: (match (strsep s).2 with
        | none => []
        | some r => r.splitOn ',') := by
  induction s with
  | nil => simp [strsep, List.splitOn]
  | cons c cs ih =>
    simp only [List.splitOn] at ih ⊢
    rw [List.splitOnP_cons]
    by_cases hc : c = ','
    · subst hc
      simp [strsep]
    · have hb : ¬ ((c == ',') = true) := by simpa using hc
      rw [if_neg hb, ih]
      simp [strsep, hc, List.modifyHead]

theorem strsep_length (s r : Str) (h : (strsep s).2 = some r) : r.length < s.length := by
  induction s with
  | nil => simp [strsep] at h
  | cons c cs ih =>
    by_cases hc : c = ','
    · simp [strsep, hc] at h
      subst h
      simp
    · simp [strsep, hc] at h
      have := ih h
      simp
      omega

theorem split_loop_none (fuel count : Nat) : split_loop fuel none count = some [] := by
  cases fuel <;> rfl

theorem split_loop_succ (fuel : Nat) (tmp : Str) (count : Nat) :
    split_loop (fuel + 1) (some tmp) count =
      if 200 ≤ count then none
      else
        match split_loop fuel (strsep tmp).2 (count + 1) with
        | none => none
        | some fields => some (strip_quotes (trim_whitespace (strsep tmp).1) :: fields) := rfl

theorem splitOn_length (s : Str) : (s.splitOn ',').length = s.count ',' + 1 := by
  induction s with
  | nil => simp [List.splitOn]
  | cons c cs ih =>
    simp only [List.splitOn] at ih ⊢
    rw [List.splitOnP_cons, List.count_cons]
    by_cases hc : (c == ',') = true
    · simp [hc, ih]
    · simp [hc, List.length_modifyHead, ih]

theorem split_loop_eq (fuel : Nat) :
    ∀ (s : Str) (count : Nat), s.length < fuel →
      split_loop fuel (some s) count =
        if count + (s.splitOn ',').length ≤ 200 then some ((s.splitOn ',').map spec_field)
        else none := by
  induction fuel with
  | zero => intro s count h; omega
  | succ fuel ih =>
    intro s count h
    rw [split_loop_succ, strsep_splitOn s, trim_whitespace_eq_spec_trim,
      strip_quotes_eq_spec_unquote]
    cases hr : (strsep s).2 with
    | none =>
      simp only [split_loop_none, List.length_cons, List.length_nil, List.map_cons, List.map_nil]
      by_cases hc : 200 ≤ count
      · rw [if_pos hc, if_neg (by omega)]
      · rw [if_neg hc, if_pos (by omega)]
        rfl
    | some r =>
      have hlen := strsep_length s r hr
      have hpos := splitOn_length r
      simp only [ih r (count + 1) (by omega), List.length_cons, List.map_cons]
      by_cases hc : 200 ≤ count
      · rw [if_pos hc, if_neg (by omega)]
      · rw [if_neg hc]
        by_cases hfit : count + 1 + (r.splitOn ',').length ≤ 200
        · rw [if_pos hfit, if_pos (by omega)]
          rfl
        · rw [if_neg hfit, if_neg (by omega)]

theorem split_fields_eq (line : Str) :
    split_fields line =
      if line.count ',' + 1 ≤ 200 then some ((line.splitOn ',').map spec_field) else none := by
  have h := split_loop_eq (line.length + 1) line 0 (Nat.lt_succ_self _)
  rw [splitOn_length, Nat.zero_add] at h
  exact h

theorem split_fields_fit (line : Str) (hfit : line.count ',' + 1 ≤ 200) :
    split_fields line = some ((line.splitOn ',').map spec_field) := by
  rw [split_fields_eq, if_pos hfit]

theorem split_fields_some (line : Str) (fields : List Str)
    (h : split_fields line = some fields) :
    line.count ',' + 1 ≤ 200 ∧ fields = (line.splitOn ',').map spec_field := by
  rw [split_fields_eq] at h
  by_cases hfit : line.count ',' + 1 ≤ 200
  · rw [if_pos hfit] at h
    exact ⟨hfit, (Option.some.inj h).symm⟩
  · rw [if_neg hfit] at h
    exact absurd h (by simp)

theorem split_fields_none_iff (line : Str) :
    split_fields line = none ↔ 200 < line.count ',' + 1 := by
  rw [split_fields_eq]
  by_cases hfit : line.count ',' + 1 ≤ 200
  · rw [if_pos hfit]
    simp only [reduceCtorEq, false_iff]
    omega
  · rw [if_neg hfit]
    simp only [true_iff]
    omega

theorem split_fields_length (line : Str) (fields : List Str)
    (h : split_fields line = some fields) : fields.length = line.count ',' + 1 := by
  rw [(split_fields_some line fields h).2, List.length_map, splitOn_length]

/-- C9, where the claim fails: `wide_line` has 259 commas, hence 260 comma-delimited pieces, and
the field splitter does not yield 260 fields: it stores the 201st outside its array of 200. -/
theorem split_fields_overflow :
    wide_line.count ',' + 1 = 260 ∧ split_fields wide_line = none :=
  ⟨by rfl, by rfl⟩

/-- C9, amended: for every line of at most 200 comma-delimited pieces (at most 199 commas), the
field splitter yields one field for each piece of the line, in order, `count of commas + 1` in
all; each field is its piece with all leading and trailing whitespace removed and then, when
that text has the form quote, inner text, quote, the inner text exactly as it stands; any other
trimmed text is the field unchanged. -/
theorem split_fields_spec (line : Str) (hfit : line.count ',' + 1 ≤ 200) :
    ∃ fields : List Str,
      split_fields line = some fields ∧
      fields.length = line.count ',' + 1 ∧
      fields = (line.splitOn ',').map (fun piece => spec_unquote (spec_trim piece)) ∧
      (∀ inner : Str, spec_unquote (dquote :: (inner ++ [dquote])) = inner) ∧
      (∀ t : Str, (¬ ∃ inner, t = dquote :: (inner ++ [dquote])) → spec_unquote t = t) :=
  ⟨_, split_fields_fit line hfit,
    by rw [List.length_map, splitOn_length], rfl, spec_unquote_quoted, spec_unquote_unquoted⟩

theorem split_fields_spec_witness :
    sample_line.count ',' + 1 ≤ 200 ∧
    ∃ fields : List Str,
      split_fields sample_line = some fields ∧
      fields.length = sample_line.count ',' + 1 ∧
      fields = (sample_line.splitOn ',').map (fun piece => spec_unquote (spec_trim piece)) ∧
      (∀ inner : Str, spec_unquote (dquote :: (inner ++ [dquote])) = inner) ∧
      (∀ t : Str, (¬ ∃ inner, t = dquote :: (inner ++ [dquote])) → spec_unquote t = t) :=
  ⟨by decide, split_fields_spec sample_line (by decide)⟩

/-! ## Header lookup -/

theorem find_header_index_from_spec (name : Str) (hs : List Str) :
    ∀ k : Int,
      (name ∉ hs ∧ find_header_index_from name hs k = -1) ∨
      (∃ i : Nat, i < hs.length ∧ hs[i]? = some name ∧ (∀ j : Nat, j < i → hs[j]? ≠ some name) ∧
        find_header_index_from name hs k = k + i) := by
  induction hs with
  | nil => intro k; left; simp [find_header_index_from]
  | cons h hs ih =>
    intro k
    by_cases hh : h = name
    · right
      refine ⟨0, by simp, by simp [hh], by intro j hj; omega, ?_⟩
      simp [find_header_index_from, hh]
    · rcases ih (k + 1) with ⟨hmem, hres⟩ | ⟨i, hi, hget, hmin, hres⟩
      · left
        refine ⟨?_, ?_⟩
        · simp only [List.mem_cons, not_or]
          exact ⟨fun e => hh e.symm, hmem⟩
        · simp [find_header_index_from, hh, hres]
      · right
        refine ⟨i + 1, by simp [hi], by simpa using hget, ?_, ?_⟩
        · intro j hj
          cases j with
          | zero => simpa using hh
          | succ j => simpa using hmin j (by omega)
        · simp only [find_header_index_from, hh, if_false, hres]
          push_cast
          ring

theorem find_header_index_neg_iff (headers : List Str) (name : Str) :
    find_header_index headers name < 0 ↔ name ∉ headers := by
  unfold find_header_index
  rcases find_header_index_from_spec name headers 0 with ⟨hmem, hres⟩ | ⟨i, hi, hget, _, hres⟩
  · simp [hres, hmem]
  · have hmem : name ∈ headers := List.getElem?_mem hget
    rw [hres]
    constructor
    · intro h; omega
    · intro h; exact absurd hmem h

/-- C10: when some header equals `name`, `find_header_index` returns the smallest index whose
header is exactly `name`; and it returns `-1` if and only if no header equals `name`. -/
theorem find_header_index_spec (headers : List Str) (name : Str) :
    (name ∈ headers →
      ∃ i : Nat, find_header_index headers name = (i : Int) ∧ i < headers.length ∧
        headers[i]? = some name ∧ ∀ j : Nat, j < i → headers[j]? ≠ some name) ∧
    (find_header_index headers name = -1 ↔ name ∉ headers) := by
  unfold find_header_index
  rcases find_header_index_from_spec name headers 0 with ⟨hmem, hres⟩ | ⟨i, hi, hget, hmin, hres⟩
  · exact ⟨fun h => absurd h hmem, by simp [hres, hmem]⟩
  · have hmem : name ∈ headers := List.getElem?_mem hget
    refine ⟨fun _ => ⟨i, by simpa using hres, hi, hget, hmin⟩, ?_⟩
    rw [hres]
    constructor
    · intro h; omega
    · intro h; exact absurd hmem h

/-! ## Parsing a data line -/

section ParseLine

variable {F D : Type}

theorem parse_csv_line_line_num (ops : FloatOps F D) (line : Str) (m n : Int)
    (fi : FieldIndices) : parse_csv_line ops line m fi = parse_csv_line ops line n fi := rfl

theorem convert_to_float_none_iff (ops : FloatOps F D) (str : Str) :
    convert_to_float ops str = none ↔ (str = [] ∨ ops.strtof str = none) := by
  unfold convert_to_float
  by_cases h : str = [] <;> simp [h]

theorem convert_to_int_none_iff (str : Str) :
    convert_to_int str = none ↔ (str = [] ∨ strtol str = none) := by
  unfold convert_to_int
  by_cases h : str = []
  · simp [h]
  · cases hs : strtol str <;> simp [h]

theorem required_indices_any_iff (fi : FieldIndices) (count : Int) :
    (fi.required_indices.any (fun idx => idx < 0 || idx ≥ count) = true) ↔
      ∃ idx ∈ fi.required_indices, idx < 0 ∨ ¬ idx < count := by
  rw [List.any_eq_true]
  constructor
  · rintro ⟨idx, hmem, h⟩
    refine ⟨idx, hmem, ?_⟩
    simp only [Bool.or_eq_true, decide_eq_true_eq] at h
    rcases h with h | h
    · exact Or.inl h
    · exact Or.inr (by omega)
  · rintro ⟨idx, hmem, h⟩
    refine ⟨idx, hmem, ?_⟩
    simp only [Bool.or_eq_true, decide_eq_true_eq]
    rcases h with h | h
    · exact Or.inl h
    · exact Or.inr (by omega)


theorem parse_fields_cases (ops : FloatOps F D) (fields : List Str) (fi : FieldIndices) :
    (parse_fields ops fields fi = none ↔
      ((∃ idx ∈ fi.required_indices, idx < 0 ∨ ¬ idx < (fields.length : Int)) ∨
        convert_to_float ops (field_at fields fi.idx_edu_bachelors) = none ∨
        convert_to_float ops (field_at fields fi.idx_edu_hs) = none ∨
        convert_to_float ops (field_at fields fi.idx_eth_ai) = none ∨
        convert_to_float ops (field_at fields fi.idx_eth_asian) = none ∨
        convert_to_float ops (field_at fields fi.idx_eth_black) = none ∨
        convert_to_float ops (field_at fields fi.idx_eth_hisp) = none ∨
        convert_to_float ops (field_at fields fi.idx_eth_nhpi) = none ∨
        convert_to_float ops (field_at fields fi.idx_eth_2more) = none ∨
        convert_to_float ops (field_at fields fi.idx_eth_white) = none ∨
        convert_to_float ops (field_at fields fi.idx_eth_white_non_hisp) = none ∨
        convert_to_int (field_at fields fi.idx_inc_median) = none ∨
        convert_to_int (field_at fields fi.idx_inc_percap) = none ∨
        convert_to_float ops (field_at fields fi.idx_inc_pov) = none ∨
        convert_to_int (field_at fields fi.idx_pop_2014) = none)) ∧
    (∀ rec : CountyRecord F, parse_fields ops fields fi = some rec →
        convert_to_float ops (field_at fields fi.idx_edu_bachelors) = some rec.edu_bachelors ∧
        convert_to_float ops (field_at fields fi.idx_edu_hs) = some rec.edu_hs ∧
        convert_to_float ops (field_at fields fi.idx_eth_ai) = some rec.eth_ai ∧
        convert_to_float ops (field_at fields fi.idx_eth_asian) = some rec.eth_asian ∧
        convert_to_float ops (field_at fields fi.idx_eth_black) = some rec.eth_black ∧
        convert_to_float ops (field_at fields fi.idx_eth_hisp) = some rec.eth_hisp ∧
        convert_to_float ops (field_at fields fi.idx_eth_nhpi) = some rec.eth_nhpi ∧
        convert_to_float ops (field_at fields fi.idx_eth_2more) = some rec.eth_2more ∧
        convert_to_float ops (field_at fields fi.idx_eth_white) = some rec.eth_white ∧
        convert_to_float ops (field_at fields fi.idx_eth_white_non_hisp) = some rec.eth_white_non_hisp ∧
        convert_to_int (field_at fields fi.idx_inc_median) = some rec.income_median ∧
        convert_to_int (field_at fields fi.idx_inc_percap) = some rec.income_percap ∧
        convert_to_float ops (field_at fields fi.idx_inc_pov) = some rec.income_poverty ∧
        convert_to_int (field_at fields fi.idx_pop_2014) = some rec.pop_2014 ∧
        rec.county = field_at fields fi.idx_county ∧
        rec.state = field_at fields fi.idx_state ∧
        rec.active = 1) := by
  by_cases hb : fi.required_indices.any
      (fun idx => idx < 0 || idx ≥ (fields.length : Int)) = true
  · have hex := (required_indices_any_iff fi _).1 hb
    have hnone : parse_fields ops fields fi = none := by
      simp only [parse_fields, hb, if_true]
    rw [hnone]
    exact ⟨⟨fun _ => Or.inl hex, fun _ => rfl⟩, fun rec h => by cases h⟩
  · have hno : ¬ ∃ idx ∈ fi.required_indices,
        idx < 0 ∨ ¬ idx < (fields.length : Int) :=
      fun h => hb ((required_indices_any_iff fi _).2 h)
    simp only [parse_fields, hb, hno, false_or]
    generalize convert_to_float ops (field_at fields fi.idx_edu_bachelors) = c1
    generalize convert_to_float ops (field_at fields fi.idx_edu_hs) = c2
    generalize convert_to_float ops (field_at fields fi.idx_eth_ai) = c3
    generalize convert_to_float ops (field_at fields fi.idx_eth_asian) = c4
    generalize convert_to_float ops (field_at fields fi.idx_eth_black) = c5
    generalize convert_to_float ops (field_at fields fi.idx_eth_hisp) = c6
    generalize convert_to_float ops (field_at fields fi.idx_eth_nhpi) = c7
    generalize convert_to_float ops (field_at fields fi.idx_eth_2more) = c8
    generalize convert_to_float ops (field_at fields fi.idx_eth_white) = c9
    generalize convert_to_float ops (field_at fields fi.idx_eth_white_non_hisp) = c10
    generalize convert_to_int (field_at fields fi.idx_inc_median) = c11
    generalize convert_to_int (field_at fields fi.idx_inc_percap) = c12
    generalize convert_to_float ops (field_at fields fi.idx_inc_pov) = c13
    generalize convert_to_int (field_at fields fi.idx_pop_2014) = c14
    rcases c1 with _ | v1
    · refine ⟨⟨fun _ => ?_, fun _ => rfl⟩, fun rec h => ?_⟩
      · simp
      · have h2 : (none : Option (CountyRecord F)) = some rec := h
        cases h2
    rcases c2 with _ | v2
    · refine ⟨⟨fun _ => ?_, fun _ => rfl⟩, fun rec h => ?_⟩
      · simp
      · have h2 : (none : Option (CountyRecord F)) = some rec := h
        cases h2
    rcases c3 with _ | v3
    · refine ⟨⟨fun _ => ?_, fun _ => rfl⟩, fun rec h => ?_⟩
      · simp
      · have h2 : (none : Option (CountyRecord F)) = some rec := h
        cases h2
    rcases c4 with _ | v4
    · refine ⟨⟨fun _ => ?_, fun _ => rfl⟩, fun rec h => ?_⟩
      · simp
      · have h2 : (none : Option (CountyRecord F)) = some rec := h
        cases h2
    rcases c5 with _ | v5
    · refine ⟨⟨fun _ => ?_, fun _ => rfl⟩, fun rec h => ?_⟩
      · simp
      · have h2 : (none : Option (CountyRecord F)) = some rec := h
        cases h2
    rcases c6 with _ | v6
    · refine ⟨⟨fun _ => ?_, fun _ => rfl⟩, fun rec h => ?_⟩
      · simp
      · have h2 : (none : Option (CountyRecord F)) = some rec := h
        cases h2
    rcases c7 with _ | v7
    · refine ⟨⟨fun _ => ?_, fun _ => rfl⟩, fun rec h => ?_⟩
      · simp
      · have h2 : (none : Option (CountyRecord F)) = some rec := h
        cases h2
    rcases c8 with _ | v8
    · refine ⟨⟨fun _ => ?_, fun _ => rfl⟩, fun rec h => ?_⟩
      · simp
      · have h2 : (none : Option (CountyRecord F)) = some rec := h
        cases h2
    rcases c9 with _ | v9
    · refine ⟨⟨fun _ => ?_, fun _ => rfl⟩, fun rec h => ?_⟩
      · simp
      · have h2 : (none : Option (CountyRecord F)) = some rec := h
        cases h2
    rcases c10 with _ | v10
    · refine ⟨⟨fun _ => ?_, fun _ => rfl⟩, fun rec h => ?_⟩
      · simp
      · have h2 : (none : Option (CountyRecord F)) = some rec := h
        cases h2
    rcases c11 with _ | v11
    · refine ⟨⟨fun _ => ?_, fun _ => rfl⟩, fun rec h => ?_⟩
      · simp
      · have h2 : (none : Option (CountyRecord F)) = some rec := h
        cases h2
    rcases c12 with _ | v12
    · refine ⟨⟨fun _ => ?_, fun _ => rfl⟩, fun rec h => ?_⟩
      · simp
      · have h2 : (none : Option (CountyRecord F)) = some rec := h
        cases h2
    rcases c13 with _ | v13
    · refine ⟨⟨fun _ => ?_, fun _ => rfl⟩, fun rec h => ?_⟩
      · simp
      · have h2 : (none : Option (CountyRecord F)) = some rec := h
        cases h2
    rcases c14 with _ | v14
    · refine ⟨⟨fun _ => ?_, fun _ => rfl⟩, fun rec h => ?_⟩
      · simp
      · have h2 : (none : Option (CountyRecord F)) = some rec := h
        cases h2
    refine ⟨⟨fun h => ?_, fun h => ?_⟩, fun rec h => ?_⟩
    · exact absurd h (Option.some_ne_none _)
    · simp at h
    · obtain rfl := Option.some.inj h
      exact ⟨rfl, rfl, rfl, rfl, rfl, rfl, rfl, rfl, rfl, rfl, rfl, rfl, rfl, rfl, rfl, rfl, rfl⟩

theorem parse_fields_active (ops : FloatOps F D) (fields : List Str) (fi : FieldIndices)
    (rec : CountyRecord F) (h : parse_fields ops fields fi = some rec) : rec.active = 1 :=
  ((parse_fields_cases ops fields fi).2 rec h).2.2.2.2.2.2.2.2.2.2.2.2.2.2.2.2

theorem parse_csv_line_of_fields (ops : FloatOps F D) (line : Str) (line_num : Int)
    (fi : FieldIndices) (fields : List Str) (h : split_fields line = some fields) :
    parse_csv_line ops line line_num fi = some (parse_fields ops fields fi) := by
  simp only [parse_csv_line, h]

theorem parse_csv_line_fit (ops : FloatOps F D) (line : Str) (line_num : Int)
    (fi : FieldIndices) (hfit : line.count ',' + 1 ≤ 200) :
    parse_csv_line ops line line_num fi =
      some (parse_fields ops ((line.splitOn ',').map spec_field) fi) :=
  parse_csv_line_of_fields ops line line_num fi _ (split_fields_fit line hfit)

theorem parse_csv_line_some (ops : FloatOps F D) (line : Str) (line_num : Int)
    (fi : FieldIndices) (res : Option (CountyRecord F))
    (h : parse_csv_line ops line line_num fi = some res) :
    ∃ fields : List Str, split_fields line = some fields ∧ res = parse_fields ops fields fi := by
  cases hs : split_fields line with
  | none =>
    simp only [parse_csv_line, hs] at h
    exact absurd h (by simp)
  | some fields =>
    rw [parse_csv_line_of_fields ops line line_num fi fields hs] at h
    exact ⟨fields, rfl, (Option.some.inj h).symm⟩

theorem parse_csv_line_none_iff (ops : FloatOps F D) (line : Str) (line_num : Int)
    (fi : FieldIndices) :
    parse_csv_line ops line line_num fi = none ↔ 200 < line.count ',' + 1 := by
  rw [← split_fields_none_iff]
  cases hs : split_fields line with
  | none => simp only [parse_csv_line, hs]
  | some fields =>
    rw [parse_csv_line_of_fields ops line line_num fi fields hs]
    simp

theorem parse_csv_line_active (ops : FloatOps F D) (line : Str) (line_num : Int)
    (fi : FieldIndices) (rec : CountyRecord F)
    (h : parse_csv_line ops line line_num fi = some (some rec)) : rec.active = 1 := by
  obtain ⟨fields, _, hrec⟩ := parse_csv_line_some ops line line_num fi _ h
  exact parse_fields_active ops fields fi rec hrec.symm

/-- C8, where the claim fails: `wide_line` has 260 fields, every index of the resolved mapping
`sample_indices` is below 260 and the fourteen numeric fields at these indices convert (the rest
of the body, run on the 260 comma-delimited pieces, stores a record), but `parse_csv_line`
neither rejects the line nor succeeds: its token loop stores outside the array of 200. -/
theorem parse_csv_line_overflow :
    wide_line.count ',' + 1 = 260 ∧
    (∀ idx ∈ sample_indices.required_indices, 0 ≤ idx ∧ idx < 260) ∧
    (parse_fields wholeOps ((wide_line.splitOn ',').map spec_field) sample_indices).isSome
      = true ∧
    parse_csv_line wholeOps wide_line 2 sample_indices = none :=
  ⟨by rfl, by decide, by rfl, by rfl⟩

/-- C8, amended: for every data line of at most 200 fields (at most 199 commas) and a mapping
whose sixteen indices are resolved (none is negative), the token loop of `parse_csv_line` stores
the `count of commas + 1` fields of the line, and `parse_csv_line` rejects the line (returns -1)
exactly when some index is not below the number of fields or one of the fourteen numeric fields
fails conversion; a conversion fails exactly on the empty string and on a string of which
`strtof` / `strtol` converts nothing.  Otherwise the line is accepted, and then every numeric
field of the record is the conversion of the field at its index, the two names are the fields at
their indices, and `active` is 1. -/
theorem parse_csv_line_spec (ops : FloatOps F D) (line : Str) (line_num : Int)
    (fi : FieldIndices) (hres : ∀ idx ∈ fi.required_indices, 0 ≤ idx)
    (hfit : line.count ',' + 1 ≤ 200) :
    ∃ fields : List Str,
      split_fields line = some fields ∧
      fields.length = line.count ',' + 1 ∧
      (parse_csv_line ops line line_num fi = some none ↔
        ((∃ idx ∈ fi.required_indices, ¬ idx < (fields.length : Int)) ∨
          convert_to_float ops (field_at fields fi.idx_edu_bachelors) = none ∨
          convert_to_float ops (field_at fields fi.idx_edu_hs) = none ∨
          convert_to_float ops (field_at fields fi.idx_eth_ai) = none ∨
          convert_to_float ops (field_at fields fi.idx_eth_asian) = none ∨
          convert_to_float ops (field_at fields fi.idx_eth_black) = none ∨
          convert_to_float ops (field_at fields fi.idx_eth_hisp) = none ∨
          convert_to_float ops (field_at fields fi.idx_eth_nhpi) = none ∨
          convert_to_float ops (field_at fields fi.idx_eth_2more) = none ∨
          convert_to_float ops (field_at fields fi.idx_eth_white) = none ∨
          convert_to_float ops (field_at fields fi.idx_eth_white_non_hisp) = none ∨
          convert_to_int (field_at fields fi.idx_inc_median) = none ∨
          convert_to_int (field_at fields fi.idx_inc_percap) = none ∨
          convert_to_float ops (field_at fields fi.idx_inc_pov) = none ∨
          convert_to_int (field_at fields fi.idx_pop_2014) = none)) ∧
      (∀ rec : CountyRecord F, parse_csv_line ops line line_num fi = some (some rec) →
          convert_to_float ops (field_at fields fi.idx_edu_bachelors) = some rec.edu_bachelors ∧
          convert_to_float ops (field_at fields fi.idx_edu_hs) = some rec.edu_hs ∧
          convert_to_float ops (field_at fields fi.idx_eth_ai) = some rec.eth_ai ∧
          convert_to_float ops (field_at fields fi.idx_eth_asian) = some rec.eth_asian ∧
          convert_to_float ops (field_at fields fi.idx_eth_black) = some rec.eth_black ∧
          convert_to_float ops (field_at fields fi.idx_eth_hisp) = some rec.eth_hisp ∧
          convert_to_float ops (field_at fields fi.idx_eth_nhpi) = some rec.eth_nhpi ∧
          convert_to_float ops (field_at fields fi.idx_eth_2more) = some rec.eth_2more ∧
          convert_to_float ops (field_at fields fi.idx_eth_white) = some rec.eth_white ∧
          convert_to_float ops (field_at fields fi.idx_eth_white_non_hisp) = some rec.eth_white_non_hisp ∧
          convert_to_int (field_at fields fi.idx_inc_median) = some rec.income_median ∧
          convert_to_int (field_at fields fi.idx_inc_percap) = some rec.income_percap ∧
          convert_to_float ops (field_at fields fi.idx_inc_pov) = some rec.income_poverty ∧
          convert_to_int (field_at fields fi.idx_pop_2014) = some rec.pop_2014 ∧
          rec.county = field_at fields fi.idx_county ∧
          rec.state = field_at fields fi.idx_state ∧
          rec.active = 1) ∧
      (parse_csv_line ops line line_num fi = some none ∨
        ∃ rec : CountyRecord F, parse_csv_line ops line line_num fi = some (some rec)) ∧
      (∀ str : Str, convert_to_float ops str = none ↔ (str = [] ∨ ops.strtof str = none)) ∧
      (∀ str : Str, convert_to_int str = none ↔ (str = [] ∨ strtol str = none)) := by
  have hsplit := split_fields_fit line hfit
  have hparse := parse_csv_line_of_fields ops line line_num fi _ hsplit
  refine ⟨_, hsplit, by rw [List.length_map, splitOn_length], ?_, ?_, ?_,
    convert_to_float_none_iff ops, convert_to_int_none_iff⟩
  · rw [hparse, Option.some.injEq, (parse_fields_cases ops _ fi).1]
    have hiff : ∀ count : Int, (∃ idx ∈ fi.required_indices, idx < 0 ∨ ¬ idx < count) ↔
        (∃ idx ∈ fi.required_indices, ¬ idx < count) := by
      intro count
      constructor
      · rintro ⟨idx, hmem, h⟩
        have h0 := hres idx hmem
        exact ⟨idx, hmem, by rcases h with h | h; · omega
                             · exact h⟩
      · rintro ⟨idx, hmem, h⟩
        exact ⟨idx, hmem, Or.inr h⟩
    rw [hiff]
  · intro rec h
    rw [hparse, Option.some.injEq] at h
    exact (parse_fields_cases ops _ fi).2 rec h
  · rw [hparse]
    cases parse_fields ops ((line.splitOn ',').map spec_field) fi with
    | none => exact Or.inl rfl
    | some rec => exact Or.inr ⟨rec, rfl⟩

theorem parse_csv_line_spec_witness :
    (∀ idx ∈ sample_indices.required_indices, 0 ≤ idx) ∧
    sample_line.count ',' + 1 ≤ 200 ∧
    ∃ rec : CountyRecord Int,
      parse_csv_line wholeOps sample_line 2 sample_indices = some (some rec) ∧
      convert_to_int "1000".toList = some rec.pop_2014 ∧ rec.active = 1 := by
  obtain ⟨fields, hsplit, _, _, hacc, hor, _, _⟩ :=
    parse_csv_line_spec wholeOps sample_line 2 sample_indices (by decide) (by decide)
  have hfields : split_fields sample_line = some ((sample_line.splitOn ',').map spec_field) :=
    by rfl
  rw [hfields] at hsplit
  obtain rfl := Option.some.inj hsplit
  rcases hor with hrej | ⟨rec, hrec⟩
  · have hs : (parse_csv_line wholeOps sample_line 2 sample_indices).join.isSome = true := by rfl
    rw [hrej] at hs
    exact absurd hs (by decide)
  · have h := hacc rec hrec
    exact ⟨by decide, by decide, rec, hrec, h.2.2.2.2.2.2.2.2.2.2.2.2.2.1,
      h.2.2.2.2.2.2.2.2.2.2.2.2.2.2.2.2⟩

end ParseLine

/-! ## Loading the file -/

section Load

variable {F D : Type}

theorem load_lines_cons (ops : FloatOps F D) (fi : FieldIndices) (line : Str)
    (rest : List Str) (line_num : Int) :
    load_lines ops fi (line :: rest) line_num =
      match parse_csv_line ops line (line_num + 1) fi with
      | none => none
      | some (some temp) =>
        match load_lines ops fi rest (line_num + 1) with
        | none => none
        | some loaded => some (temp :: loaded.1, loaded.2)
      | some none =>
        match load_lines ops fi rest (line_num + 1) with
        | none => none
        | some loaded =>
          some (loaded.1, Event.err (Stderr.malformed_line (line_num + 1)) :: loaded.2) := rfl

theorem load_lines_fit (ops : FloatOps F D) (fi : FieldIndices) (lines : List Str)
    (hfit : ∀ l ∈ lines, l.count ',' + 1 ≤ 200) :
    ∀ line_num : Int, ∃ loaded, load_lines ops fi lines line_num = some loaded := by
  induction lines with
  | nil => intro line_num; exact ⟨_, rfl⟩
  | cons l rest ih =>
    intro line_num
    obtain ⟨loaded, hl⟩ := ih (fun x hx => hfit x (List.mem_cons_of_mem _ hx)) (line_num + 1)
    rw [load_lines_cons, parse_csv_line_fit ops l _ fi (hfit l (List.mem_cons_self _ _)), hl]
    cases parse_fields ops ((l.splitOn ',').map spec_field) fi with
    | none => exact ⟨_, rfl⟩
    | some temp => exact ⟨_, rfl⟩

theorem load_lines_records (ops : FloatOps F D) (fi : FieldIndices) (n : Int) (lines : List Str) :
    ∀ (line_num : Int) (loaded : List (CountyRecord F) × List (Event F D)),
      load_lines ops fi lines line_num = some loaded →
        loaded.1 = lines.filterMap (fun l => (parse_csv_line ops l n fi).join) ∧
        ∀ l ∈ lines, l.count ',' + 1 ≤ 200 := by
  induction lines with
  | nil =>
    intro line_num loaded h
    have h2 : some (([], []) : List (CountyRecord F) × List (Event F D)) = some loaded := h
    obtain rfl := Option.some.inj h2
    exact ⟨rfl, fun l hl => absurd hl (List.not_mem_nil l)⟩
  | cons l rest ih =>
    intro line_num loaded h
    rw [load_lines_cons] at h
    have hn : parse_csv_line ops l n fi = parse_csv_line ops l (line_num + 1) fi := rfl
    cases hp : parse_csv_line ops l (line_num + 1) fi with
    | none =>
      rw [hp] at h
      exact absurd h (by simp)
    | some res =>
      have hfitl : l.count ',' + 1 ≤ 200 := by
        have hne : ¬ (200 < l.count ',' + 1) := fun hlt =>
          absurd ((parse_csv_line_none_iff ops l (line_num + 1) fi).2 hlt) (by rw [hp]; simp)
        omega
      rw [hp] at h hn
      cases hr : load_lines ops fi rest (line_num + 1) with
      | none =>
        rw [hr] at h
        cases res <;> exact absurd h (by simp)
      | some tail =>
        obtain ⟨htail, hfit⟩ := ih (line_num + 1) tail hr
        rw [hr] at h
        refine ⟨?_, fun x hx => ?_⟩
        · cases res with
          | none =>
            have h2 : some (tail.1,
                Event.err (Stderr.malformed_line (line_num + 1)) :: tail.2) = some loaded := h
            obtain rfl := Option.some.inj h2
            have hj : (fun l => (parse_csv_line ops l n fi).join) l = none := by
              show (parse_csv_line ops l n fi).join = none
              rw [hn]
              rfl
            exact htail.trans (@List.filterMap_cons_none _ _
              (fun l => (parse_csv_line ops l n fi).join) l rest hj).symm
          | some temp =>
            have h2 : some (temp :: tail.1, tail.2) = some loaded := h
            obtain rfl := Option.some.inj h2
            have hj : (fun l => (parse_csv_line ops l n fi).join) l = some temp := by
              show (parse_csv_line ops l n fi).join = some temp
              rw [hn]
              rfl
            exact (congrArg (List.cons temp) htail).trans (@List.filterMap_cons_some _ _
              (fun l => (parse_csv_line ops l n fi).join) l rest temp hj).symm
        · rcases List.mem_cons.1 hx with rfl | hx
          · exact hfitl
          · exact hfit x hx

theorem load_lines_active (ops : FloatOps F D) (fi : FieldIndices) (lines : List Str)
    (line_num : Int) (loaded : List (CountyRecord F) × List (Event F D))
    (h : load_lines ops fi lines line_num = some loaded) :
    ∀ r ∈ loaded.1, ∃ l ∈ lines, parse_csv_line ops l 0 fi = some (some r) := by
  intro r hr
  rw [(load_lines_records ops fi 0 lines line_num loaded h).1] at hr
  obtain ⟨l, hl, hjoin⟩ := List.mem_filterMap.1 hr
  refine ⟨l, hl, ?_⟩
  have hjoin2 : (parse_csv_line ops l 0 fi).join = some r := hjoin
  cases hp : parse_csv_line ops l 0 fi with
  | none =>
    rw [hp] at hjoin2
    have h2 : (none : Option (CountyRecord F)) = some r := hjoin2
    cases h2
  | some res =>
    rw [hp] at hjoin2
    cases res with
    | none =>
      have h2 : (none : Option (CountyRecord F)) = some r := hjoin2
      cases h2
    | some temp =>
      have h2 : some temp = some r := hjoin2
      rw [Option.some.inj h2]

theorem filterMap_length_add_countP {α β : Type} (f : α → Option β) (l : List α) :
    (l.filterMap f).length + l.countP (fun a => (f a).isNone) = l.length := by
  induction l with
  | nil => rfl
  | cons a l ih =>
    cases h : f a with
    | none => simp [List.filterMap_cons, List.countP_cons, h]; omega
    | some b => simp [List.filterMap_cons, List.countP_cons, h]; omega

theorem rejected_eq_join_isNone (ops : FloatOps F D) (fi : FieldIndices) (line : Str) (n : Int)
    (hfit : line.count ',' + 1 ≤ 200) :
    rejected (parse_csv_line ops line n fi) = (parse_csv_line ops line n fi).join.isNone := by
  rw [parse_csv_line_fit ops line n fi hfit]
  cases parse_fields ops ((line.splitOn ',').map spec_field) fi <;> rfl

theorem required_indices_eq_map (headers : List Str) :
    (resolve_indices headers).required_indices =
      required_columns.map (find_header_index headers) := rfl

theorem missing_column_iff (headers : List Str) :
    ((resolve_indices headers).required_indices.any (fun idx => idx < 0) = true) ↔
      ∃ name ∈ required_columns, name ∉ headers := by
  rw [required_indices_eq_map, List.any_eq_true]
  constructor
  · rintro ⟨idx, hmem, h⟩
    obtain ⟨name, hname, rfl⟩ := List.mem_map.1 hmem
    exact ⟨name, hname, (find_header_index_neg_iff headers name).1 (by simpa using h)⟩
  · rintro ⟨name, hname, h⟩
    exact ⟨find_header_index headers name, List.mem_map.2 ⟨name, hname, rfl⟩,
      by simpa using (find_header_index_neg_iff headers name).2 h⟩

theorem load_demographics_resolved (ops : FloatOps F D) (header : Str) (lines : List Str)
    (headers : List Str) (hhead : split_fields header = some headers)
    (h : ¬ ((resolve_indices headers).required_indices.any (fun idx => idx < 0) = true)) :
    load_demographics ops (some (header :: lines)) =
      match load_lines ops (resolve_indices headers) lines 1 with
      | none => none
      | some loaded =>
        some (some loaded.1,
          loaded.2 ++ [Event.out (Stdout.records_loaded (loaded.1.length : Int))]) := by
  simp only [load_demographics, hhead]
  rw [if_neg h]

theorem load_demographics_missing (ops : FloatOps F D) (header : Str) (lines : List Str)
    (headers : List Str) (hhead : split_fields header = some headers)
    (h : (resolve_indices headers).required_indices.any (fun idx => idx < 0) = true) :
    load_demographics ops (some (header :: lines)) =
      some (none, [Event.err Stderr.missing_column]) := by
  simp only [load_demographics, hhead]
  rw [if_pos h]

theorem load_demographics_header_overflow (ops : FloatOps F D) (header : Str)
    (lines : List Str) (hhead : split_fields header = none) :
    load_demographics ops (some (header :: lines)) = none := by
  simp only [load_demographics, hhead]

theorem load_demographics_some (ops : FloatOps F D) (file : Option (List Str))
    (recs : List (CountyRecord F)) (log : List (Event F D))
    (h : load_demographics ops file = some (some recs, log)) :
    ∃ header lines headers loaded,
      file = some (header :: lines) ∧ split_fields header = some headers ∧
      load_lines ops (resolve_indices headers) lines 1 = some loaded ∧ loaded.1 = recs := by
  rcases file with _ | _ | ⟨header, lines⟩
  · simp [load_demographics] at h
  · simp [load_demographics] at h
  · cases hhead : split_fields header with
    | none =>
      rw [load_demographics_header_overflow ops header lines hhead] at h
      exact absurd h (by simp)
    | some headers =>
      by_cases hany : (resolve_indices headers).required_indices.any (fun idx => idx < 0) = true
      · rw [load_demographics_missing ops header lines headers hhead hany] at h
        simp at h
      · rw [load_demographics_resolved ops header lines headers hhead hany] at h
        cases hl : load_lines ops (resolve_indices headers) lines 1 with
        | none =>
          rw [hl] at h
          exact absurd h (by simp)
        | some loaded =>
          rw [hl] at h
          have h2 : some (some loaded.1,
              loaded.2 ++ [Event.out (Stdout.records_loaded (loaded.1.length : Int))]) =
              some (some recs, log) := h
          have h3 := congrArg Prod.fst (Option.some.inj h2)
          exact ⟨header, lines, headers, loaded, rfl, hhead, hl, Option.some.inj h3⟩

/-- C1, where the claim fails: the header `sample_header` resolves all sixteen required columns
and the one data line `wide_line` is not rejected by `parse_csv_line` (`N = 1`, `M = 0`), but
`load_demographics` does not return one record: the token loop of `parse_csv_line` stores the
201st of the 260 fields of the line outside its array of 200. -/
theorem load_demographics_overflow :
    (∃ headers : List Str, split_fields sample_header = some headers ∧
      (∀ idx ∈ (resolve_indices headers).required_indices, 0 ≤ idx) ∧
      rejected (parse_csv_line wholeOps wide_line 2 (resolve_indices headers)) = false) ∧
    load_demographics wholeOps (some [sample_header, wide_line]) = none :=
  ⟨⟨(sample_header.splitOn ',').map spec_field, by rfl, by decide, by rfl⟩, by rfl⟩

/-- C1, amended: when the header has at most 200 fields and resolves all sixteen required
columns, and every data line has at most 200 fields (at most 199 commas), `load_demographics`
returns the parses of the data lines that `parse_csv_line` accepts, in file order: with `N` data
lines of which `M` are rejected it returns exactly `N - M` records, each with `active = 1`, and
the count it prints is that number. -/
theorem load_demographics_records (ops : FloatOps F D) (header : Str) (lines : List Str)
    (headers : List Str) (hhead : split_fields header = some headers)
    (hres : ∀ idx ∈ (resolve_indices headers).required_indices, 0 ≤ idx)
    (hfit : ∀ l ∈ lines, l.count ',' + 1 ≤ 200) :
    ∃ (recs : List (CountyRecord F)) (log : List (Event F D)),
      load_demographics ops (some (header :: lines)) = some (some recs, log) ∧
      (∀ n : Int, recs = lines.filterMap
        (fun l => (parse_csv_line ops l n (resolve_indices headers)).join)) ∧
      recs.length = lines.length - lines.countP
        (fun l => rejected (parse_csv_line ops l 0 (resolve_indices headers))) ∧
      (∀ r ∈ recs, r.active = 1) ∧
      log.getLast? = some (Event.out (Stdout.records_loaded (recs.length : Int))) := by
  have hany : ¬ ((resolve_indices headers).required_indices.any
      (fun idx => idx < 0) = true) := by
    rw [List.any_eq_true]
    rintro ⟨idx, hmem, h⟩
    have := hres idx hmem
    simp only [decide_eq_true_eq] at h
    omega
  obtain ⟨loaded, hl⟩ := load_lines_fit ops (resolve_indices headers) lines hfit 1
  refine ⟨loaded.1,
    loaded.2 ++ [Event.out (Stdout.records_loaded (loaded.1.length : Int))], ?_, ?_, ?_, ?_, ?_⟩
  · rw [load_demographics_resolved ops header lines headers hhead hany, hl]
  · intro n
    exact (load_lines_records ops _ n lines 1 loaded hl).1
  · rw [(load_lines_records ops _ 0 lines 1 loaded hl).1]
    have hcount : lines.countP
          (fun l => rejected (parse_csv_line ops l 0 (resolve_indices headers))) =
        lines.countP
          (fun l => (parse_csv_line ops l 0 (resolve_indices headers)).join.isNone) := by
      apply List.countP_congr
      intro l hmem
      rw [rejected_eq_join_isNone ops _ l 0 (hfit l hmem)]
    rw [hcount]
    have := filterMap_length_add_countP
      (fun l => (parse_csv_line ops l 0 (resolve_indices headers)).join) lines
    omega
  · intro r hr
    obtain ⟨l, _, hp⟩ := load_lines_active ops _ lines 1 loaded hl r hr
    exact parse_csv_line_active ops l 0 _ r hp
  · simp

theorem load_demographics_records_witness :
    split_fields sample_header = some ((sample_header.splitOn ',').map spec_field) ∧
    (∀ idx ∈ (resolve_indices ((sample_header.splitOn ',').map spec_field)).required_indices,
      0 ≤ idx) ∧
    (∀ l ∈ sample_lines, l.count ',' + 1 ≤ 200) ∧
    ∃ (recs : List (CountyRecord Int)) (log : List (Event Int Int)),
      load_demographics wholeOps (some (sample_header :: sample_lines)) = some (some recs, log) ∧
      recs.length = 3 - 1 ∧ ∀ r ∈ recs, r.active = 1 :=
  have hhead : split_fields sample_header = some ((sample_header.splitOn ',').map spec_field) :=
    by rfl
  have hres : ∀ idx ∈
      (resolve_indices ((sample_header.splitOn ',').map spec_field)).required_indices,
      0 ≤ idx := by decide
  have hfit : ∀ l ∈ sample_lines, l.count ',' + 1 ≤ 200 := by decide
  ⟨hhead, hres, hfit,
    (load_demographics_records wholeOps sample_header sample_lines _ hhead hres hfit).imp
      (fun _ h => h.imp (fun _ h => ⟨h.1, h.2.2.1.trans (by rfl), h.2.2.2.1⟩))⟩

/-- C7, where the claim fails: the 260 fields of `wide_header` contain all sixteen required
column names and no data line follows, but `load_demographics` neither returns `NULL` nor loads
0 records: the header parser stores the 201st field outside its array of 200. -/
theorem load_demographics_wide_header :
    (∀ name ∈ required_columns, name ∈ (wide_header.splitOn ',').map spec_field) ∧
    load_demographics wholeOps (some [wide_header]) = none :=
  ⟨by decide, by rfl⟩

/-- C7, amended: for a file whose lines have at most 200 fields each (at most 199 commas),
`load_demographics` returns, and it returns `NULL` if and only if the file has no first line (it
cannot be opened, or `fgets` reads nothing from it) or at least one of the sixteen required
column names is absent from the parsed header; and a header of at most 200 fields that has all
sixteen names, followed by no data line, loads successfully with 0 records. -/
theorem load_demographics_null_iff (ops : FloatOps F D) (file : Option (List Str))
    (hfit : ∀ lines, file = some lines → ∀ l ∈ lines, l.count ',' + 1 ≤ 200) :
    (∃ (res : Option (List (CountyRecord F))) (log : List (Event F D)),
      load_demographics ops file = some (res, log) ∧
      (res = none ↔
        ((∀ first rest, file ≠ some (first :: rest)) ∨
          ∃ first rest headers, file = some (first :: rest) ∧
            split_fields first = some headers ∧
            ∃ name ∈ required_columns, name ∉ headers))) ∧
    (∀ (header : Str) (headers : List Str), split_fields header = some headers →
      (∀ name ∈ required_columns, name ∈ headers) →
      ∃ log : List (Event F D),
        load_demographics ops (some [header]) = some (some [], log)) := by
  constructor
  · rcases file with _ | _ | ⟨first, rest⟩
    · exact ⟨none, _, rfl, by simp⟩
    · exact ⟨none, _, rfl, by simp⟩
    · have hfirst := split_fields_fit first (hfit _ rfl first (List.mem_cons_self _ _))
      by_cases hany : (resolve_indices ((first.splitOn ',').map spec_field)).required_indices.any
          (fun idx => idx < 0) = true
      · have hmiss := (missing_column_iff _).1 hany
        refine ⟨none, _, load_demographics_missing ops first rest _ hfirst hany, ?_⟩
        simp only [true_iff]
        exact Or.inr ⟨first, rest, _, rfl, hfirst, hmiss⟩
      · have hmiss : ¬ ∃ name ∈ required_columns,
            name ∉ (first.splitOn ',').map spec_field :=
          fun h => hany ((missing_column_iff _).2 h)
        obtain ⟨loaded, hl⟩ := load_lines_fit ops
          (resolve_indices ((first.splitOn ',').map spec_field)) rest
          (fun l hmem => hfit _ rfl l (List.mem_cons_of_mem _ hmem)) 1
        refine ⟨some loaded.1,
          loaded.2 ++ [Event.out (Stdout.records_loaded (loaded.1.length : Int))], ?_, ?_⟩
        · rw [load_demographics_resolved ops first rest _ hfirst hany, hl]
        · simp only [false_iff, reduceCtorEq]
          rintro (h | ⟨f, r, hs, hfr, hsplit, h⟩)
          · exact h first rest rfl
          · simp only [Option.some.injEq, List.cons.injEq] at hfr
            obtain ⟨rfl, _⟩ := hfr
            rw [hfirst] at hsplit
            obtain rfl := Option.some.inj hsplit
            exact hmiss h
  · intro header headers hhead hall
    have hany : ¬ ((resolve_indices headers).required_indices.any
        (fun idx => idx < 0) = true) := by
      intro h
      obtain ⟨name, hname, hno⟩ := (missing_column_iff headers).1 h
      exact hno (hall name hname)
    exact ⟨_, load_demographics_resolved ops header [] headers hhead hany⟩

theorem load_demographics_null_iff_witness :
    (∀ lines, some [sample_header] = some lines → ∀ l ∈ lines, l.count ',' + 1 ≤ 200) ∧
    ∃ log : List (Event Int Int),
      load_demographics wholeOps (some [sample_header]) = some (some [], log) :=
  have hfit : ∀ lines, some [sample_header] = some lines →
      ∀ l ∈ lines, l.count ',' + 1 ≤ 200 := by
    intro lines h l hl
    obtain rfl := Option.some.inj h
    obtain rfl := List.mem_singleton.1 hl
    decide
  ⟨hfit, (load_demographics_null_iff wholeOps (some [sample_header]) hfit).2 sample_header
    ((sample_header.splitOn ',').map spec_field) (by rfl) (by decide)⟩

end Load

/-! ## The filters -/

section Filters

variable {F D : Type}

theorem filter_state_loop_fst (state_abbr : Str) (rs : List (CountyRecord F)) :
    ∀ remain : Int,
      (filter_state_loop state_abbr rs remain).1 =
        rs.map (fun r => if r.active ≠ 0 ∧ r.state = state_abbr then r
          else { r with active := 0 }) := by
  induction rs with
  | nil => intro remain; rfl
  | cons r rs ih =>
    intro remain
    by_cases h : r.active ≠ 0 ∧ r.state = state_abbr
    · simp only [filter_state_loop, if_pos h, List.map_cons, ih]
    · simp only [filter_state_loop, if_neg h, List.map_cons, ih]

theorem filter_state_loop_snd (state_abbr : Str) (rs : List (CountyRecord F)) :
    ∀ remain : Int,
      (filter_state_loop state_abbr rs remain).2 =
        remain + (rs.countP (fun r => decide (r.active ≠ 0 ∧ r.state = state_abbr)) : Nat) := by
  induction rs with
  | nil => intro remain; simp [filter_state_loop]
  | cons r rs ih =>
    intro remain
    by_cases h : r.active ≠ 0 ∧ r.state = state_abbr
    · simp only [filter_state_loop, if_pos h, ih, List.countP_cons, decide_eq_true h, if_true]
      push_cast
      ring
    · simp only [filter_state_loop, if_neg h, ih, List.countP_cons, decide_eq_false h]
      simp

/-- C2: after `op_filter_state` with state code `X` the collection has the same length, the
record at each position is active if and only if the record there was active before and its
state string is exactly `X`, and the one line printed carries `X` and a count equal to the
number of records active after the operation. -/
theorem op_filter_state_spec (records : List (CountyRecord F)) (X : Str) :
    (op_filter_state records X : List (CountyRecord F) × List (Event F D)).1.length
        = records.length ∧
    (∀ (i : Nat) (r : CountyRecord F), records[i]? = some r →
      ∃ r2, (op_filter_state records X : List (CountyRecord F) × List (Event F D)).1[i]?
          = some r2 ∧
        (r2.active ≠ 0 ↔ (r.active ≠ 0 ∧ r.state = X))) ∧
    (op_filter_state records X : List (CountyRecord F) × List (Event F D)).2 =
      [Event.out (Stdout.filter_state X
        (active_count
          (op_filter_state records X : List (CountyRecord F) × List (Event F D)).1 : Nat))] := by
  refine ⟨?_, ?_, ?_⟩
  · simp [op_filter_state, filter_state_loop_fst]
  · intro i r hr
    simp only [op_filter_state, filter_state_loop_fst, List.getElem?_map, hr, Option.map_some']
    refine ⟨_, rfl, ?_⟩
    by_cases h : r.active ≠ 0 ∧ r.state = X
    · simp only [if_pos h]
      exact ⟨fun _ => h, fun _ => h.1⟩
    · simp only [if_neg h]
      exact ⟨fun h0 => absurd rfl h0, fun h1 => absurd h1 h⟩
  · simp only [op_filter_state, filter_state_loop_fst, filter_state_loop_snd, active_count,
      List.countP_map, zero_add]
    congr 4
    apply List.countP_congr
    intro r _
    by_cases h : r.active ≠ 0 ∧ r.state = X
    · simp [h]
    · simp only [Function.comp, if_neg h, decide_eq_false h]
      simp

theorem filter_field_value_table (ops : FloatOps F D) (name : Str) (get : CountyRecord F → F)
    (h : (name, get) ∈ numeric_field_table ops) (r : CountyRecord F) :
    filter_field_value ops name r = some (get r) := by
  simp only [numeric_field_table, List.mem_cons, Prod.mk.injEq, List.mem_nil_iff,
    or_false] at h
  rcases h with h | h | h | h | h | h | h | h | h | h | h | h | h | h
  all_goals
    obtain ⟨rfl, rfl⟩ := h
    rfl

theorem filter_numeric_loop_inactive (ops : FloatOps F D) (field cmp : Str) (number : F)
    (r : CountyRecord F) (rs : List (CountyRecord F)) (remain : Int) (ha : r.active = 0) :
    filter_numeric_loop ops field cmp number (r :: rs) remain =
      (r :: (filter_numeric_loop ops field cmp number rs remain).1,
        (filter_numeric_loop ops field cmp number rs remain).2) := by
  simp only [filter_numeric_loop, if_pos ha]

theorem filter_numeric_loop_active (ops : FloatOps F D) (field cmp : Str) (number : F)
    (get : CountyRecord F → F) (hval : ∀ r, filter_field_value ops field r = some (get r))
    (hcmp : cmp = "ge".toList ∨ cmp = "le".toList)
    (r : CountyRecord F) (rs : List (CountyRecord F)) (remain : Int) (ha : r.active ≠ 0) :
    filter_numeric_loop ops field cmp number (r :: rs) remain =
      if threshold_holds ops cmp (get r) number = true then
        (r :: (filter_numeric_loop ops field cmp number rs (remain + 1)).1,
          (filter_numeric_loop ops field cmp number rs (remain + 1)).2)
      else
        ({ r with active := 0 } :: (filter_numeric_loop ops field cmp number rs remain).1,
          (filter_numeric_loop ops field cmp number rs remain).2) := by
  have hne : ¬ ("le".toList = "ge".toList) := by decide
  rcases hcmp with rfl | rfl
  · simp only [filter_numeric_loop, if_neg ha, hval, threshold_holds, if_true]
  · simp only [filter_numeric_loop, if_neg ha, hval, threshold_holds, if_neg hne, if_true]

theorem filter_numeric_loop_fst (ops : FloatOps F D) (field cmp : Str) (number : F)
    (get : CountyRecord F → F) (hval : ∀ r, filter_field_value ops field r = some (get r))
    (hcmp : cmp = "ge".toList ∨ cmp = "le".toList) (rs : List (CountyRecord F)) :
    ∀ remain : Int,
      (filter_numeric_loop ops field cmp number rs remain).1 =
        rs.map (fun r => if r.active ≠ 0 ∧ threshold_holds ops cmp (get r) number = true then r
          else { r with active := 0 }) := by
  induction rs with
  | nil => intro remain; rfl
  | cons r rs ih =>
    intro remain
    by_cases ha : r.active = 0
    · have hr : ({ r with active := 0 } : CountyRecord F) = r := by
        cases r
        simp only at ha
        simp [ha]
      have hc : ¬ (r.active ≠ 0 ∧ threshold_holds ops cmp (get r) number = true) :=
        fun h => h.1 ha
      rw [filter_numeric_loop_inactive ops field cmp number r rs remain ha]
      simp only [List.map_cons, if_neg hc, hr, ih]
    · rw [filter_numeric_loop_active ops field cmp number get hval hcmp r rs remain ha]
      by_cases hk : threshold_holds ops cmp (get r) number = true
      · have hc : r.active ≠ 0 ∧ threshold_holds ops cmp (get r) number = true := ⟨ha, hk⟩
        simp only [if_pos hk, List.map_cons, if_pos hc, ih]
      · have hc : ¬ (r.active ≠ 0 ∧ threshold_holds ops cmp (get r) number = true) :=
          fun h => hk h.2
        simp only [if_neg hk, List.map_cons, if_neg hc, ih]

theorem filter_numeric_loop_snd (ops : FloatOps F D) (field cmp : Str) (number : F)
    (get : CountyRecord F → F) (hval : ∀ r, filter_field_value ops field r = some (get r))
    (hcmp : cmp = "ge".toList ∨ cmp = "le".toList) (rs : List (CountyRecord F)) :
    ∀ remain : Int,
      (filter_numeric_loop ops field cmp number rs remain).2 =
        Except.ok (remain + (rs.countP (fun r =>
          decide (r.active ≠ 0 ∧ threshold_holds ops cmp (get r) number = true)) : Nat)) := by
  induction rs with
  | nil => intro remain; simp [filter_numeric_loop]
  | cons r rs ih =>
    intro remain
    by_cases ha : r.active = 0
    · have hc : ¬ (r.active ≠ 0 ∧ threshold_holds ops cmp (get r) number = true) :=
        fun h => h.1 ha
      rw [filter_numeric_loop_inactive ops field cmp number r rs remain ha]
      simp only [ih, List.countP_cons, decide_eq_false hc]
      simp
    · rw [filter_numeric_loop_active ops field cmp number get hval hcmp r rs remain ha]
      by_cases hk : threshold_holds ops cmp (get r) number = true
      · have hc : r.active ≠ 0 ∧ threshold_holds ops cmp (get r) number = true := ⟨ha, hk⟩
        simp only [if_pos hk, ih, List.countP_cons, decide_eq_true hc, if_true]
        push_cast
        congr 1
        ring
      · have hc : ¬ (r.active ≠ 0 ∧ threshold_holds ops cmp (get r) number = true) :=
          fun h => hk h.2
        simp only [if_neg hk, ih, List.countP_cons, decide_eq_false hc]
        simp

/-- C3: for each of the fourteen field names that `op_filter_numeric` recognises, with the
value it reads for that name, for `cmp` one of `ge`, `le` and for every threshold: after the
call the collection has the same length, the record at each position is active if and only if
the record there was active before and its field value is `>=` the threshold (under `ge`) or
`<=` the threshold (under `le`), and the one line printed carries a count equal to the number
of records active after the operation. -/
theorem op_filter_numeric_spec (ops : FloatOps F D) (records : List (CountyRecord F))
    (name : Str) (get : CountyRecord F → F) (cmp : Str) (number : F)
    (hfield : (name, get) ∈ numeric_field_table ops)
    (hcmp : cmp = "ge".toList ∨ cmp = "le".toList) :
    (op_filter_numeric ops records name cmp number).1.length = records.length ∧
    (∀ (i : Nat) (r : CountyRecord F), records[i]? = some r →
      ∃ r2, (op_filter_numeric ops records name cmp number).1[i]? = some r2 ∧
        (r2.active ≠ 0 ↔
          (r.active ≠ 0 ∧
            (if cmp = "ge".toList then ops.ge (get r) number = true
              else ops.le (get r) number = true)))) ∧
    (op_filter_numeric ops records name cmp number).2 =
      [Event.out (Stdout.filter_numeric name cmp number
        (active_count (op_filter_numeric ops records name cmp number).1 : Nat))] := by
  have hval := filter_field_value_table ops name get hfield
  have hfst := filter_numeric_loop_fst ops name cmp number get hval hcmp records 0
  have hsnd := filter_numeric_loop_snd ops name cmp number get hval hcmp records 0
  have hthr : ∀ r : CountyRecord F, (threshold_holds ops cmp (get r) number = true) ↔
      (if cmp = "ge".toList then ops.ge (get r) number = true
        else ops.le (get r) number = true) := by
    intro r
    unfold threshold_holds
    split <;> rfl
  have hres : op_filter_numeric ops records name cmp number =
      (records.map (fun r =>
          if r.active ≠ 0 ∧ threshold_holds ops cmp (get r) number = true then r
          else { r with active := 0 }),
        [Event.out (Stdout.filter_numeric name cmp number
          ((0 : Int) + (records.countP (fun r =>
            decide (r.active ≠ 0 ∧ threshold_holds ops cmp (get r) number = true)) : Nat)))]) := by
    simp only [op_filter_numeric, hsnd, hfst]
  rw [hres]
  refine ⟨by simp, ?_, ?_⟩
  · intro i r hr
    simp only [List.getElem?_map, hr, Option.map_some']
    refine ⟨_, rfl, ?_⟩
    rw [← hthr r]
    by_cases h : r.active ≠ 0 ∧ threshold_holds ops cmp (get r) number = true
    · simp only [if_pos h]
      exact ⟨fun _ => h, fun _ => h.1⟩
    · simp only [if_neg h]
      exact ⟨fun h0 => absurd rfl h0, fun h1 => absurd h1 h⟩
  · simp only [active_count, List.countP_map, zero_add]
    congr 4
    apply List.countP_congr
    intro r _
    by_cases h : r.active ≠ 0 ∧ threshold_holds ops cmp (get r) number = true
    · simp [h]
    · simp only [Function.comp, if_neg h, decide_eq_false h]
      simp

theorem op_filter_numeric_spec_witness :
    (op_filter_numeric wholeOps sample_records
        "Education.Bachelor's Degree or Higher".toList "ge".toList 25).2 =
      [Event.out (Stdout.filter_numeric
        "Education.Bachelor's Degree or Higher".toList "ge".toList 25 1)] :=
  (op_filter_numeric_spec wholeOps sample_records
    "Education.Bachelor's Degree or Higher".toList (fun r => r.edu_bachelors) "ge".toList 25
    (List.Mem.head _) (Or.inl rfl)).2.2.trans (by rfl)

end Filters

/-! ## The active set only shrinks -/

section Monotone

variable {F D : Type}

theorem forall₂_getElem? {α β : Type} {R : α → β → Prop} {l₁ : List α} {l₂ : List β}
    (h : List.Forall₂ R l₁ l₂) :
    ∀ (i : Nat) (a : α) (b : β), l₁[i]? = some a → l₂[i]? = some b → R a b := by
  induction h with
  | nil => intro i a b ha; simp at ha
  | cons hab _ ih =>
    intro i a b ha hb
    cases i with
    | zero =>
      simp only [List.getElem?_cons_zero, Option.some.injEq] at ha hb
      subst ha
      subst hb
      exact hab
    | succ i =>
      simp only [List.getElem?_cons_succ] at ha hb
      exact ih i a b ha hb

theorem same_or_deactivated_refl (records : List (CountyRecord F)) :
    List.Forall₂ same_or_deactivated records records :=
  List.forall₂_same.2 (fun _ _ => Or.inl rfl)

theorem same_or_deactivated_trans {l₁ l₂ l₃ : List (CountyRecord F)}
    (h₁ : List.Forall₂ same_or_deactivated l₁ l₂) :
    List.Forall₂ same_or_deactivated l₂ l₃ → List.Forall₂ same_or_deactivated l₁ l₃ := by
  induction h₁ generalizing l₃ with
  | nil => intro h; cases h; exact List.Forall₂.nil
  | cons hab _ ih =>
    intro h
    cases h with
    | cons hbc htail =>
      refine List.Forall₂.cons ?_ (ih htail)
      rcases hab with rfl | rfl
      · exact hbc
      · rcases hbc with rfl | rfl
        · exact Or.inr rfl
        · exact Or.inr rfl

theorem filter_state_loop_shrinks (state_abbr : Str) (rs : List (CountyRecord F)) :
    ∀ remain : Int,
      List.Forall₂ same_or_deactivated rs (filter_state_loop state_abbr rs remain).1 := by
  induction rs with
  | nil => intro _; exact List.Forall₂.nil
  | cons r rs ih =>
    intro remain
    simp only [filter_state_loop]
    split
    · exact List.Forall₂.cons (Or.inl rfl) (ih _)
    · exact List.Forall₂.cons (Or.inr rfl) (ih _)

theorem filter_numeric_loop_shrinks (ops : FloatOps F D) (field op : Str) (number : F)
    (rs : List (CountyRecord F)) :
    ∀ remain : Int,
      List.Forall₂ same_or_deactivated rs
        (filter_numeric_loop ops field op number rs remain).1 := by
  induction rs with
  | nil => intro _; exact List.Forall₂.nil
  | cons r rs ih =>
    intro remain
    simp only [filter_numeric_loop]
    repeat' split
    all_goals
      first
        | exact List.Forall₂.cons (Or.inl rfl) (ih _)
        | exact List.Forall₂.cons (Or.inr rfl) (ih _)
        | exact same_or_deactivated_refl (r :: rs)

theorem op_filter_numeric_fst (ops : FloatOps F D) (records : List (CountyRecord F))
    (field op : Str) (number : F) :
    (op_filter_numeric ops records field op number).1 =
      (filter_numeric_loop ops field op number records 0).1 := by
  unfold op_filter_numeric
  split <;> rfl

theorem process_operation_line_shrinks (ops : FloatOps F D) (line : Str) (line_num : Int)
    (records : List (CountyRecord F)) :
    List.Forall₂ same_or_deactivated records
      (process_operation_line ops line line_num records).1 := by
  unfold process_operation_line
  simp only []
  repeat' split
  all_goals
    first
      | exact same_or_deactivated_refl records
      | exact filter_state_loop_shrinks _ records 0
      | (rw [op_filter_numeric_fst]; exact filter_numeric_loop_shrinks ops _ _ _ records 0)

theorem process_lines_shrinks (ops : FloatOps F D) (lines : List Str) :
    ∀ (line_num : Int) (records : List (CountyRecord F)),
      List.Forall₂ same_or_deactivated records (process_lines ops lines line_num records).1 := by
  induction lines with
  | nil => intro _ records; exact same_or_deactivated_refl records
  | cons line rest ih =>
    intro line_num records
    simp only [process_lines]
    exact same_or_deactivated_trans
      (process_operation_line_shrinks ops line (line_num + 1) records) (ih _ _)

theorem shrinks_inactive {l₁ l₂ : List (CountyRecord F)}
    (h : List.Forall₂ same_or_deactivated l₁ l₂) :
    l₂.length = l₁.length ∧
    ∀ (i : Nat) (r r2 : CountyRecord F), l₁[i]? = some r → l₂[i]? = some r2 →
      r.active = 0 → r2.active = 0 := by
  refine ⟨h.length_eq.symm, ?_⟩
  intro i r r2 hr hr2 h0
  rcases forall₂_getElem? h i r r2 hr hr2 with rfl | rfl
  · exact h0
  · rfl

/-- C4: a record that is inactive before an instruction line is inactive after it, and the
line does not change the number of records; hence after any sequence of instruction lines
(and after the whole instruction file) every record that is active was active before the
sequence: no instruction sets `active` back to a nonzero value. -/
theorem process_operation_line_monotone (ops : FloatOps F D) (records : List (CountyRecord F)) :
    (∀ (line : Str) (line_num : Int),
      (process_operation_line ops line line_num records).1.length = records.length ∧
      ∀ (i : Nat) (r r2 : CountyRecord F), records[i]? = some r →
        (process_operation_line ops line line_num records).1[i]? = some r2 →
        r.active = 0 → r2.active = 0) ∧
    (∀ (lines : List Str) (line_num : Int),
      (process_lines ops lines line_num records).1.length = records.length ∧
      ∀ (i : Nat) (r r2 : CountyRecord F), records[i]? = some r →
        (process_lines ops lines line_num records).1[i]? = some r2 →
        r2.active ≠ 0 → r.active ≠ 0) ∧
    (∀ file : Option (List Str),
      (process_operations ops file records).1.length = records.length ∧
      ∀ (i : Nat) (r r2 : CountyRecord F), records[i]? = some r →
        (process_operations ops file records).1[i]? = some r2 →
        r2.active ≠ 0 → r.active ≠ 0) := by
  refine ⟨?_, ?_, ?_⟩
  · intro line line_num
    exact shrinks_inactive (process_operation_line_shrinks ops line line_num records)
  · intro lines line_num
    have h := shrinks_inactive (process_lines_shrinks ops lines line_num records)
    exact ⟨h.1, fun i r r2 hr hr2 hact h0 => hact (h.2 i r r2 hr hr2 h0)⟩
  · intro file
    have hsh : List.Forall₂ same_or_deactivated records
        (process_operations ops file records).1 := by
      cases file with
      | none => exact same_or_deactivated_refl records
      | some lines => exact process_lines_shrinks ops lines 0 records
    have h := shrinks_inactive hsh
    exact ⟨h.1, fun i r r2 hr hr2 hact h0 => hact (h.2 i r r2 hr hr2 h0)⟩

end Monotone

/-! ## Population totals -/

section Totals

variable {F D : Type}

theorem wrap64_eq (x : Int) (h₁ : -(2 ^ 63) ≤ x) (h₂ : x < 2 ^ 63) : wrap64 x = x := by
  unfold wrap64
  rw [Int.emod_eq_of_lt (by omega) (by omega)]
  ring

theorem int_cast_range (i : Int) : -(2 ^ 31) ≤ int_cast i ∧ int_cast i < 2 ^ 31 := by
  unfold int_cast
  have h₁ := Int.emod_nonneg (i + 2 ^ 31) (by norm_num : (2 ^ 32 : Int) ≠ 0)
  have h₂ := Int.emod_lt_of_pos (i + 2 ^ 31) (by norm_num : (0 : Int) < 2 ^ 32)
  constructor <;> omega

theorem convert_to_int_range (str : Str) (v : Int) (h : convert_to_int str = some v) :
    -(2 ^ 31) ≤ v ∧ v < 2 ^ 31 := by
  unfold convert_to_int at h
  split at h
  · cases h
  · split at h
    · cases h
    · cases h
      exact int_cast_range _

theorem active_population_cons (r : CountyRecord F) (rs : List (CountyRecord F)) :
    active_population (r :: rs) =
      (if r.active ≠ 0 then r.pop_2014 else 0) + active_population rs := by
  unfold active_population
  by_cases h : r.active ≠ 0
  · simp [List.filter_cons, h]
  · simp [List.filter_cons, h]

theorem population_total_loop_exact (rs : List (CountyRecord F)) :
    ∀ (k : Nat) (total : Int),
      (∀ r ∈ rs, -(2 ^ 31) ≤ r.pop_2014 ∧ r.pop_2014 < 2 ^ 31) →
      k + rs.length < 2 ^ 31 →
      -((k : Int) * 2 ^ 31) ≤ total → total ≤ (k : Int) * 2 ^ 31 →
      population_total_loop rs total = total + active_population rs := by
  induction rs with
  | nil => intro k total _ _ _ _; simp [population_total_loop, active_population]
  | cons r rs ih =>
    intro k total hpop hlen hlo hhi
    have hr := hpop r (List.mem_cons_self r rs)
    have hrest : ∀ x ∈ rs, -(2 ^ 31) ≤ x.pop_2014 ∧ x.pop_2014 < 2 ^ 31 :=
      fun x hx => hpop x (List.mem_cons_of_mem r hx)
    simp only [List.length_cons] at hlen
    rw [active_population_cons]
    by_cases ha : r.active ≠ 0
    · simp only [population_total_loop, if_pos ha]
      have hw : wrap64 (total + r.pop_2014) = total + r.pop_2014 :=
        wrap64_eq _ (by omega) (by omega)
      rw [hw, ih (k + 1) (total + r.pop_2014) hrest (by omega)
        (by push_cast; omega) (by push_cast; omega)]
      ring
    · simp only [population_total_loop, if_neg ha]
      rw [ih (k + 1) total hrest (by omega) (by push_cast; omega) (by push_cast; omega)]
      ring

theorem active_population_all (rs : List (CountyRecord F)) (h : ∀ r ∈ rs, r.active ≠ 0) :
    active_population rs = (rs.map (fun r => r.pop_2014)).sum := by
  unfold active_population
  rw [List.filter_eq_self.2 (fun r hr => by simpa using h r hr)]

theorem active_population_none (rs : List (CountyRecord F)) (h : ∀ r ∈ rs, r.active = 0) :
    active_population rs = 0 := by
  unfold active_population
  rw [List.filter_eq_nil_iff.2 (fun r hr => by simpa using h r hr)]
  rfl

theorem population_total_loop_inactive (rs : List (CountyRecord F))
    (h : ∀ r ∈ rs, r.active = 0) :
    ∀ total : Int, population_total_loop rs total = total := by
  induction rs with
  | nil => intro total; rfl
  | cons r rs ih =>
    intro total
    have hr : ¬ r.active ≠ 0 := fun hne => hne (h r (List.mem_cons_self r rs))
    simp only [population_total_loop, if_neg hr]
    exact ih (fun x hx => h x (List.mem_cons_of_mem r hx)) total

theorem load_lines_pop_range (ops : FloatOps F D) (fi : FieldIndices) (lines : List Str)
    (line_num : Int) (loaded : List (CountyRecord F) × List (Event F D))
    (h : load_lines ops fi lines line_num = some loaded) :
    ∀ r ∈ loaded.1, r.active = 1 ∧ -(2 ^ 31) ≤ r.pop_2014 ∧ r.pop_2014 < 2 ^ 31 := by
  intro r hr
  obtain ⟨l, _, hl⟩ := load_lines_active ops fi lines line_num loaded h r hr
  obtain ⟨fields, _, hrec⟩ := parse_csv_line_some ops l 0 fi _ hl
  have hc := (parse_fields_cases ops fields fi).2 r hrec.symm
  exact ⟨parse_csv_line_active ops l 0 fi r hl,
    convert_to_int_range _ _ hc.2.2.2.2.2.2.2.2.2.2.2.2.2.1⟩

theorem load_demographics_pop_range (ops : FloatOps F D) (file : Option (List Str))
    (recs : List (CountyRecord F)) (log : List (Event F D))
    (h : load_demographics ops file = some (some recs, log)) :
    ∀ r ∈ recs, r.active = 1 ∧ -(2 ^ 31) ≤ r.pop_2014 ∧ r.pop_2014 < 2 ^ 31 := by
  obtain ⟨header, lines, headers, loaded, _, _, hl, rfl⟩ :=
    load_demographics_some ops file recs log h
  exact load_lines_pop_range ops _ lines 1 loaded hl

/-- C5: for a collection of fewer than `2 ^ 31` records whose populations are 32-bit values, the
64-bit accumulator of `op_population_total` never wraps: the total printed is the exact sum of
`pop_2014` over the active records, and when every record is active it is the sum over all
records.  In particular, for the records `load_demographics` returns, before any filter, the
total printed is the sum of `pop_2014` over all loaded records. -/
theorem op_population_total_exact (records : List (CountyRecord F))
    (hpop : ∀ r ∈ records, -(2 ^ 31) ≤ r.pop_2014 ∧ r.pop_2014 < 2 ^ 31)
    (hlen : records.length < 2 ^ 31) :
    (op_population_total records : List (Event F D)) =
      [Event.out (Stdout.population_total (active_population records))] ∧
    ((∀ r ∈ records, r.active ≠ 0) →
      (op_population_total records : List (Event F D)) =
        [Event.out (Stdout.population_total ((records.map (fun r => r.pop_2014)).sum))]) ∧
    (∀ (ops : FloatOps F D) (file : Option (List Str)) (log : List (Event F D)),
      load_demographics ops file = some (some records, log) →
      (op_population_total records : List (Event F D)) =
        [Event.out (Stdout.population_total ((records.map (fun r => r.pop_2014)).sum))]) := by
  have hloop : population_total_loop records 0 = active_population records := by
    rw [population_total_loop_exact records 0 0 hpop (by omega) (by simp) (by simp)]
    ring
  refine ⟨?_, ?_, ?_⟩
  · simp only [op_population_total, hloop]
  · intro hall
    simp only [op_population_total, hloop, active_population_all records hall]
  · intro ops file log hload
    have hall : ∀ r ∈ records, r.active ≠ 0 := by
      intro r hr
      have := (load_demographics_pop_range ops file records log hload r hr).1
      omega
    simp only [op_population_total, hloop, active_population_all records hall]

theorem op_population_total_exact_witness :
    (∀ r ∈ sample_records, -(2 ^ 31) ≤ r.pop_2014 ∧ r.pop_2014 < 2 ^ 31) ∧
    sample_records.length < 2 ^ 31 ∧
    (op_population_total sample_records : List (Event Int Int)) =
      [Event.out (Stdout.population_total 3000)] :=
  ⟨by decide, by decide,
    (@op_population_total_exact Int Int sample_records (by decide) (by decide)).1.trans
      (by rfl)⟩

theorem percent_total_loop_eq (rs : List (CountyRecord F)) :
    ∀ total : Int, percent_total_loop rs total = population_total_loop rs total := by
  induction rs with
  | nil => intro total; rfl
  | cons r rs ih =>
    intro total
    by_cases ha : r.active = 0
    · have hn : ¬ r.active ≠ 0 := fun h => h ha
      simp only [percent_total_loop, population_total_loop, if_pos ha, if_neg hn, ih]
    · have hn : r.active ≠ 0 := ha
      simp only [percent_total_loop, population_total_loop, if_neg ha, if_pos hn, ih]

/-- C6: whenever the total `op_percent_field` accumulates over the active records is 0, in
particular when no record is active, and also when the populations are 32-bit values, the
collection has fewer than `2 ^ 31` records and the exact active population is 0, the call
prints the literal percentage 0 for every field argument and nothing else: it returns before
the field is looked up and before the division by the total. -/
theorem op_percent_field_zero (ops : FloatOps F D) (records : List (CountyRecord F))
    (field : Str) :
    (percent_total_loop records 0 = 0 →
      op_percent_field ops records field = [Event.out (Stdout.percent_zero field)]) ∧
    ((∀ r ∈ records, r.active = 0) →
      op_percent_field ops records field = [Event.out (Stdout.percent_zero field)]) ∧
    ((∀ r ∈ records, -(2 ^ 31) ≤ r.pop_2014 ∧ r.pop_2014 < 2 ^ 31) →
      records.length < 2 ^ 31 → active_population records = 0 →
      op_percent_field ops records field = [Event.out (Stdout.percent_zero field)]) := by
  have hzero : percent_total_loop records 0 = 0 →
      op_percent_field ops records field = [Event.out (Stdout.percent_zero field)] := by
    intro h
    simp only [op_percent_field, h, if_true]
  refine ⟨hzero, ?_, ?_⟩
  · intro hnone
    apply hzero
    rw [percent_total_loop_eq]
    exact population_total_loop_inactive records hnone 0
  · intro hpop hlen hsum
    apply hzero
    rw [percent_total_loop_eq,
      population_total_loop_exact records 0 0 hpop (by omega) (by simp) (by simp), hsum]
    rfl

end Totals

/-! ## The tokens of an instruction line -/

section Tokens

variable {F D : Type}

theorem dropWhile_length_le {α : Type} (p : α → Bool) (l : List α) :
    (l.dropWhile p).length ≤ l.length := by
  induction l with
  | nil => simp
  | cons a l ih =>
    rw [List.dropWhile_cons]
    split
    · simp only [List.length_cons]; omega
    · exact Nat.le_refl _

theorem strtok_r_rest_length (s token : Str) (h : (strtok_r s).1 = some token) :
    (strtok_r s).2.length < s.length := by
  unfold strtok_r at h ⊢
  have hle := dropWhile_length_le (fun c => c == ':') s
  cases hd : s.dropWhile (fun c => c == ':') with
  | nil => rw [hd] at h; cases h
  | cons c cs =>
    rw [hd] at hle
    have hc : (c == ':') = false := by
      have := List.head_dropWhile_not (fun c => c == ':') s (by simp [hd])
      simpa [hd] using this
    have hne : (c != ':') = true := by simp [bne, hc]
    simp only [List.dropWhile_cons, hne, if_true, List.length_drop]
    have := dropWhile_length_le (fun c => c != ':') cs
    simp only [List.length_cons] at hle
    omega

theorem strtok_loop_fuel (fuel₁ : Nat) :
    ∀ (fuel₂ : Nat) (s : Str), s.length < fuel₁ → s.length < fuel₂ →
      strtok_loop fuel₁ s = strtok_loop fuel₂ s := by
  induction fuel₁ with
  | zero => intro _ s h; omega
  | succ fuel₁ ih =>
    intro fuel₂ s h₁ h₂
    cases fuel₂ with
    | zero => omega
    | succ fuel₂ =>
      simp only [strtok_loop]
      cases ht : (strtok_r s).1 with
      | none => rfl
      | some token =>
        have hlen := strtok_r_rest_length s token ht
        simp only
        rw [ih fuel₂ (strtok_r s).2 (by omega) (by omega)]

theorem strtok_loop_succ (fuel : Nat) (s : Str) :
    strtok_loop (fuel + 1) s =
      match (strtok_r s).1 with
      | none => []
      | some token => token :: strtok_loop fuel (strtok_r s).2 := rfl

theorem strtok_tokens_eq (s : Str) :
    strtok_tokens s =
      match (strtok_r s).1 with
      | none => []
      | some token => token :: strtok_tokens (strtok_r s).2 := by
  rw [show strtok_tokens s = strtok_loop (s.length + 1) s from rfl, strtok_loop_succ]
  cases ht : (strtok_r s).1 with
  | none => rfl
  | some token =>
    have hlen := strtok_r_rest_length s token ht
    simp only
    rw [strtok_loop_fuel s.length ((strtok_r s).2.length + 1) (strtok_r s).2 hlen
      (Nat.lt_succ_self _)]
    rfl

theorem strtok_r_fst (s : Str) : (strtok_r s).1 = (strtok_tokens s).head? := by
  rw [strtok_tokens_eq s]
  cases (strtok_r s).1 <;> rfl

theorem strtok_r_snd (s : Str) : strtok_tokens (strtok_r s).2 = (strtok_tokens s).tail := by
  rw [strtok_tokens_eq s]
  cases ht : (strtok_r s).1 with
  | none =>
    have hnil : (strtok_r s).2 = [] := by
      unfold strtok_r at ht ⊢
      cases hd : s.dropWhile (fun c => c == ':') with
      | nil => rfl
      | cons c cs => rw [hd] at ht; cases ht
    rw [hnil]
    rfl
  | some token => rfl

theorem process_operation_line_of_tokens (ops : FloatOps F D) (line : Str) (line_num : Int)
    (records : List (CountyRecord F)) (op : Str) (args : List Str)
    (htok : operation_tokens line = op :: args) :
    process_operation_line ops line line_num records =
      interpret_tokens ops op args line_num records := by
  have hp : line.dropWhile isspace ≠ [] := by
    intro h
    have hnil : operation_tokens line = [] := by
      simp only [operation_tokens, op_line_of, h]
      rfl
    rw [hnil] at htok
    cases htok
  have heq := strtok_tokens_eq (op_line_of line)
  rw [show strtok_tokens (op_line_of line) = op :: args from htok] at heq
  have h1 : (strtok_r (op_line_of line)).1 = some op ∧
      strtok_tokens (strtok_r (op_line_of line)).2 = args := by
    cases ht : (strtok_r (op_line_of line)).1 with
    | none => rw [ht] at heq; cases heq
    | some t =>
      rw [ht] at heq
      simp only [List.cons.injEq] at heq
      exact ⟨by rw [heq.1], heq.2.symm⟩
  obtain ⟨hop, hargs⟩ := h1
  have hpair : strtok_r (op_line_of line) = (some op, (strtok_r (op_line_of line)).2) :=
    Prod.ext hop rfl
  have hf1 := strtok_r_fst (strtok_r (op_line_of line)).2
  have hs1 := strtok_r_snd (strtok_r (op_line_of line)).2
  have hf2 := strtok_r_fst (strtok_r (strtok_r (op_line_of line)).2).2
  have hs2 := strtok_r_snd (strtok_r (strtok_r (op_line_of line)).2).2
  have hf3 := strtok_r_fst (strtok_r (strtok_r (strtok_r (op_line_of line)).2).2).2
  rw [hs2, hs1, hargs] at hf3
  rw [hs1, hargs] at hf2
  rw [hargs] at hf1
  unfold process_operation_line interpret_tokens
  simp only [hp, if_false]
  rw [show ((List.dropWhile isspace line).reverse.dropWhile isspace).reverse = op_line_of line
    from rfl, hpair]
  simp only [hf1, hf2, hf3]
  rcases args with _ | ⟨a, _ | ⟨b, _ | ⟨c, rest⟩⟩⟩ <;> rfl

end Tokens

/-! ## Composing filters -/

section Composing

variable {F D : Type}

theorem op_filter_state_eq (records : List (CountyRecord F)) (X : Str) :
    (op_filter_state records X : List (CountyRecord F) × List (Event F D)) =
      (records.map (fun r => if r.active ≠ 0 ∧ r.state = X then r else { r with active := 0 }),
        [Event.out (Stdout.filter_state X
          ((records.countP (fun r => decide (r.active ≠ 0 ∧ r.state = X)) : Nat) : Int))]) := by
  simp only [op_filter_state, filter_state_loop_fst, filter_state_loop_snd, zero_add]

/-- C11: `op_filter_state` with the same state code `X` is idempotent: run on its own result
it returns that result unchanged (so every `active` flag is the same as after one call) and
prints the same line, with the same count, as the first call. -/
theorem op_filter_state_idempotent (records : List (CountyRecord F)) (X : Str) :
    (op_filter_state
        (op_filter_state records X : List (CountyRecord F) × List (Event F D)).1 X :
        List (CountyRecord F) × List (Event F D)) =
      (op_filter_state records X : List (CountyRecord F) × List (Event F D)) := by
  rw [op_filter_state_eq records X]
  simp only
  rw [op_filter_state_eq]
  refine Prod.ext ?_ ?_
  · simp only [List.map_map]
    apply List.map_congr_left
    intro r _
    by_cases h : r.active ≠ 0 ∧ r.state = X
    · simp only [Function.comp, if_pos h]
    · have h0 : ¬ (({ r with active := 0 } : CountyRecord F).active ≠ 0 ∧
          ({ r with active := 0 } : CountyRecord F).state = X) := fun hc => hc.1 rfl
      simp only [Function.comp, if_neg h, if_neg h0]
  · simp only [List.countP_map]
    have hc : List.countP
        ((fun r : CountyRecord F => decide (r.active ≠ 0 ∧ r.state = X)) ∘
          (fun r => if r.active ≠ 0 ∧ r.state = X then r else { r with active := 0 })) records =
        List.countP (fun r : CountyRecord F => decide (r.active ≠ 0 ∧ r.state = X)) records := by
      apply List.countP_congr
      intro r _
      by_cases h : r.active ≠ 0 ∧ r.state = X
      · simp only [Function.comp, if_pos h]
      · have h0 : ¬ (({ r with active := 0 } : CountyRecord F).active ≠ 0 ∧
            ({ r with active := 0 } : CountyRecord F).state = X) := fun hc => hc.1 rfl
        simp only [Function.comp, if_neg h, decide_eq_false h0, decide_eq_false h]
    rw [hc]

theorem op_filter_numeric_eq (ops : FloatOps F D) (records : List (CountyRecord F))
    (name : Str) (get : CountyRecord F → F) (cmp : Str) (number : F)
    (hfield : (name, get) ∈ numeric_field_table ops)
    (hcmp : cmp = "ge".toList ∨ cmp = "le".toList) :
    op_filter_numeric ops records name cmp number =
      (records.map (fun r =>
          if r.active ≠ 0 ∧ threshold_holds ops cmp (get r) number = true then r
          else { r with active := 0 }),
        [Event.out (Stdout.filter_numeric name cmp number
          ((0 : Int) + (records.countP (fun r =>
            decide (r.active ≠ 0 ∧ threshold_holds ops cmp (get r) number = true)) : Nat)))]) := by
  have hval := filter_field_value_table ops name get hfield
  have hfst := filter_numeric_loop_fst ops name cmp number get hval hcmp records 0
  have hsnd := filter_numeric_loop_snd ops name cmp number get hval hcmp records 0
  simp only [op_filter_numeric, hsnd, hfst]

theorem numeric_field_table_frame (ops : FloatOps F D) (name : Str) (get : CountyRecord F → F)
    (h : (name, get) ∈ numeric_field_table ops) (r : CountyRecord F) (a : Int) :
    get { r with active := a } = get r := by
  simp only [numeric_field_table, List.mem_cons, Prod.mk.injEq, List.mem_nil_iff,
    or_false] at h
  rcases h with h | h | h | h | h | h | h | h | h | h | h | h | h | h
  all_goals
    obtain ⟨_, rfl⟩ := h
    rfl

/-- C12: for each of the fourteen field names `op_filter_numeric` recognises and every threshold
`V`, after `op_filter_numeric` with `ge V` followed by `op_filter_numeric` with `le V` the record
at each position is active if and only if the record there was active before the two calls and
its field value `v` satisfies both `v >= V` and `v <= V`, that is, `v == V` for a float
equality that is the conjunction of the two comparisons; and a record that is inactive after
the first call is inactive after the second. -/
theorem filter_ge_then_le (ops : FloatOps F D) (float_eq : F → F → Bool)
    (hlaw : ∀ a b : F, (ops.ge a b = true ∧ ops.le a b = true) ↔ float_eq a b = true)
    (records : List (CountyRecord F)) (name : Str) (get : CountyRecord F → F) (V : F)
    (hfield : (name, get) ∈ numeric_field_table ops) :
    (op_filter_numeric ops (op_filter_numeric ops records name "ge".toList V).1
        name "le".toList V).1.length = records.length ∧
    ∀ (i : Nat) (r : CountyRecord F), records[i]? = some r →
      ∃ r1 r2 : CountyRecord F,
        (op_filter_numeric ops records name "ge".toList V).1[i]? = some r1 ∧
        (op_filter_numeric ops (op_filter_numeric ops records name "ge".toList V).1
          name "le".toList V).1[i]? = some r2 ∧
        (r2.active ≠ 0 ↔ (r.active ≠ 0 ∧ ops.ge (get r) V = true ∧ ops.le (get r) V = true)) ∧
        (r2.active ≠ 0 ↔ (r.active ≠ 0 ∧ float_eq (get r) V = true)) ∧
        (r1.active = 0 → r2.active = 0) := by
  have hne : ¬ ("le".toList = "ge".toList) := by decide
  rw [op_filter_numeric_eq ops records name get "ge".toList V hfield (Or.inl rfl)]
  simp only
  rw [op_filter_numeric_eq ops _ name get "le".toList V hfield (Or.inr rfl)]
  simp only
  refine ⟨by simp, ?_⟩
  intro i r hr
  simp only [List.getElem?_map, hr, Option.map_some']
  refine ⟨_, _, rfl, rfl, ?_⟩
  have hge : threshold_holds ops "ge".toList (get r) V = ops.ge (get r) V := by
    simp only [threshold_holds, if_true]
  have hle : ∀ x : F, threshold_holds ops "le".toList x V = ops.le x V := by
    intro x
    simp only [threshold_holds, if_neg hne]
  have hboth : (r.active ≠ 0 ∧ ops.ge (get r) V = true ∧ ops.le (get r) V = true) ↔
      (r.active ≠ 0 ∧ float_eq (get r) V = true) := by
    rw [← hlaw]
  rw [← hboth]
  by_cases h1 : r.active ≠ 0 ∧ threshold_holds ops "ge".toList (get r) V = true
  · simp only [if_pos h1]
    by_cases h2 : r.active ≠ 0 ∧ threshold_holds ops "le".toList (get r) V = true
    · simp only [if_pos h2]
      rw [hge] at h1
      rw [hle] at h2
      exact ⟨⟨fun _ => ⟨h1.1, h1.2, h2.2⟩, fun _ => h1.1⟩,
        ⟨fun _ => ⟨h1.1, h1.2, h2.2⟩, fun _ => h1.1⟩, fun h0 => absurd h0 h1.1⟩
    · simp only [if_neg h2]
      rw [hle] at h2
      exact ⟨⟨fun h0 => absurd rfl h0, fun h3 => absurd ⟨h3.1, h3.2.2⟩ h2⟩,
        ⟨fun h0 => absurd rfl h0, fun h3 => absurd ⟨h3.1, h3.2.2⟩ h2⟩, fun _ => trivial⟩
  · simp only [if_neg h1]
    have h2 : ¬ (({ r with active := 0 } : CountyRecord F).active ≠ 0 ∧
        threshold_holds ops "le".toList (get { r with active := 0 }) V = true) :=
      fun hc => hc.1 rfl
    simp only [if_neg h2]
    rw [hge] at h1
    exact ⟨⟨fun h0 => absurd rfl h0, fun h3 => absurd ⟨h3.1, h3.2.1⟩ h1⟩,
      ⟨fun h0 => absurd rfl h0, fun h3 => absurd ⟨h3.1, h3.2.1⟩ h1⟩, fun _ => trivial⟩

theorem filter_ge_then_le_witness :
    (op_filter_numeric wholeOps
        (op_filter_numeric wholeOps sample_records
          "Education.High School or Higher".toList "ge".toList 50).1
        "Education.High School or Higher".toList "le".toList 50).1.length = sample_records.length ∧
    (op_filter_numeric wholeOps
        (op_filter_numeric wholeOps sample_records
          "Education.High School or Higher".toList "ge".toList 50).1
        "Education.High School or Higher".toList "le".toList 50).1.map (fun r => r.active)
      = [1, 0] :=
  ⟨(filter_ge_then_le wholeOps (fun a b => decide (a = b))
      (fun a b => by
        show (decide (a ≥ b) = true ∧ decide (a ≤ b) = true) ↔ decide (a = b) = true
        simp only [decide_eq_true_eq]
        omega)
      sample_records "Education.High School or Higher".toList (fun r => r.edu_hs) 50
      (List.Mem.tail _ (List.Mem.head _))).1,
    by rfl⟩

end Composing

/-! ## Unknown verbs and missing arguments -/

section Verbs

variable {F D : Type}

theorem interpret_tokens_unknown (ops : FloatOps F D) (op : Str) (args : List Str)
    (line_num : Int) (records : List (CountyRecord F)) (hverb : op ∉ recognised_verbs) :
    interpret_tokens ops op args line_num records =
      (records, [Event.err (Stderr.unrecognized_operation op line_num)]) := by
  simp only [recognised_verbs, List.mem_cons, List.mem_nil_iff, or_false, not_or] at hverb
  obtain ⟨h1, h2, h3, h4, h5, h6⟩ := hverb
  simp only [interpret_tokens, if_neg h1, if_neg h2, if_neg h3, if_neg h4, if_neg h5, if_neg h6]

/-- C13: for an instruction line whose verb token `op` is none of the six recognised verbs,
`process_operation_line` writes exactly one diagnostic, to stderr, writes nothing to stdout and
returns the records unchanged; and `process_operations` goes on with the following lines, on
the same records. -/
theorem unknown_verb_reported (ops : FloatOps F D) (line : Str) (records : List (CountyRecord F))
    (op : Str) (args : List Str)
    (htok : operation_tokens line = op :: args) (hverb : op ∉ recognised_verbs) :
    (∀ line_num : Int, process_operation_line ops line line_num records =
      (records, [Event.err (Stderr.unrecognized_operation op line_num)])) ∧
    (∀ (rest : List Str) (line_num : Int),
      process_lines ops (line :: rest) line_num records =
        ((process_lines ops rest (line_num + 1) records).1,
          Event.err (Stderr.unrecognized_operation op (line_num + 1)) ::
            (process_lines ops rest (line_num + 1) records).2)) := by
  have h : ∀ line_num : Int, process_operation_line ops line line_num records =
      (records, [Event.err (Stderr.unrecognized_operation op line_num)]) := by
    intro line_num
    rw [process_operation_line_of_tokens ops line line_num records op args htok]
    exact interpret_tokens_unknown ops op args line_num records hverb
  refine ⟨h, ?_⟩
  intro rest line_num
  simp only [process_lines, h (line_num + 1), List.singleton_append]

theorem unknown_verb_reported_witness :
    operation_tokens "bogus:1\n".toList = ["bogus".toList, "1".toList] ∧
    process_operation_line wholeOps "bogus:1\n".toList 7 sample_records =
      (sample_records, [Event.err (Stderr.unrecognized_operation "bogus".toList 7)]) :=
  ⟨by rfl,
    (unknown_verb_reported wholeOps "bogus:1\n".toList sample_records "bogus".toList
      ["1".toList] (by rfl) (by decide)).1 7⟩

theorem surplus_arguments_not_rejected :
    operation_tokens surplus_line = ["filter-state".toList, "CA".toList, "extra".toList] ∧
    verb_arity "filter-state".toList = 1 ∧
    process_operation_line wholeOps surplus_line 1 sample_records =
      op_filter_state sample_records "CA".toList ∧
    process_operation_line wholeOps surplus_line 1 sample_records =
      (sample_records, [Event.out (Stdout.filter_state "CA".toList 2)]) :=
  ⟨by rfl, by decide, by rfl, by rfl⟩

theorem interpret_tokens_take (ops : FloatOps F D) (op : Str) (args : List Str)
    (line_num : Int) (records : List (CountyRecord F)) :
    interpret_tokens ops op (args.take (verb_arity op)) line_num records =
      interpret_tokens ops op args line_num records := by
  by_cases h1 : op = "display".toList
  · simp only [interpret_tokens, if_pos h1]
  by_cases h2 : op = "filter-state".toList
  · subst h2
    rcases args with _ | ⟨a, rest⟩ <;> rfl
  by_cases h3 : op = "filter".toList
  · subst h3
    rcases args with _ | ⟨a, _ | ⟨b, _ | ⟨c, rest⟩⟩⟩ <;> rfl
  by_cases h4 : op = "population-total".toList
  · simp only [interpret_tokens, if_neg h1, if_neg h2, if_neg h3, if_pos h4]
  by_cases h5 : op = "population".toList
  · subst h5
    rcases args with _ | ⟨a, rest⟩ <;> rfl
  by_cases h6 : op = "percent".toList
  · subst h6
    rcases args with _ | ⟨a, rest⟩ <;> rfl
  simp only [interpret_tokens, if_neg h1, if_neg h2, if_neg h3, if_neg h4, if_neg h5, if_neg h6]

theorem interpret_tokens_too_few (ops : FloatOps F D) (op : Str) (args : List Str)
    (line_num : Int) (records : List (CountyRecord F)) (hverb : op ∈ recognised_verbs)
    (hfew : args.length < verb_arity op) :
    ∃ e ∈ [Stderr.filter_state_requires_code line_num,
        Stderr.filter_requires_arguments line_num,
        Stderr.population_malformed line_num, Stderr.percent_malformed line_num],
      interpret_tokens ops op args line_num records = (records, [Event.err e]) := by
  simp only [recognised_verbs, List.mem_cons, List.mem_nil_iff, or_false] at hverb
  rcases hverb with rfl | rfl | rfl | rfl | rfl | rfl
  · have h0 : verb_arity "display".toList = 0 := by decide
    rw [h0] at hfew
    omega
  · have hargs : args = [] := by
      have h1 : verb_arity "filter-state".toList = 1 := by decide
      rw [h1] at hfew
      exact List.length_eq_zero.1 (by omega)
    subst hargs
    exact ⟨_, List.Mem.head _, by rfl⟩
  · have h3 : verb_arity "filter".toList = 3 := by decide
    rw [h3] at hfew
    refine ⟨_, List.Mem.tail _ (List.Mem.head _), ?_⟩
    rcases args with _ | ⟨a, _ | ⟨b, _ | ⟨c, rest⟩⟩⟩
    · rfl
    · rfl
    · rfl
    · simp only [List.length_cons] at hfew
      omega
  · have h0 : verb_arity "population-total".toList = 0 := by decide
    rw [h0] at hfew
    omega
  · have hargs : args = [] := by
      have h1 : verb_arity "population".toList = 1 := by decide
      rw [h1] at hfew
      exact List.length_eq_zero.1 (by omega)
    subst hargs
    exact ⟨_, List.Mem.tail _ (List.Mem.tail _ (List.Mem.head _)), by rfl⟩
  · have hargs : args = [] := by
      have h1 : verb_arity "percent".toList = 1 := by decide
      rw [h1] at hfew
      exact List.length_eq_zero.1 (by omega)
    subst hargs
    exact ⟨_, List.Mem.tail _ (List.Mem.tail _ (List.Mem.tail _ (List.Mem.head _))), by rfl⟩

/-- C14 (amended): for an instruction line with a recognised verb that has fewer colon-separated
arguments than the arity of the verb, `process_operation_line` reports one error, which names
the line, runs no handler (nothing is printed) and leaves the records unchanged.  Arguments
beyond the arity are not counted: a line with the same verb and the same leading arguments, up
to the arity, is processed in the same way. -/
theorem too_few_arguments_reported (ops : FloatOps F D) (line : Str) (line_num : Int)
    (records : List (CountyRecord F)) (op : Str) (args : List Str)
    (htok : operation_tokens line = op :: args) (hverb : op ∈ recognised_verbs) :
    (args.length < verb_arity op →
      ∃ e ∈ [Stderr.filter_state_requires_code line_num,
          Stderr.filter_requires_arguments line_num,
          Stderr.population_malformed line_num, Stderr.percent_malformed line_num],
        process_operation_line ops line line_num records = (records, [Event.err e])) ∧
    (∀ (line2 : Str) (args2 : List Str), operation_tokens line2 = op :: args2 →
      args2.take (verb_arity op) = args.take (verb_arity op) →
      process_operation_line ops line2 line_num records =
        process_operation_line ops line line_num records) := by
  rw [process_operation_line_of_tokens ops line line_num records op args htok]
  refine ⟨interpret_tokens_too_few ops op args line_num records hverb, ?_⟩
  intro line2 args2 htok2 htake
  rw [process_operation_line_of_tokens ops line2 line_num records op args2 htok2,
    ← interpret_tokens_take ops op args2, ← interpret_tokens_take ops op args, htake]

theorem too_few_arguments_reported_witness :
    operation_tokens "filter:Population.2014 Population:ge\n".toList =
      ["filter".toList, "Population.2014 Population".toList, "ge".toList] ∧
    ∃ e ∈ [Stderr.filter_state_requires_code 4, Stderr.filter_requires_arguments 4,
        Stderr.population_malformed 4, Stderr.percent_malformed 4],
      process_operation_line wholeOps "filter:Population.2014 Population:ge\n".toList 4
        sample_records = (sample_records, [Event.err e]) :=
  ⟨by rfl,
    (too_few_arguments_reported wholeOps "filter:Population.2014 Population:ge\n".toList 4
      sample_records "filter".toList ["Population.2014 Population".toList, "ge".toList]
      (by rfl) (by decide)).1 (by decide)⟩

end Verbs

/-! ## Validation of the filter instruction -/

section FilterValidation

variable {F D : Type}

theorem filter_field_value_none (ops : FloatOps F D) (field : Str)
    (h : field ∉ numeric_field_names) (r : CountyRecord F) :
    filter_field_value ops field r = none := by
  simp only [numeric_field_names, List.mem_cons, List.mem_nil_iff, or_false, not_or] at h
  obtain ⟨h1, h2, h3, h4, h5, h6, h7, h8, h9, h10, h11, h12, h13, h14⟩ := h
  simp only [filter_field_value, if_neg h1, if_neg h2, if_neg h3, if_neg h4, if_neg h5, if_neg h6, if_neg h7, if_neg h8, if_neg h9, if_neg h10, if_neg h11, if_neg h12, if_neg h13, if_neg h14]

theorem filter_numeric_loop_unknown (ops : FloatOps F D) (field op : Str) (number : F)
    (hnone : ∀ r : CountyRecord F, filter_field_value ops field r = none)
    (rs : List (CountyRecord F)) :
    ∀ remain : Int,
      (filter_numeric_loop ops field op number rs remain).1 = rs ∧
      ((∃ r ∈ rs, r.active ≠ 0) →
        (filter_numeric_loop ops field op number rs remain).2 =
          Except.error (Stderr.filter_field_not_found field)) := by
  induction rs with
  | nil =>
    intro remain
    refine ⟨rfl, ?_⟩
    rintro ⟨r, hr, _⟩
    cases hr
  | cons r rs ih =>
    intro remain
    by_cases ha : r.active = 0
    · rw [filter_numeric_loop_inactive ops field op number r rs remain ha]
      refine ⟨by rw [(ih remain).1], ?_⟩
      rintro ⟨x, hx, hxa⟩
      rcases List.mem_cons.1 hx with rfl | hx
      · exact absurd ha hxa
      · exact (ih remain).2 ⟨x, hx, hxa⟩
    · simp only [filter_numeric_loop, if_neg ha, hnone]
      exact ⟨trivial, fun _ => trivial⟩

theorem op_filter_numeric_unknown (ops : FloatOps F D) (records : List (CountyRecord F))
    (field op : Str) (number : F) (h : field ∉ numeric_field_names)
    (hact : ∃ r ∈ records, r.active ≠ 0) :
    op_filter_numeric ops records field op number =
      (records, [Event.err (Stderr.filter_field_not_found field)]) := by
  have hl := filter_numeric_loop_unknown ops field op number
    (filter_field_value_none ops field h) records 0
  simp only [op_filter_numeric, hl.2 hact, hl.1]

theorem filter_numeric_loop_operator (ops : FloatOps F D) (field op : Str) (number : F)
    (hop : op = "ge".toList ∨ op = "le".toList) (x : Str) (rs : List (CountyRecord F)) :
    ∀ remain : Int,
      (filter_numeric_loop ops field op number rs remain).2 ≠
        Except.error (Stderr.filter_invalid_operator x) := by
  have hne : ¬ ("le".toList = "ge".toList) := by decide
  induction rs with
  | nil => intro remain h; cases h
  | cons r rs ih =>
    intro remain
    by_cases ha : r.active = 0
    · rw [filter_numeric_loop_inactive ops field op number r rs remain ha]
      exact ih remain
    · cases hv : filter_field_value ops field r with
      | none =>
        simp only [filter_numeric_loop, if_neg ha, hv]
        intro h
        cases h
      | some val =>
        rcases hop with rfl | rfl
        · simp only [filter_numeric_loop, if_neg ha, hv, if_true]
          split
          · exact ih _
          · exact ih _
        · simp only [filter_numeric_loop, if_neg ha, hv, if_neg hne, if_true]
          split
          · exact ih _
          · exact ih _

theorem op_filter_numeric_operator (ops : FloatOps F D) (records : List (CountyRecord F))
    (field op : Str) (number : F) (hop : op = "ge".toList ∨ op = "le".toList) (x : Str) :
    Event.err (Stderr.filter_invalid_operator x) ∉
      (op_filter_numeric ops records field op number).2 := by
  have hl := filter_numeric_loop_operator ops field op number hop x records 0
  unfold op_filter_numeric
  cases hr : (filter_numeric_loop ops field op number records 0).2 with
  | error e =>
    simp only [List.mem_singleton, Event.err.injEq]
    intro he
    rw [hr, ← he] at hl
    exact hl rfl
  | ok remain =>
    simp only [List.mem_singleton]
    intro he
    cases he

theorem interpret_tokens_filter (ops : FloatOps F D) (field cmp num_str : Str)
    (extra : List Str) (line_num : Int) (records : List (CountyRecord F)) :
    interpret_tokens ops "filter".toList (field :: cmp :: num_str :: extra) line_num records =
      if is_numeric_field field = false then
        (records, [Event.err (Stderr.filter_field_not_numeric field)])
      else
        match convert_to_float ops num_str with
        | none => (records, [Event.err (Stderr.filter_number_invalid num_str line_num)])
        | some number =>
          if cmp ≠ "ge".toList ∧ cmp ≠ "le".toList then
            (records, [Event.err (Stderr.filter_comparison_invalid cmp line_num)])
          else op_filter_numeric ops records field cmp number := by
  have h1 : ¬ ("filter".toList = "display".toList) := by decide
  have h2 : ¬ ("filter".toList = "filter-state".toList) := by decide
  simp only [interpret_tokens, if_neg h1, if_neg h2, if_true]

theorem is_numeric_field_iff (field : Str) :
    is_numeric_field field = true ↔ (field ≠ "County".toList ∧ field ≠ "State".toList) := by
  unfold is_numeric_field
  by_cases h : field = "County".toList ∨ field = "State".toList
  · rw [if_pos h]
    constructor
    · intro hf; cases hf
    · intro hn
      rcases h with h | h
      · exact absurd h hn.1
      · exact absurd h hn.2
  · rw [if_neg h]
    exact ⟨fun _ => ⟨fun hc => h (Or.inl hc), fun hs => h (Or.inr hs)⟩, fun _ => rfl⟩

theorem unknown_field_dispatched :
    operation_tokens unknown_field_line =
      ["filter".toList, "Foo".toList, "ge".toList, "3".toList] ∧
    "Foo".toList ∉ numeric_field_names ∧
    process_operation_line wholeOps unknown_field_line 1 sample_records =
      op_filter_numeric wholeOps sample_records "Foo".toList "ge".toList 3 ∧
    process_operation_line wholeOps unknown_field_line 1 sample_records =
      (sample_records, [Event.err (Stderr.filter_field_not_found "Foo".toList)]) :=
  ⟨by rfl, by decide, by rfl, by rfl⟩

/-- C15 (amended): for a `filter` instruction with its three arguments, the interpreter accepts
the line (the result of the line is the result of `op_filter_numeric` on the field, the
comparison and the converted number) if the field is neither `County` nor `State`, `cmp` is
`ge` or `le` and the number converts, and otherwise reports one of its own three errors and
leaves the records unchanged; the invalid-operator branch of the handler is never reached from
the line; its field-not-found branch is reached when an accepted field is none of the
fourteen numeric field names and some record is active. -/
theorem filter_validation (ops : FloatOps F D) (line : Str) (line_num : Int)
    (records : List (CountyRecord F)) (field cmp num_str : Str) (extra : List Str)
    (htok : operation_tokens line = "filter".toList :: field :: cmp :: num_str :: extra) :
    (∀ number : F, field ≠ "County".toList → field ≠ "State".toList →
      (cmp = "ge".toList ∨ cmp = "le".toList) → convert_to_float ops num_str = some number →
      process_operation_line ops line line_num records =
        op_filter_numeric ops records field cmp number) ∧
    (¬ (field ≠ "County".toList ∧ field ≠ "State".toList ∧
        (cmp = "ge".toList ∨ cmp = "le".toList) ∧ convert_to_float ops num_str ≠ none) →
      ∃ e ∈ [Stderr.filter_field_not_numeric field,
          Stderr.filter_number_invalid num_str line_num,
          Stderr.filter_comparison_invalid cmp line_num],
        process_operation_line ops line line_num records = (records, [Event.err e])) ∧
    (∀ x : Str, Event.err (Stderr.filter_invalid_operator x) ∉
      (process_operation_line ops line line_num records).2) ∧
    (∀ number : F, field ≠ "County".toList → field ≠ "State".toList →
      (cmp = "ge".toList ∨ cmp = "le".toList) → convert_to_float ops num_str = some number →
      field ∉ numeric_field_names → (∃ r ∈ records, r.active ≠ 0) →
      process_operation_line ops line line_num records =
        (records, [Event.err (Stderr.filter_field_not_found field)])) := by
  rw [process_operation_line_of_tokens ops line line_num records _ _ htok,
    interpret_tokens_filter]
  have haccept : ∀ number : F, field ≠ "County".toList → field ≠ "State".toList →
      (cmp = "ge".toList ∨ cmp = "le".toList) → convert_to_float ops num_str = some number →
      (if is_numeric_field field = false then
        (records, [Event.err (Stderr.filter_field_not_numeric field)])
      else
        match convert_to_float ops num_str with
        | none => (records, [Event.err (Stderr.filter_number_invalid num_str line_num)])
        | some number =>
          if cmp ≠ "ge".toList ∧ cmp ≠ "le".toList then
            (records, [Event.err (Stderr.filter_comparison_invalid cmp line_num)])
          else op_filter_numeric ops records field cmp number) =
        op_filter_numeric ops records field cmp number := by
    intro number hc hs hcmp hnum
    have hn : is_numeric_field field = true := (is_numeric_field_iff field).2 ⟨hc, hs⟩
    have hn2 : ¬ (is_numeric_field field = false) := by rw [hn]; decide
    have hcmp2 : ¬ (cmp ≠ "ge".toList ∧ cmp ≠ "le".toList) := by
      rintro ⟨h1, h2⟩
      rcases hcmp with h | h
      · exact h1 h
      · exact h2 h
    rw [if_neg hn2, hnum]
    simp only [if_neg hcmp2]
  refine ⟨haccept, ?_, ?_, ?_⟩
  · intro hrej
    by_cases hn : is_numeric_field field = false
    · exact ⟨_, List.Mem.head _, by rw [if_pos hn]⟩
    · rw [if_neg hn]
      have hn2 : is_numeric_field field = true := by
        cases h : is_numeric_field field
        · exact absurd h hn
        · rfl
      have hcs := (is_numeric_field_iff field).1 hn2
      cases hnum : convert_to_float ops num_str with
      | none => exact ⟨_, List.Mem.tail _ (List.Mem.head _), rfl⟩
      | some number =>
        by_cases hcmp : cmp ≠ "ge".toList ∧ cmp ≠ "le".toList
        · exact ⟨_, List.Mem.tail _ (List.Mem.tail _ (List.Mem.head _)), by
            simp only [if_pos hcmp]⟩
        · exfalso
          apply hrej
          refine ⟨hcs.1, hcs.2, ?_, by rw [hnum]; exact Option.some_ne_none _⟩
          by_cases hge : cmp = "ge".toList
          · exact Or.inl hge
          · by_cases hle : cmp = "le".toList
            · exact Or.inr hle
            · exact absurd ⟨hge, hle⟩ hcmp
  · intro x
    by_cases hn : is_numeric_field field = false
    · rw [if_pos hn]
      simp
    · rw [if_neg hn]
      cases hnum : convert_to_float ops num_str with
      | none => simp
      | some number =>
        by_cases hcmp : cmp ≠ "ge".toList ∧ cmp ≠ "le".toList
        · simp only [if_pos hcmp]
          simp
        · simp only [if_neg hcmp]
          apply op_filter_numeric_operator
          by_cases hge : cmp = "ge".toList
          · exact Or.inl hge
          · by_cases hle : cmp = "le".toList
            · exact Or.inr hle
            · exact absurd ⟨hge, hle⟩ hcmp
  · intro number hc hs hcmp hnum hunknown hact
    rw [haccept number hc hs hcmp hnum]
    exact op_filter_numeric_unknown ops records field cmp number hunknown hact

theorem filter_validation_witness :
    operation_tokens "filter:Education.High School or Higher:ge:60\n".toList =
      ["filter".toList, "Education.High School or Higher".toList, "ge".toList, "60".toList] ∧
    process_operation_line wholeOps "filter:Education.High School or Higher:ge:60\n".toList 3
        sample_records =
      op_filter_numeric wholeOps sample_records "Education.High School or Higher".toList
        "ge".toList 60 :=
  ⟨by rfl,
    (filter_validation wholeOps "filter:Education.High School or Higher:ge:60\n".toList 3
      sample_records "Education.High School or Higher".toList "ge".toList "60".toList []
      (by rfl)).1 60 (by decide) (by decide) (Or.inl rfl) (by rfl)⟩

end FilterValidation

/-! ## Validation of the population and percent instructions -/

section SubfieldValidation

variable {F D : Type}

theorem take_eq_iff_append (lit f : Str) (n : Nat) (hn : lit.length = n) :
    f.take n = lit ↔ ∃ rest, f = lit ++ rest := by
  constructor
  · intro h
    exact ⟨f.drop n, by rw [← h, List.take_append_drop]⟩
  · rintro ⟨rest, rfl⟩
    exact List.take_left' hn

theorem is_population_subfield_iff (field : Str) :
    is_population_subfield field = true ↔
      ((∃ rest, field = "Education.".toList ++ rest) ∨
        (∃ rest, field = "Ethnicities.".toList ++ rest) ∨
        field = "Income.Persons Below Poverty Level".toList) := by
  rw [← take_eq_iff_append "Education.".toList field 10 (by rfl),
    ← take_eq_iff_append "Ethnicities.".toList field 12 (by rfl)]
  unfold is_population_subfield
  by_cases h1 : field.take 10 = "Education.".toList
  · simp only [if_pos h1, true_iff]
    exact Or.inl h1
  · by_cases h2 : field.take 12 = "Ethnicities.".toList
    · simp only [if_neg h1, if_pos h2, true_iff]
      exact Or.inr (Or.inl h2)
    · by_cases h3 : field = "Income.Persons Below Poverty Level".toList
      · simp only [if_neg h1, if_neg h2, if_pos h3, true_iff]
        exact Or.inr (Or.inr h3)
      · simp only [if_neg h1, if_neg h2, if_neg h3]
        constructor
        · intro h; cases h
        · rintro (h | h | h)
          · exact absurd h h1
          · exact absurd h h2
          · exact absurd h h3

theorem interpret_tokens_population (ops : FloatOps F D) (field : Str) (extra : List Str)
    (line_num : Int) (records : List (CountyRecord F)) :
    interpret_tokens ops "population".toList (field :: extra) line_num records =
      if is_population_subfield field = false then
        (records, [Event.err (Stderr.population_not_supported field)])
      else (records, op_population_sub ops records field) := by
  have h1 : ¬ ("population".toList = "display".toList) := by decide
  have h2 : ¬ ("population".toList = "filter-state".toList) := by decide
  have h3 : ¬ ("population".toList = "filter".toList) := by decide
  have h4 : ¬ ("population".toList = "population-total".toList) := by decide
  simp only [interpret_tokens, if_neg h1, if_neg h2, if_neg h3, if_neg h4, if_true]

theorem interpret_tokens_percent (ops : FloatOps F D) (field : Str) (extra : List Str)
    (line_num : Int) (records : List (CountyRecord F)) :
    interpret_tokens ops "percent".toList (field :: extra) line_num records =
      if is_population_subfield field = false then
        (records, [Event.err (Stderr.percent_not_supported field)])
      else (records, op_percent_field ops records field) := by
  have h1 : ¬ ("percent".toList = "display".toList) := by decide
  have h2 : ¬ ("percent".toList = "filter-state".toList) := by decide
  have h3 : ¬ ("percent".toList = "filter".toList) := by decide
  have h4 : ¬ ("percent".toList = "population-total".toList) := by decide
  have h5 : ¬ ("percent".toList = "population".toList) := by decide
  simp only [interpret_tokens, if_neg h1, if_neg h2, if_neg h3, if_neg h4, if_neg h5, if_true]

theorem unknown_subfield_accepted :
    operation_tokens unknown_subfield_line = ["population".toList, "Education.Foo".toList] ∧
    "Education.Foo".toList ∉ population_subfields ∧
    is_population_subfield "Education.Foo".toList = true ∧
    process_operation_line wholeOps unknown_subfield_line 1 sample_records =
      (sample_records, op_population_sub wholeOps sample_records "Education.Foo".toList) ∧
    process_operation_line wholeOps unknown_subfield_line 1 sample_records =
      (sample_records, [Event.err (Stderr.population_invalid_field "Education.Foo".toList)]) :=
  ⟨by rfl, by decide, by decide, by rfl, by rfl⟩

/-- C16 (amended): `is_population_subfield` accepts a field argument if and only if it starts
with `Education.` or with `Ethnicities.` or is exactly `Income.Persons Below Poverty Level`.
Each of the eleven population subfields is accepted; median income, per-capita income and
total population are rejected.  For a `population` or `percent` instruction the interpreter
runs the handler on an accepted field and reports its not-supported error, leaving the records
unchanged, on a rejected one. -/
theorem subfield_validation :
    (∀ field : Str, is_population_subfield field = true ↔
      ((∃ rest, field = "Education.".toList ++ rest) ∨
        (∃ rest, field = "Ethnicities.".toList ++ rest) ∨
        field = "Income.Persons Below Poverty Level".toList)) ∧
    (∀ field ∈ population_subfields, is_population_subfield field = true) ∧
    (is_population_subfield "Income.Median Household Income".toList = false ∧
      is_population_subfield "Income.Per Capita Income".toList = false ∧
      is_population_subfield "Population.2014 Population".toList = false) ∧
    (∀ (ops : FloatOps F D) (line : Str) (line_num : Int) (records : List (CountyRecord F))
        (field : Str) (extra : List Str),
      operation_tokens line = "population".toList :: field :: extra →
        (is_population_subfield field = true →
          process_operation_line ops line line_num records =
            (records, op_population_sub ops records field)) ∧
        (is_population_subfield field = false →
          process_operation_line ops line line_num records =
            (records, [Event.err (Stderr.population_not_supported field)]))) ∧
    (∀ (ops : FloatOps F D) (line : Str) (line_num : Int) (records : List (CountyRecord F))
        (field : Str) (extra : List Str),
      operation_tokens line = "percent".toList :: field :: extra →
        (is_population_subfield field = true →
          process_operation_line ops line line_num records =
            (records, op_percent_field ops records field)) ∧
        (is_population_subfield field = false →
          process_operation_line ops line line_num records =
            (records, [Event.err (Stderr.percent_not_supported field)]))) := by
  refine ⟨is_population_subfield_iff, by decide, by decide, ?_, ?_⟩
  · intro ops line line_num records field extra htok
    rw [process_operation_line_of_tokens ops line line_num records _ _ htok,
      interpret_tokens_population]
    constructor
    · intro h
      have hn : ¬ (is_population_subfield field = false) := by rw [h]; decide
      rw [if_neg hn]
    · intro h
      rw [if_pos h]
  · intro ops line line_num records field extra htok
    rw [process_operation_line_of_tokens ops line line_num records _ _ htok,
      interpret_tokens_percent]
    constructor
    · intro h
      have hn : ¬ (is_population_subfield field = false) := by rw [h]; decide
      rw [if_neg hn]
    · intro h
      rw [if_pos h]

end SubfieldValidation

/-! ## Diagnostics exclude any other effect -/

section Atomic

variable {F D : Type}

theorem filter_field_value_isSome (ops : FloatOps F D) (field : Str) (r r2 : CountyRecord F) :
    (filter_field_value ops field r).isSome = (filter_field_value ops field r2).isSome := by
  unfold filter_field_value
  by_cases h1 : field = "Education.Bachelor's Degree or Higher".toList
  · simp only [if_pos h1, Option.isSome]
  simp only [if_neg h1]
  by_cases h2 : field = "Education.High School or Higher".toList
  · simp only [if_pos h2, Option.isSome]
  simp only [if_neg h2]
  by_cases h3 : field = "Ethnicities.American Indian and Alaska Native Alone".toList
  · simp only [if_pos h3, Option.isSome]
  simp only [if_neg h3]
  by_cases h4 : field = "Ethnicities.Asian Alone".toList
  · simp only [if_pos h4, Option.isSome]
  simp only [if_neg h4]
  by_cases h5 : field = "Ethnicities.Black Alone".toList
  · simp only [if_pos h5, Option.isSome]
  simp only [if_neg h5]
  by_cases h6 : field = "Ethnicities.Hispanic or Latino".toList
  · simp only [if_pos h6, Option.isSome]
  simp only [if_neg h6]
  by_cases h7 : field = "Ethnicities.Native Hawaiian and Other Pacific Islander Alone".toList
  · simp only [if_pos h7, Option.isSome]
  simp only [if_neg h7]
  by_cases h8 : field = "Ethnicities.Two or More Races".toList
  · simp only [if_pos h8, Option.isSome]
  simp only [if_neg h8]
  by_cases h9 : field = "Ethnicities.White Alone".toList
  · simp only [if_pos h9, Option.isSome]
  simp only [if_neg h9]
  by_cases h10 : field = "Ethnicities.White Alone, not Hispanic or Latino".toList
  · simp only [if_pos h10, Option.isSome]
  simp only [if_neg h10]
  by_cases h11 : field = "Income.Median Household Income".toList
  · simp only [if_pos h11, Option.isSome]
  simp only [if_neg h11]
  by_cases h12 : field = "Income.Per Capita Income".toList
  · simp only [if_pos h12, Option.isSome]
  simp only [if_neg h12]
  by_cases h13 : field = "Income.Persons Below Poverty Level".toList
  · simp only [if_pos h13, Option.isSome]
  simp only [if_neg h13]
  by_cases h14 : field = "Population.2014 Population".toList
  · simp only [if_pos h14, Option.isSome]
  simp only [if_neg h14]

theorem filter_field_value_getD (ops : FloatOps F D) (field : Str) (r0 : CountyRecord F)
    (val : F) (hv : filter_field_value ops field r0 = some val) :
    ∀ r : CountyRecord F, filter_field_value ops field r =
      some ((filter_field_value ops field r).getD val) := by
  intro r
  have h := filter_field_value_isSome ops field r r0
  rw [hv] at h
  cases hr : filter_field_value ops field r with
  | none => rw [hr] at h; cases h
  | some v => rfl

theorem filter_numeric_loop_resolved (ops : FloatOps F D) (field op : Str) (number : F)
    (r0 : CountyRecord F) (val : F) (hv : filter_field_value ops field r0 = some val)
    (hop : op = "ge".toList ∨ op = "le".toList) (rs : List (CountyRecord F)) (remain : Int) :
    ∃ n : Int, (filter_numeric_loop ops field op number rs remain).2 = Except.ok n := by
  exact ⟨_, filter_numeric_loop_snd ops field op number
    (fun r => (filter_field_value ops field r).getD val)
    (filter_field_value_getD ops field r0 val hv) hop rs remain⟩

theorem filter_numeric_loop_error (ops : FloatOps F D) (field op : Str) (number : F)
    (rs : List (CountyRecord F)) :
    ∀ (remain : Int) (e : Stderr),
      (filter_numeric_loop ops field op number rs remain).2 = Except.error e →
      (filter_numeric_loop ops field op number rs remain).1 = rs := by
  have hne : ¬ ("le".toList = "ge".toList) := by decide
  induction rs with
  | nil => intro remain e h; cases h
  | cons r rs ih =>
    intro remain e
    by_cases ha : r.active = 0
    · rw [filter_numeric_loop_inactive ops field op number r rs remain ha]
      intro h
      simp only at h ⊢
      rw [ih remain e h]
    · cases hv : filter_field_value ops field r with
      | none =>
        simp only [filter_numeric_loop, if_neg ha, hv]
        intro _
        trivial
      | some val =>
        by_cases hop : op = "ge".toList ∨ op = "le".toList
        · rw [filter_numeric_loop_active ops field op number
            (fun x => (filter_field_value ops field x).getD val)
            (filter_field_value_getD ops field r val hv) hop r rs remain ha]
          split
          · intro h
            simp only at h ⊢
            rw [ih (remain + 1) e h]
          · intro h
            simp only at h
            obtain ⟨n, hn⟩ := filter_numeric_loop_resolved ops field op number r val hv hop
              rs remain
            rw [hn] at h
            cases h
        · have h1 : ¬ op = "ge".toList := fun h => hop (Or.inl h)
          have h2 : ¬ op = "le".toList := fun h => hop (Or.inr h)
          simp only [filter_numeric_loop, if_neg ha, hv, if_neg h1, if_neg h2]
          intro _
          trivial

theorem op_display_no_err (records : List (CountyRecord F)) (e : Stderr) :
    Event.err e ∉ (op_display records : List (Event F D)) := by
  induction records with
  | nil => simp [op_display]
  | cons r rs ih =>
    simp only [op_display]
    split
    · intro h
      rcases List.mem_cons.1 h with h | h
      · cases h
      · exact ih h
    · exact ih

theorem atomic_err (records : List (CountyRecord F)) (e : Stderr) :
    atomic_outcome records (records, ([Event.err e] : List (Event F D))) :=
  Or.inr ⟨fun m h => by simp at h, rfl⟩

theorem atomic_nil (records : List (CountyRecord F)) :
    atomic_outcome records (records, ([] : List (Event F D))) :=
  Or.inl (fun e h => by simp at h)

theorem atomic_display (records : List (CountyRecord F)) :
    atomic_outcome records (records, (op_display records : List (Event F D))) :=
  Or.inl (op_display_no_err records)

theorem atomic_filter_state (records : List (CountyRecord F)) (X : Str) :
    atomic_outcome records
      (op_filter_state records X : List (CountyRecord F) × List (Event F D)) :=
  Or.inl (fun e h => by simp [op_filter_state] at h)

theorem atomic_filter_numeric (ops : FloatOps F D) (records : List (CountyRecord F))
    (field op : Str) (number : F) :
    atomic_outcome records (op_filter_numeric ops records field op number) := by
  unfold op_filter_numeric
  cases hr : (filter_numeric_loop ops field op number records 0).2 with
  | error e =>
    simp only
    rw [filter_numeric_loop_error ops field op number records 0 e hr]
    exact atomic_err records e
  | ok n =>
    exact Or.inl (fun e h => by simp at h)

theorem atomic_population_total (records : List (CountyRecord F)) :
    atomic_outcome records (records, (op_population_total records : List (Event F D))) :=
  Or.inl (fun e h => by simp [op_population_total] at h)

theorem atomic_population_sub (ops : FloatOps F D) (records : List (CountyRecord F))
    (field : Str) :
    atomic_outcome records (records, op_population_sub ops records field) := by
  unfold op_population_sub
  split
  · exact atomic_err records _
  · exact Or.inl (fun e h => by simp at h)

theorem atomic_percent_field (ops : FloatOps F D) (records : List (CountyRecord F))
    (field : Str) :
    atomic_outcome records (records, op_percent_field ops records field) := by
  unfold op_percent_field
  split
  · exact Or.inl (fun e h => by simp at h)
  · split
    · exact atomic_err records _
    · exact Or.inl (fun e h => by simp at h)

theorem process_operation_line_atomic (ops : FloatOps F D) (line : Str) (line_num : Int)
    (records : List (CountyRecord F)) :
    atomic_outcome records (process_operation_line ops line line_num records) := by
  unfold process_operation_line
  simp only []
  repeat' split
  all_goals
    first
      | exact atomic_err records _
      | exact atomic_nil records
      | exact atomic_display records
      | exact atomic_filter_state records _
      | exact atomic_filter_numeric ops records _ _ _
      | exact atomic_population_total records
      | exact atomic_population_sub ops records _
      | exact atomic_percent_field ops records _

/-- C17: if processing an instruction line emits a diagnostic, from the interpreter or from a
handler, then nothing is written to stdout for that line and the records after the line are
the records before it, every field of every record included. -/
theorem instruction_errors_atomic (ops : FloatOps F D) (line : Str) (line_num : Int)
    (records : List (CountyRecord F))
    (h : ∃ e : Stderr, Event.err e ∈ (process_operation_line ops line line_num records).2) :
    (∀ m : Stdout F D, Event.out m ∉ (process_operation_line ops line line_num records).2) ∧
    (process_operation_line ops line line_num records).1 = records := by
  rcases process_operation_line_atomic ops line line_num records with hno | hyes
  · obtain ⟨e, he⟩ := h
    exact absurd he (hno e)
  · exact hyes

theorem instruction_errors_atomic_witness :
    (∃ e : Stderr,
      Event.err e ∈ (process_operation_line wholeOps unknown_field_line 1 sample_records).2) ∧
    (process_operation_line wholeOps unknown_field_line 1 sample_records).1 = sample_records :=
  have h : ∃ e : Stderr,
      Event.err e ∈ (process_operation_line wholeOps unknown_field_line 1 sample_records).2 :=
    ⟨Stderr.filter_field_not_found "Foo".toList, by decide⟩
  ⟨h, (instruction_errors_atomic wholeOps unknown_field_line 1 sample_records h).2⟩

end Atomic

/-! ## What a line leaves unchanged -/

section Frame

variable {F D : Type}

theorem interpret_tokens_read_only (ops : FloatOps F D) (op : Str) (args : List Str)
    (line_num : Int) (records : List (CountyRecord F))
    (hop : op ∈ ["display".toList, "population-total".toList, "population".toList,
      "percent".toList]) :
    (interpret_tokens ops op args line_num records).1 = records := by
  have h1 : ¬ ("population-total".toList = "display".toList) := by decide
  have h2 : ¬ ("population-total".toList = "filter-state".toList) := by decide
  have h3 : ¬ ("population-total".toList = "filter".toList) := by decide
  simp only [List.mem_cons, List.mem_nil_iff, or_false] at hop
  rcases hop with rfl | rfl | rfl | rfl
  · simp only [interpret_tokens, if_true]
  · simp only [interpret_tokens, if_neg h1, if_neg h2, if_neg h3, if_true]
  · cases args with
    | nil => rfl
    | cons field extra =>
      rw [interpret_tokens_population]
      split <;> rfl
  · cases args with
    | nil => rfl
    | cons field extra =>
      rw [interpret_tokens_percent]
      split <;> rfl

/-- C18: an instruction line leaves the number of records unchanged and, in the record at each
position, the county, the state and the fourteen numeric fields; and a line whose verb is
`display`, `population-total`, `population` or `percent` returns the records exactly as they
were, the `active` flags included. -/
theorem process_operation_line_frame (ops : FloatOps F D) (records : List (CountyRecord F)) :
    (∀ (line : Str) (line_num : Int),
      (process_operation_line ops line line_num records).1.length = records.length ∧
      ∀ (i : Nat) (r r2 : CountyRecord F), records[i]? = some r →
        (process_operation_line ops line line_num records).1[i]? = some r2 →
        r2.county = r.county ∧
        r2.state = r.state ∧
        r2.edu_bachelors = r.edu_bachelors ∧
        r2.edu_hs = r.edu_hs ∧
        r2.eth_ai = r.eth_ai ∧
        r2.eth_asian = r.eth_asian ∧
        r2.eth_black = r.eth_black ∧
        r2.eth_hisp = r.eth_hisp ∧
        r2.eth_nhpi = r.eth_nhpi ∧
        r2.eth_2more = r.eth_2more ∧
        r2.eth_white = r.eth_white ∧
        r2.eth_white_non_hisp = r.eth_white_non_hisp ∧
        r2.income_median = r.income_median ∧
        r2.income_percap = r.income_percap ∧
        r2.income_poverty = r.income_poverty ∧
        r2.pop_2014 = r.pop_2014) ∧
    (∀ (line : Str) (line_num : Int) (op : Str) (args : List Str),
      operation_tokens line = op :: args →
      op ∈ ["display".toList, "population-total".toList, "population".toList,
        "percent".toList] →
      (process_operation_line ops line line_num records).1 = records) := by
  refine ⟨?_, ?_⟩
  · intro line line_num
    have hsh := process_operation_line_shrinks ops line line_num records
    refine ⟨hsh.length_eq.symm, ?_⟩
    intro i r r2 hr hr2
    rcases forall₂_getElem? hsh i r r2 hr hr2 with rfl | rfl
    · exact ⟨rfl, rfl, rfl, rfl, rfl, rfl, rfl, rfl, rfl, rfl, rfl, rfl, rfl, rfl, rfl, rfl⟩
    · exact ⟨rfl, rfl, rfl, rfl, rfl, rfl, rfl, rfl, rfl, rfl, rfl, rfl, rfl, rfl, rfl, rfl⟩
  · intro line line_num op args htok hop
    rw [process_operation_line_of_tokens ops line line_num records op args htok]
    exact interpret_tokens_read_only ops op args line_num records hop

end Frame

/-! ## Display -/

section Display

variable {F D : Type}

/-- C20: `op_display` emits one block for each record with `active != 0`, none for an inactive
record, in the order of the collection; the block of a record carries its county, state,
population, the two education values, the eight ethnicity values, the two income amounts and
the poverty value (a block is one event here: it stands for the `printf` calls of one loop
iteration, the last of which prints the blank line). -/
theorem op_display_spec (records : List (CountyRecord F)) :
    (op_display records : List (Event F D)) =
      (records.filter (fun r => decide (r.active ≠ 0))).map (fun r =>
        Event.out (Stdout.display r.county r.state r.pop_2014 r.edu_hs r.edu_bachelors
          r.eth_ai r.eth_asian r.eth_black r.eth_hisp r.eth_nhpi r.eth_2more r.eth_white
          r.eth_white_non_hisp r.income_median r.income_percap r.income_poverty)) ∧
    (op_display records : List (Event F D)).length = active_count records := by
  have h : (op_display records : List (Event F D)) =
      (records.filter (fun r => decide (r.active ≠ 0))).map (fun r =>
        Event.out (Stdout.display r.county r.state r.pop_2014 r.edu_hs r.edu_bachelors
          r.eth_ai r.eth_asian r.eth_black r.eth_hisp r.eth_nhpi r.eth_2more r.eth_white
          r.eth_white_non_hisp r.income_median r.income_percap r.income_poverty)) := by
    induction records with
    | nil => rfl
    | cons r rs ih =>
      by_cases ha : r.active ≠ 0
      · simp only [op_display, if_pos ha, List.filter_cons, decide_eq_true ha, if_true,
          List.map_cons, ih]
      · simp only [op_display, if_neg ha, List.filter_cons, decide_eq_false ha, ih]
        rfl
  refine ⟨h, ?_⟩
  rw [h, List.length_map, active_count, List.countP_eq_length_filter]

end Display

/-! ## Percentages and sub-populations -/

section Percent

variable {F D : Type}

theorem percent_field_value_eq (field : Str) (r : CountyRecord F) :
    percent_field_value field r = population_field_value field r := rfl

theorem percent_sub_loop_eq (ops : FloatOps F D) (field : Str) (rs : List (CountyRecord F)) :
    ∀ acc : D,
      percent_sub_loop ops field rs acc =
        match population_sub_loop ops field rs acc with
        | Except.ok S => Except.ok S
        | Except.error _ => Except.error (Stderr.percent_invalid_field field) := by
  induction rs with
  | nil => intro acc; rfl
  | cons r rs ih =>
    intro acc
    by_cases ha : r.active = 0
    · simp only [percent_sub_loop, population_sub_loop, if_pos ha]
      exact ih acc
    · cases hv : population_field_value field r with
      | none =>
        have hv2 : percent_field_value field r = none := hv
        simp only [percent_sub_loop, population_sub_loop, if_neg ha, hv, hv2]
      | some val =>
        have hv2 : percent_field_value field r = some val := hv
        simp only [percent_sub_loop, population_sub_loop, if_neg ha, hv, hv2]
        exact ih _

theorem population_field_value_table (name : Str) (get : CountyRecord F → F)
    (h : (name, get) ∈ (subfield_table : List (Str × (CountyRecord F → F))))
    (r : CountyRecord F) : population_field_value name r = some (get r) := by
  simp only [subfield_table, List.mem_cons, Prod.mk.injEq, List.mem_nil_iff, or_false] at h
  rcases h with h | h | h | h | h | h | h | h | h | h | h
  all_goals
    obtain ⟨rfl, rfl⟩ := h
    rfl

theorem population_sub_loop_resolved (ops : FloatOps F D) (field : Str)
    (get : CountyRecord F → F) (hval : ∀ r, population_field_value field r = some (get r))
    (rs : List (CountyRecord F)) :
    ∀ acc : D,
      population_sub_loop ops field rs acc =
        Except.ok ((rs.filter (fun r => decide (r.active ≠ 0))).foldl
          (fun total r =>
            ops.add total
              (ops.mul (ops.int_to_double r.pop_2014)
                (ops.div (ops.float_to_double (get r)) ops.hundred)))
          acc) := by
  induction rs with
  | nil => intro acc; rfl
  | cons r rs ih =>
    intro acc
    by_cases ha : r.active = 0
    · have hn : ¬ r.active ≠ 0 := fun h => h ha
      simp only [population_sub_loop, if_pos ha, List.filter_cons, decide_eq_false hn]
      exact ih acc
    · have hn : r.active ≠ 0 := ha
      simp only [population_sub_loop, if_neg ha, hval, List.filter_cons, decide_eq_true hn,
        if_true, List.foldl_cons]
      exact ih _

/-- C19: when the total `T` that `op_population_total` reports is non-zero, `op_percent_field`
reads, for every field string and record, the same value as `op_population_sub`; when
`op_population_sub` reports the sum `S` for the field, `op_percent_field` reports
`(S / (double)T) * 100.0`; when `op_population_sub` warns that the field is invalid, so does
`op_percent_field`.  For each of the eleven field names of the chain, `S` is the weighted sum
of `pop_2014 * (value / 100.0)` over the active records, accumulated in order from `0.0`. -/
theorem op_percent_field_agrees (ops : FloatOps F D) (records : List (CountyRecord F))
    (field : Str) (T : Int)
    (hT : (op_population_total records : List (Event F D)) =
      [Event.out (Stdout.population_total T)])
    (hne : T ≠ 0) :
    (∀ r : CountyRecord F, percent_field_value field r = population_field_value field r) ∧
    (∀ S : D, op_population_sub ops records field = [Event.out (Stdout.population_sub field S)] →
      op_percent_field ops records field =
        [Event.out (Stdout.percent field
          (ops.mul (ops.div S (ops.int_to_double T)) ops.hundred))]) ∧
    (op_population_sub ops records field =
        [Event.err (Stderr.population_invalid_field field)] →
      op_percent_field ops records field = [Event.err (Stderr.percent_invalid_field field)]) ∧
    (∀ get : CountyRecord F → F, (field, get) ∈ subfield_table →
      op_population_sub ops records field =
        [Event.out (Stdout.population_sub field (weighted_sum ops get records))]) := by
  have hTeq : population_total_loop records 0 = T := by
    simp only [op_population_total, List.cons.injEq, Event.out.injEq,
      Stdout.population_total.injEq, and_true] at hT
    exact hT
  have hpT : percent_total_loop records 0 = T := by
    rw [percent_total_loop_eq, hTeq]
  have hpne : ¬ (percent_total_loop records 0 = 0) := by
    rw [hpT]
    exact hne
  have hloop := percent_sub_loop_eq ops field records ops.zero
  refine ⟨percent_field_value_eq field, ?_, ?_, ?_⟩
  · intro S hS
    cases hp : population_sub_loop ops field records ops.zero with
    | error e =>
      simp only [op_population_sub, hp, List.cons.injEq, and_true] at hS
      cases hS
    | ok total =>
      simp only [op_population_sub, hp, List.cons.injEq, Event.out.injEq,
        Stdout.population_sub.injEq, true_and, and_true] at hS
      subst hS
      rw [hp] at hloop
      simp only [op_percent_field, hloop, hpT, if_neg hne]
  · intro hE
    cases hp : population_sub_loop ops field records ops.zero with
    | error e =>
      rw [hp] at hloop
      simp only [op_percent_field, if_neg hpne, hloop]
    | ok total =>
      simp only [op_population_sub, hp, List.cons.injEq, and_true] at hE
      cases hE
  · intro get hget
    have hval := population_field_value_table field get hget
    simp only [op_population_sub,
      population_sub_loop_resolved ops field get hval records ops.zero, weighted_sum]

theorem op_percent_field_agrees_witness :
    (op_population_total sample_records : List (Event Int Int)) =
      [Event.out (Stdout.population_total 3000)] ∧
    op_percent_field wholeOps sample_records "Ethnicities.White Alone".toList =
      [Event.out (Stdout.percent "Ethnicities.White Alone".toList
        (wholeOps.mul (wholeOps.div
          (weighted_sum wholeOps (fun r => r.eth_white) sample_records)
          (wholeOps.int_to_double 3000)) wholeOps.hundred))] :=
  have hT : (op_population_total sample_records : List (Event Int Int)) =
      [Event.out (Stdout.population_total 3000)] := by rfl
  ⟨hT,
    (op_percent_field_agrees wholeOps sample_records "Ethnicities.White Alone".toList 3000 hT
      (by decide)).2.1 _
      ((op_percent_field_agrees wholeOps sample_records "Ethnicities.White Alone".toList 3000
        hT (by decide)).2.2.2 (fun r => r.eth_white)
        (List.Mem.tail _ (List.Mem.tail _ (List.Mem.tail _ (List.Mem.tail _ (List.Mem.tail _
          (List.Mem.tail _ (List.Mem.tail _ (List.Mem.tail _ (List.Mem.head _))))))))))⟩

end Percent

/-! ## Column names of the schema and field names of the handlers -/

section Schema

variable {F D : Type}

theorem schema_columns_resolved (ops : FloatOps F D) (headers : List Str) (line : Str)
    (line_num : Int) (fields : List Str) (rec : CountyRecord F)
    (hsplit : split_fields line = some fields)
    (h : parse_csv_line ops line line_num (resolve_indices headers) = some (some rec)) :
    filter_field_value ops "Education.Bachelor's Degree or Higher".toList rec =
      convert_to_float ops
        (field_at fields (find_header_index headers "Education.Bachelor's Degree or Higher".toList)) ∧
    filter_field_value ops "Education.High School or Higher".toList rec =
      convert_to_float ops
        (field_at fields (find_header_index headers "Education.High School or Higher".toList)) ∧
    filter_field_value ops "Ethnicities.American Indian and Alaska Native Alone".toList rec =
      convert_to_float ops
        (field_at fields (find_header_index headers "Ethnicities.American Indian and Alaska Native Alone".toList)) ∧
    filter_field_value ops "Ethnicities.Asian Alone".toList rec =
      convert_to_float ops
        (field_at fields (find_header_index headers "Ethnicities.Asian Alone".toList)) ∧
    filter_field_value ops "Ethnicities.Black Alone".toList rec =
      convert_to_float ops
        (field_at fields (find_header_index headers "Ethnicities.Black Alone".toList)) ∧
    filter_field_value ops "Ethnicities.Hispanic or Latino".toList rec =
      convert_to_float ops
        (field_at fields (find_header_index headers "Ethnicities.Hispanic or Latino".toList)) ∧
    filter_field_value ops "Ethnicities.Native Hawaiian and Other Pacific Islander Alone".toList rec =
      convert_to_float ops
        (field_at fields (find_header_index headers "Ethnicities.Native Hawaiian and Other Pacific Islander Alone".toList)) ∧
    filter_field_value ops "Ethnicities.Two or More Races".toList rec =
      convert_to_float ops
        (field_at fields (find_header_index headers "Ethnicities.Two or More Races".toList)) ∧
    filter_field_value ops "Ethnicities.White Alone".toList rec =
      convert_to_float ops
        (field_at fields (find_header_index headers "Ethnicities.White Alone".toList)) ∧
    filter_field_value ops "Income.Median Household Income".toList rec =
      (convert_to_int
        (field_at fields
          (find_header_index headers "Income.Median Household Income".toList))).map
        ops.int_to_float ∧
    filter_field_value ops "Income.Per Capita Income".toList rec =
      (convert_to_int
        (field_at fields
          (find_header_index headers "Income.Per Capita Income".toList))).map
        ops.int_to_float ∧
    filter_field_value ops "Income.Persons Below Poverty Level".toList rec =
      convert_to_float ops
        (field_at fields
          (find_header_index headers "Income.Persons Below Poverty Level".toList)) ∧
    filter_field_value ops "Population.2014 Population".toList rec =
      (convert_to_int
        (field_at fields
          (find_header_index headers "Population.2014 Population".toList))).map
        ops.int_to_float := by
  rw [parse_csv_line_of_fields ops line line_num _ fields hsplit, Option.some.injEq] at h
  have hc := (parse_fields_cases ops fields (resolve_indices headers)).2 rec h
  exact ⟨Eq.trans rfl hc.1.symm,
    Eq.trans rfl hc.2.1.symm,
    Eq.trans rfl hc.2.2.1.symm,
    Eq.trans rfl hc.2.2.2.1.symm,
    Eq.trans rfl hc.2.2.2.2.1.symm,
    Eq.trans rfl hc.2.2.2.2.2.1.symm,
    Eq.trans rfl hc.2.2.2.2.2.2.1.symm,
    Eq.trans rfl hc.2.2.2.2.2.2.2.1.symm,
    Eq.trans rfl hc.2.2.2.2.2.2.2.2.1.symm,
    (congrArg (Option.map ops.int_to_float) hc.2.2.2.2.2.2.2.2.2.2.1).symm,
    (congrArg (Option.map ops.int_to_float) hc.2.2.2.2.2.2.2.2.2.2.2.1).symm,
    Eq.trans rfl hc.2.2.2.2.2.2.2.2.2.2.2.2.1.symm,
    (congrArg (Option.map ops.int_to_float) hc.2.2.2.2.2.2.2.2.2.2.2.2.2.1).symm⟩

/-- C21 (at the failing input): the column name under which `load_demographics` requires the
column of `eth_white_non_hisp` is none of the fourteen field names of `op_filter_numeric`; of
the sixteen required names the handler does not recognise the two identity columns and this
one.  On the two records loaded from the sample file, all active, a `filter` on that column
name ends in the field-not-found branch with the records unchanged, and `population` and
`percent` on it end in the invalid-field warnings of their handlers. -/
theorem schema_column_not_recognised :
    white_non_hisp_column ∈ required_columns ∧
    white_non_hisp_column ∉ numeric_field_names ∧
    required_columns.filter (fun name => decide (name ∉ numeric_field_names)) =
      ["County".toList, "State".toList, white_non_hisp_column] ∧
    load_demographics wholeOps (some (sample_header :: sample_lines)) =
      some (some sample_records,
        [Event.err (Stderr.malformed_line 3), Event.out (Stdout.records_loaded 2)]) ∧
    process_operation_line wholeOps schema_filter_line 1 sample_records =
      (sample_records, [Event.err (Stderr.filter_field_not_found white_non_hisp_column)]) ∧
    process_operation_line wholeOps schema_population_line 2 sample_records =
      (sample_records, [Event.err (Stderr.population_invalid_field white_non_hisp_column)]) ∧
    process_operation_line wholeOps schema_percent_line 3 sample_records =
      (sample_records, [Event.err (Stderr.percent_invalid_field white_non_hisp_column)]) :=
  ⟨by decide, by decide, by decide, by rfl, by rfl, by rfl, by rfl⟩

end Schema

/-! ## Filters commute -/

section Commute

variable {F D : Type}

theorem numeric_field_names_table (ops : FloatOps F D) (field : Str)
    (h : field ∈ numeric_field_names) :
    ∃ get : CountyRecord F → F, (field, get) ∈ numeric_field_table ops := by
  have hmap : numeric_field_names = (numeric_field_table ops).map Prod.fst := rfl
  rw [hmap] at h
  obtain ⟨⟨name, get⟩, hmem, hname⟩ := List.mem_map.1 h
  simp only at hname
  subst hname
  exact ⟨get, hmem⟩

theorem filter_instruction_run_eq (ops : FloatOps F D) (f : FilterInstruction F)
    (hf : f.valid) :
    ∃ p : CountyRecord F → Bool,
      (∀ (r : CountyRecord F) (a : Int), p { r with active := a } = p r) ∧
      (∀ r : CountyRecord F, p r = true ↔ f.holds ops r) ∧
      ∀ records : List (CountyRecord F),
        f.run ops records =
          records.map (fun r => if r.active ≠ 0 ∧ p r = true then r
            else { r with active := 0 }) := by
  cases f with
  | state X =>
    refine ⟨fun r => decide (r.state = X), fun _ _ => rfl, ?_, ?_⟩
    · intro r
      simp only [decide_eq_true_eq, FilterInstruction.holds]
    · intro records
      simp only [FilterInstruction.run]
      rw [op_filter_state_eq records X]
      apply List.map_congr_left
      intro r _
      by_cases h : r.active ≠ 0 ∧ r.state = X
      · have h2 : r.active ≠ 0 ∧ decide (r.state = X) = true := ⟨h.1, decide_eq_true h.2⟩
        rw [if_pos h, if_pos h2]
      · have h2 : ¬ (r.active ≠ 0 ∧ decide (r.state = X) = true) :=
          fun hc => h ⟨hc.1, of_decide_eq_true hc.2⟩
        rw [if_neg h, if_neg h2]
  | numeric field cmp number =>
    obtain ⟨hname, hcmp⟩ := hf
    obtain ⟨get, hget⟩ := numeric_field_names_table ops field hname
    refine ⟨fun r => threshold_holds ops cmp (get r) number, ?_, ?_, ?_⟩
    · intro r a
      simp only [numeric_field_table_frame ops field get hget r a]
    · intro r
      simp only [FilterInstruction.holds, filter_field_value_table ops field get hget r,
        Option.some.injEq, exists_eq_left', threshold_holds]
      split <;> exact Iff.rfl
    · intro records
      simp only [FilterInstruction.run]
      rw [op_filter_numeric_eq ops records field get cmp number hget hcmp]

theorem filter_step_comp (p q : CountyRecord F → Bool) (r r1 : CountyRecord F)
    (h1 : r1 = if r.active ≠ 0 ∧ p r = true then r else { r with active := 0 }) :
    (if r1.active ≠ 0 ∧ q r1 = true then r1 else { r1 with active := 0 }) =
      if r.active ≠ 0 ∧ p r = true ∧ q r = true then r else { r with active := 0 } := by
  by_cases hp : r.active ≠ 0 ∧ p r = true
  · rw [if_pos hp] at h1
    subst h1
    by_cases hq : r1.active ≠ 0 ∧ q r1 = true
    · rw [if_pos hq, if_pos ⟨hp.1, hp.2, hq.2⟩]
    · rw [if_neg hq, if_neg (fun h => hq ⟨h.1, h.2.2⟩)]
  · rw [if_neg hp] at h1
    subst h1
    have h0 : ¬ (({ r with active := 0 } : CountyRecord F).active ≠ 0 ∧
        q { r with active := 0 } = true) := fun h => h.1 rfl
    rw [if_neg h0, if_neg (fun h => hp ⟨h.1, h.2.1⟩)]

theorem filter_instructions_compose (ops : FloatOps F D) (f g : FilterInstruction F)
    (hf : f.valid) (hg : g.valid) (records : List (CountyRecord F)) :
    ∃ keep : CountyRecord F → Bool,
      (∀ r, keep r = true ↔ (r.active ≠ 0 ∧ f.holds ops r ∧ g.holds ops r)) ∧
      g.run ops (f.run ops records) =
        records.map (fun r => if keep r = true then r else { r with active := 0 }) ∧
      f.run ops (g.run ops records) =
        records.map (fun r => if keep r = true then r else { r with active := 0 }) := by
  obtain ⟨p, _, hph, hprun⟩ := filter_instruction_run_eq ops f hf
  obtain ⟨q, _, hqh, hqrun⟩ := filter_instruction_run_eq ops g hg
  have hkeep : ∀ r : CountyRecord F,
      decide (r.active ≠ 0 ∧ p r = true ∧ q r = true) = true ↔
        (r.active ≠ 0 ∧ p r = true ∧ q r = true) := fun r => decide_eq_true_iff
  refine ⟨fun r => decide (r.active ≠ 0 ∧ p r = true ∧ q r = true), ?_, ?_, ?_⟩
  · intro r
    rw [hkeep r, hph r, hqh r]
  · rw [hprun, hqrun, List.map_map]
    apply List.map_congr_left
    intro r _
    refine (filter_step_comp p q r _ rfl).trans ?_
    by_cases h : r.active ≠ 0 ∧ p r = true ∧ q r = true
    · rw [if_pos h, if_pos ((hkeep r).2 h)]
    · rw [if_neg h, if_neg (fun hc => h ((hkeep r).1 hc))]
  · rw [hqrun, hprun, List.map_map]
    apply List.map_congr_left
    intro r _
    refine (filter_step_comp q p r _ rfl).trans ?_
    by_cases h : r.active ≠ 0 ∧ p r = true ∧ q r = true
    · rw [if_pos ⟨h.1, h.2.2, h.2.1⟩, if_pos ((hkeep r).2 h)]
    · rw [if_neg (fun hc => h ⟨hc.1, hc.2.2, hc.2.1⟩), if_neg (fun hc => h ((hkeep r).1 hc))]

/-- C22: two valid filter instructions, each a `filter-state` or a numeric filter with one of the
fourteen recognised field names and the operator `ge` or `le`, commute: run in either order on
a record collection they give the same records, of the same number, and the record at each
position is active afterwards if and only if the record there was active before and satisfies
the predicates of both instructions. -/
theorem filters_commute (ops : FloatOps F D) (f g : FilterInstruction F)
    (records : List (CountyRecord F)) (hf : f.valid) (hg : g.valid) :
    g.run ops (f.run ops records) = f.run ops (g.run ops records) ∧
    (g.run ops (f.run ops records)).length = records.length ∧
    ∀ (i : Nat) (r : CountyRecord F), records[i]? = some r →
      ∃ r2 : CountyRecord F, (g.run ops (f.run ops records))[i]? = some r2 ∧
        (r2.active ≠ 0 ↔ (r.active ≠ 0 ∧ f.holds ops r ∧ g.holds ops r)) := by
  obtain ⟨keep, hkeep, hgf, hfg⟩ := filter_instructions_compose ops f g hf hg records
  rw [hgf, hfg]
  refine ⟨rfl, by simp, ?_⟩
  intro i r hr
  simp only [List.getElem?_map, hr, Option.map_some']
  refine ⟨_, rfl, ?_⟩
  rw [← hkeep r]
  by_cases h : keep r = true
  · rw [if_pos h]
    exact ⟨fun _ => h, fun _ => ((hkeep r).1 h).1⟩
  · rw [if_neg h]
    exact ⟨fun h0 => absurd rfl h0, fun hk => absurd hk h⟩

theorem filters_commute_witness :
    (FilterInstruction.state "CA".toList : FilterInstruction Int).valid ∧
    (FilterInstruction.numeric "Education.High School or Higher".toList "ge".toList 60 :
      FilterInstruction Int).valid ∧
    (FilterInstruction.numeric "Education.High School or Higher".toList "ge".toList 60).run
        wholeOps ((FilterInstruction.state "CA".toList).run wholeOps sample_records) =
      (FilterInstruction.state "CA".toList).run wholeOps
        ((FilterInstruction.numeric "Education.High School or Higher".toList "ge".toList 60).run
          wholeOps sample_records) ∧
    ((FilterInstruction.numeric "Education.High School or Higher".toList "ge".toList 60).run
        wholeOps ((FilterInstruction.state "CA".toList).run wholeOps sample_records)).map
      (fun r => r.active) = [0, 1] :=
  have hf : (FilterInstruction.state "CA".toList : FilterInstruction Int).valid := trivial
  have hg : (FilterInstruction.numeric "Education.High School or Higher".toList "ge".toList 60 :
      FilterInstruction Int).valid := ⟨by decide, Or.inl rfl⟩
  ⟨hf, hg,
    (filters_commute wholeOps (FilterInstruction.state "CA".toList)
      (FilterInstruction.numeric "Education.High School or Higher".toList "ge".toList 60)
      sample_records hf hg).1,
    by rfl⟩

end Commute

end Demographics
